import Mathlib

/-!
# Clinica Manila admin client: day-off reconciliation and appointment actions

A shallow embedding of the parts of the admin/doctor web client that drive the
doctor-availability reconciliation pass and the appointment actions:

* `src/context/AdminContext.jsx`, `src/context/DoctorContext.jsx`: the request
  helpers (each one an `async` function around one `axios` call);
* `src/components/DayOffManager.jsx`: the component that runs the day-off check on
  mount, every 60 seconds and on "Update Now";
* `src/components/ConsultationSummaryModal.jsx`, `src/pages/Doctor/DoctorProfile.jsx`;
* `src/pages/Admin/Archive.jsx`, `src/pages/Admin/Dashboard_fixed.jsx`,
  `src/components/Sidebar.jsx`: the restore dialog, the dashboard counts and the
  sidebar badge.

An `async` function is embedded as a function from the outcomes of the requests it
makes to the effects it performs, in order, and its result (`Eff`).
-/

namespace Clinica

/-! ## Values exchanged with the backend -/

/-- HTTP verbs of `axios`. The client calls `axios.get`, `axios.post` and `axios.put`;
`delete` is listed so that its absence can be stated. -/
inductive Method
  | get
  | post
  | put
  | delete
  deriving DecidableEq, Repr

/-- The JavaScript values that appear in request bodies. -/
inductive JsVal
  | undefined
  | str (s : String)
  | bool (b : Bool)
  | num (n : Int)
  | obj (fields : List (String × String))
  deriving DecidableEq, Repr

/-- One `axios` call: verb, URL, JSON body (key/value pairs) and headers. -/
structure Request where
  method : Method
  url : String
  body : List (String × JsVal)
  headers : List (String × String)
  deriving DecidableEq, Repr

/-- A doctor object as the client receives it in `data.doctors`. -/
structure DoctorRow where
  _id : String
  name : String
  dayOff : String
  available : Bool
  deriving DecidableEq, Repr

/-- A patient (user) object as the client receives it in `data.archivedUsers`. -/
structure UserRow where
  _id : String
  firstName : String
  lastName : String
  email : String
  deriving DecidableEq, Repr

/-- The patient object stored in an appointment (`app.userData`). `middleName` is
`none` when the object has no such property (JavaScript `undefined`). -/
structure UserData where
  firstName : String := ""
  lastName : String := ""
  middleName : Option String := none
  email : String := ""
  deriving DecidableEq, Repr

/-- The doctor object stored in an appointment (`app.docData`); a property the object
does not have is the empty string, which `||` treats like `undefined`. -/
structure DocData where
  name : String := ""
  image : String := ""
  speciality : String := ""
  specialization : String := ""
  deriving DecidableEq, Repr

/-- An appointment object as the client receives it. -/
structure Appointment where
  _id : String
  docId : String
  slotDate : String
  slotTime : String
  cancelled : Bool
  isCompleted : Bool
  seen : Bool
  consultationSummary : Option String
  userData : UserData := {}
  docData : DocData := {}
  deriving DecidableEq, Repr

/-- The `stats` object returned by the day-off check. -/
structure ReconciliationStats where
  total : Nat
  available : Nat
  unavailable : Nat
  onDayOff : Nat
  turnedOn : Nat
  turnedOff : Nat
  deriving DecidableEq, Repr

/-- The `dashData` object of the doctor dashboard; a field the backend leaves out is
`none`. -/
structure DashPayload where
  appointments : Option Nat
  patients : Option Nat
  latestAppointments : Option (List Appointment)
  doctorName : Option String
  deriving DecidableEq, Repr

/-- The doctor profile object held in `profileData`. -/
structure ProfileData where
  name : String
  address : List (String × String)
  fees : Int
  about : String
  available : Bool
  dayOff : String
  deriving DecidableEq, Repr

/-- The body (`response.data`) of a backend response. Every endpoint answers with
`success` and `message`; the other fields are the payloads the client reads. -/
structure Data where
  success : Bool
  message : String
  doctors : List DoctorRow := []
  appointments : List Appointment := []
  stats : Option ReconciliationStats := none
  dashData : DashPayload := ⟨none, none, none, none⟩
  profileData : Option ProfileData := none
  archivedDoctors : List DoctorRow := []
  archivedUsers : List UserRow := []
  deriving DecidableEq, Repr

/-- A thrown error: `error.message` and `error.response?.data?.message`. -/
structure JsError where
  message : String
  responseMessage : Option String := none
  deriving DecidableEq, Repr

/-- How a request ends: the promise resolves with a response body, or rejects. -/
inductive Outcome
  | resolved (data : Data)
  | rejected (error : JsError)
  deriving DecidableEq, Repr

/-- The dashboard state object of `DoctorContext`. -/
structure DashData where
  appointments : Nat
  patients : Nat
  latestAppointments : List Appointment
  doctorName : String
  deriving DecidableEq, Repr

/-! ## Effects -/

/-- Everything an embedded function can do to the outside: issue a request, show a
toast, write to the console, set a piece of React state, call a callback prop, or
register/clear an interval timer. -/
inductive Effect
  | request (r : Request)
  | toastSuccess (msg : String)
  | toastError (msg : String)
  | consoleLog (msg : String)
  | consoleError (msg : String)
  -- AdminContext state
  | setDoctors (ds : List DoctorRow)
  | setAppointments (as : List Appointment)
  | setAdminDashData (d : DashPayload)
  | setArchivedDoctors (ds : List DoctorRow)
  | setArchivedUsers (us : List UserRow)
  -- DoctorContext state
  | setDashData (d : DashData)
  | setAppointmentHistory (as : List Appointment)
  | setProfileData (p : Option ProfileData)
  -- DayOffManager state
  | setIsLoading (b : Bool)
  | setDayOffData (d : Data)
  | setLastUpdated
  | setStats (s : Option ReconciliationStats)
  | setCurrentDay (day : String)
  | clearInterval (id : Nat)
  -- DoctorProfile state
  | setLoading (b : Bool)
  | setIsEdit (b : Bool)
  -- ConsultationSummaryModal
  | setIsSubmitting (b : Bool)
  | onSubmit (appointmentId : String) (summary : String)
  | onClose
  -- Archive page state
  | setIsRestoring (b : Bool)
  | setRestoreModalOpen (b : Bool)
  | setItemToRestore (item : Option (String × String))
  -- DoctorsList page state
  | setIsArchiving (b : Bool)
  | setArchiveModalOpen (b : Bool)
  | setDoctorToArchive (doctor : Option DoctorRow)
  deriving DecidableEq, Repr

/-- Whether an effect is a request. -/
def Effect.isRequest : Effect → Bool
  | .request _ => true
  | _ => false

/-- Whether an effect is an error toast. -/
def Effect.isToastError : Effect → Bool
  | .toastError _ => true
  | _ => false

/-- Whether an effect is any toast. -/
def Effect.isToast : Effect → Bool
  | .toastSuccess _ => true
  | .toastError _ => true
  | _ => false

/-- The run of an `async` function.

* `trace`: the effects in program order. The effects of a callee that is awaited
  are part of it.
* `later`: the effects of callees started *without* `await`, from the point where
  such a callee first suspends. They happen once its response has arrived, at no
  fixed position relative to the rest of `trace`.
* `result`: the value the returned promise resolves with, or the error it rejects
  with. -/
structure Eff (α : Type) where
  trace : List Effect
  later : List Effect
  result : Except JsError α

namespace Eff

/-- Sequencing: if the first part throws, the rest does not run. -/
def bind {α β : Type} (m : Eff α) (f : α → Eff β) : Eff β :=
  match m.result with
  | .ok a => ⟨m.trace ++ (f a).trace, m.later ++ (f a).later, (f a).result⟩
  | .error e => ⟨m.trace, m.later, .error e⟩

instance : Monad Eff where
  pure a := ⟨[], [], .ok a⟩
  bind := Eff.bind

/-- Perform one effect. -/
def emit (e : Effect) : Eff Unit := ⟨[e], [], .ok ()⟩

/-- Block `try { body } catch (error) { handler error }`. -/
def tryCatch {α : Type} (body : Eff α) (handler : JsError → Eff α) : Eff α :=
  match body.result with
  | .ok _ => body
  | .error e =>
    ⟨body.trace ++ (handler e).trace, body.later ++ (handler e).later, (handler e).result⟩

/-- Block `try { body } finally { fin }`: `fin` always runs; the result is that of
`body` unless `fin` itself throws. -/
def tryFinally {α : Type} (body : Eff α) (fin : Eff Unit) : Eff α :=
  ⟨body.trace ++ fin.trace, body.later ++ fin.later,
    match fin.result with
    | .ok _ => body.result
    | .error e => .error e⟩

/-- The effects of a trace up to and including its first request: what an `async`
callee does before it first suspends. -/
def beforeSuspend : List Effect → List Effect
  | [] => []
  | e :: es => if e.isRequest then [e] else e :: beforeSuspend es

/-- The effects of a trace after its first request. -/
def afterSuspend : List Effect → List Effect
  | [] => []
  | e :: es => if e.isRequest then es else afterSuspend es

/-- A call without `await`: the callee runs until it first suspends (its request
is issued), the caller goes on, and the rest of the callee runs later. Neither its
value nor its rejection reaches the caller. -/
def detach {α : Type} (m : Eff α) : Eff Unit :=
  ⟨beforeSuspend m.trace, afterSuspend m.trace ++ m.later, .ok ()⟩

/-- The call `await axios.<method>(url, body, { headers })`, with the outcome the
backend gives it. -/
def axios (r : Request) (o : Outcome) : Eff Data :=
  ⟨[.request r], [],
    match o with
    | .resolved d => .ok d
    | .rejected e => .error e⟩

/-- Whether the returned promise rejects. -/
def rejects {α : Type} (m : Eff α) : Bool :=
  match m.result with
  | .ok _ => false
  | .error _ => true

/-- All requests issued, those of detached callees included. -/
def requests {α : Type} (m : Eff α) : List Request :=
  (m.trace ++ m.later).filterMap fun e =>
    match e with
    | .request r => some r
    | _ => none

/-- All effects performed, those of detached callees last. -/
def effects {α : Type} (m : Eff α) : List Effect := m.trace ++ m.later

end Eff

/-- JavaScript `a || b` on strings: the empty string is falsy. -/
def strOr (a b : String) : String := if a = "" then b else a

/-- What the context providers close over: the backend URL and the tokens. -/
structure Env where
  backendUrl : String
  aToken : String
  dToken : String
  deriving DecidableEq, Repr

/-- The header object `{ Authorization: "Bearer <aToken>" }`. -/
def Env.adminHeaders (env : Env) : List (String × String) :=
  [("Authorization", "Bearer " ++ env.aToken)]

/-- The header object `{ dToken }`. -/
def Env.doctorHeaders (env : Env) : List (String × String) :=
  [("dToken", env.dToken)]

/-! ## `src/context/AdminContext.jsx` -/

namespace AdminContext

/-- Function `getAllDoctors` (lines 99-114). -/
def getAllDoctors (env : Env) (o : Outcome) : Eff Unit :=
  Eff.tryCatch
    (do
      let data ← Eff.axios ⟨.get, env.backendUrl ++ "/api/admin/all-doctors", [], env.adminHeaders⟩ o
      if data.success then
        Eff.emit (.setDoctors data.doctors)
      else
        Eff.emit (.toastError data.message))
    (fun error => Eff.emit (.toastError error.message))

/-- Function `updateDoctor` (lines 141-164). `doctors` is the outcome of the
refresh it starts on success. -/
def updateDoctor (env : Env) (doctorId : String) (formData : List (String × JsVal))
    (o doctors : Outcome) : Eff Bool :=
  Eff.tryCatch
    (do
      let data ← Eff.axios
        ⟨.put, env.backendUrl ++ "/api/admin/update-doctor/" ++ doctorId, formData,
          env.adminHeaders ++ [("Content-Type", "multipart/form-data")]⟩ o
      if data.success then do
        Eff.emit (.toastSuccess data.message)
        Eff.detach (getAllDoctors env doctors)
        pure true
      else do
        Eff.emit (.toastError data.message)
        pure false)
    (fun error => do
      Eff.emit (.toastError error.message)
      Eff.emit (.consoleLog error.message)
      pure false)

/-- Function `changeAvailability` (lines 302-315). -/
def changeAvailability (env : Env) (docId : String) (o doctors : Outcome) : Eff Unit :=
  Eff.tryCatch
    (do
      let data ← Eff.axios
        ⟨.post, env.backendUrl ++ "/api/admin/change-availability", [("docId", .str docId)],
          env.adminHeaders⟩ o
      if data.success then do
        Eff.emit (.toastSuccess data.message)
        Eff.detach (getAllDoctors env doctors)
      else
        Eff.emit (.toastError data.message))
    (fun error => do
      Eff.emit (.consoleLog error.message)
      Eff.emit (.toastError error.message))

/-- Function `getAllAppointments` (lines 318-334). -/
def getAllAppointments (env : Env) (o : Outcome) : Eff Unit :=
  Eff.tryCatch
    (do
      let data ← Eff.axios ⟨.get, env.backendUrl ++ "/api/admin/appointments", [], env.adminHeaders⟩ o
      if data.success then
        Eff.emit (.setAppointments data.appointments.reverse)
      else
        Eff.emit (.toastError data.message))
    (fun error => do
      Eff.emit (.toastError error.message)
      Eff.emit (.consoleLog error.message))

/-- Function `cancelAppointment` (lines 337-355). The reason is whatever the caller
passes: a string, or `undefined` when the argument is missing. -/
def cancelAppointment (env : Env) (appointmentId : String) (cancellationReason : JsVal)
    (o appointments : Outcome) : Eff Unit :=
  Eff.tryCatch
    (do
      let data ← Eff.axios
        ⟨.put, env.backendUrl ++ "/api/admin/appointment-cancel/" ++ appointmentId,
          [("cancellationReason", cancellationReason)], env.adminHeaders⟩ o
      if data.success then do
        Eff.emit (.toastSuccess data.message)
        Eff.detach (getAllAppointments env appointments)
      else
        Eff.emit (.toastError data.message))
    (fun error => do
      Eff.emit (.toastError error.message)
      Eff.emit (.consoleLog error.message))

/-- Function `runDayOffChecker` (lines 376-396): `check` is the outcome of the
`manual-day-off-check` request, `doctors` that of the refresh that follows a
success. Returns `data`, or `null` (`none`) on failure. -/
def runDayOffChecker (env : Env) (check doctors : Outcome) : Eff (Option Data) :=
  Eff.tryCatch
    (do
      let data ← Eff.axios
        ⟨.get, env.backendUrl ++ "/api/admin/manual-day-off-check", [], env.adminHeaders⟩ check
      if data.success then do
        Eff.emit (.toastSuccess "Doctor availability updated based on day off settings")
        getAllDoctors env doctors
        pure (some data)
      else do
        Eff.emit (.toastError data.message)
        pure none)
    (fun error => do
      Eff.emit (.consoleLog error.message)
      Eff.emit (.toastError (strOr error.message "Failed to update doctor availability"))
      pure none)

/-- The message shown when a request throws: `error.response?.data?.message ||
error.message`. -/
def responseMessageOr (error : JsError) : String :=
  strOr (error.responseMessage.getD "") error.message

/-- Function `archiveDoctor` (lines 167-186). `doctors` is the outcome of the
refresh it starts on success. -/
def archiveDoctor (env : Env) (doctorId : String) (o doctors : Outcome) : Eff Bool :=
  Eff.tryCatch
    (do
      let data ← Eff.axios
        ⟨.put, env.backendUrl ++ "/api/admin/archive-doctor/" ++ doctorId, [], env.adminHeaders⟩ o
      if data.success then do
        Eff.emit (.toastSuccess data.message)
        Eff.detach (getAllDoctors env doctors)
        pure true
      else do
        Eff.emit (.toastError data.message)
        pure false)
    (fun error => do
      Eff.emit (.toastError (responseMessageOr error))
      Eff.emit (.consoleLog error.message)
      pure false)

/-- Function `getArchivedDoctors` (lines 211-229). -/
def getArchivedDoctors (env : Env) (o : Outcome) : Eff Bool :=
  Eff.tryCatch
    (do
      let data ← Eff.axios
        ⟨.get, env.backendUrl ++ "/api/admin/archived-doctors", [], env.adminHeaders⟩ o
      if data.success then do
        Eff.emit (.setArchivedDoctors data.archivedDoctors)
        pure true
      else do
        Eff.emit (.toastError data.message)
        pure false)
    (fun error => do
      Eff.emit (.toastError (responseMessageOr error))
      Eff.emit (.consoleLog error.message)
      pure false)

/-- Function `restoreDoctor` (lines 189-208). `archived` is the outcome of the
archived-doctors fetch it starts on success. -/
def restoreDoctor (env : Env) (doctorId : String) (o archived : Outcome) : Eff Bool :=
  Eff.tryCatch
    (do
      let data ← Eff.axios
        ⟨.put, env.backendUrl ++ "/api/admin/restore-doctor/" ++ doctorId, [], env.adminHeaders⟩ o
      if data.success then do
        Eff.emit (.toastSuccess data.message)
        Eff.detach (getArchivedDoctors env archived)
        pure true
      else do
        Eff.emit (.toastError data.message)
        pure false)
    (fun error => do
      Eff.emit (.toastError (responseMessageOr error))
      Eff.emit (.consoleLog error.message)
      pure false)

/-- Function `archiveUser` (lines 232-250). -/
def archiveUser (env : Env) (userId : String) (o : Outcome) : Eff Bool :=
  Eff.tryCatch
    (do
      let data ← Eff.axios
        ⟨.put, env.backendUrl ++ "/api/admin/archive-user/" ++ userId, [], env.adminHeaders⟩ o
      if data.success then do
        Eff.emit (.toastSuccess data.message)
        pure true
      else do
        Eff.emit (.toastError data.message)
        pure false)
    (fun error => do
      Eff.emit (.toastError (responseMessageOr error))
      Eff.emit (.consoleLog error.message)
      pure false)

/-- Function `getArchivedUsers` (lines 275-293). -/
def getArchivedUsers (env : Env) (o : Outcome) : Eff Bool :=
  Eff.tryCatch
    (do
      let data ← Eff.axios
        ⟨.get, env.backendUrl ++ "/api/admin/archived-users", [], env.adminHeaders⟩ o
      if data.success then do
        Eff.emit (.setArchivedUsers data.archivedUsers)
        pure true
      else do
        Eff.emit (.toastError data.message)
        pure false)
    (fun error => do
      Eff.emit (.toastError (responseMessageOr error))
      Eff.emit (.consoleLog error.message)
      pure false)

/-- Function `restoreUser` (lines 253-272). `archived` is the outcome of the
archived-users fetch it starts on success. -/
def restoreUser (env : Env) (userId : String) (o archived : Outcome) : Eff Bool :=
  Eff.tryCatch
    (do
      let data ← Eff.axios
        ⟨.put, env.backendUrl ++ "/api/admin/restore-user/" ++ userId, [], env.adminHeaders⟩ o
      if data.success then do
        Eff.emit (.toastSuccess data.message)
        Eff.detach (getArchivedUsers env archived)
        pure true
      else do
        Eff.emit (.toastError data.message)
        pure false)
    (fun error => do
      Eff.emit (.toastError (responseMessageOr error))
      Eff.emit (.consoleLog error.message)
      pure false)

/-- Function `deleteDoctor` (lines 296-299): `return await archiveDoctor(doctorId)`. -/
def deleteDoctor (env : Env) (doctorId : String) (o doctors : Outcome) : Eff Bool := do
  let archived ← archiveDoctor env doctorId o doctors
  pure archived

/-- Function `getDashData` (lines 358-373). -/
def getDashData (env : Env) (o : Outcome) : Eff Unit :=
  Eff.tryCatch
    (do
      let data ← Eff.axios ⟨.get, env.backendUrl ++ "/api/admin/dashboard", [], env.adminHeaders⟩ o
      if data.success then
        Eff.emit (.setAdminDashData data.dashData)
      else
        Eff.emit (.toastError data.message))
    (fun error => do
      Eff.emit (.consoleLog error.message)
      Eff.emit (.toastError error.message))

/-- The state held by the provider (lines 15-19). -/
structure State where
  appointments : List Appointment
  doctors : List DoctorRow
  dashData : Option DashPayload
  archivedDoctors : List DoctorRow
  archivedUsers : List UserRow
  deriving DecidableEq, Repr

/-- A state setter of the provider applied to its state; other effects leave the
state alone. -/
def State.apply (s : State) : Effect → State
  | .setAppointments as => { s with appointments := as }
  | .setDoctors ds => { s with doctors := ds }
  | .setAdminDashData d => { s with dashData := some d }
  | .setArchivedDoctors ds => { s with archivedDoctors := ds }
  | .setArchivedUsers us => { s with archivedUsers := us }
  | _ => s

/-- The state after a list of effects. -/
def State.applyAll (s : State) (es : List Effect) : State := es.foldl State.apply s

end AdminContext

/-! ## `src/context/DoctorContext.jsx` -/

namespace DoctorContext

/-- Function `getAppointments` (lines 34-49). -/
def getAppointments (env : Env) (o : Outcome) : Eff Unit :=
  Eff.tryCatch
    (do
      let data ← Eff.axios ⟨.get, env.backendUrl ++ "/api/doctor/appointments", [], env.doctorHeaders⟩ o
      if data.success then
        Eff.emit (.setAppointments data.appointments.reverse)
      else
        Eff.emit (.toastError data.message))
    (fun error => do
      Eff.emit (.consoleLog error.message)
      Eff.emit (.toastError error.message))

/-- Function `getProfileData` (lines 52-63). -/
def getProfileData (env : Env) (o : Outcome) : Eff Unit :=
  Eff.tryCatch
    (do
      let data ← Eff.axios ⟨.get, env.backendUrl ++ "/api/doctor/profile", [], env.doctorHeaders⟩ o
      Eff.emit (.consoleLog "profileData")
      Eff.emit (.setProfileData data.profileData))
    (fun error => do
      Eff.emit (.consoleLog error.message)
      Eff.emit (.toastError error.message))

/-- The state written when the dashboard request throws (lines 134-139). -/
def emptyDashData : DashData := ⟨0, 0, [], ""⟩

/-- Function `getDashData` (lines 115-142). -/
def getDashData (env : Env) (o : Outcome) : Eff Unit :=
  Eff.tryCatch
    (do
      let data ← Eff.axios ⟨.get, env.backendUrl ++ "/api/doctor/dashboard", [], env.doctorHeaders⟩ o
      if data.success then
        Eff.emit (.setDashData
          ⟨data.dashData.appointments.getD 0, data.dashData.patients.getD 0,
            data.dashData.latestAppointments.getD [], data.dashData.doctorName.getD ""⟩)
      else
        Eff.emit (.toastError data.message))
    (fun error => do
      Eff.emit (.consoleLog error.message)
      Eff.emit (.toastError error.message)
      Eff.emit (.setDashData emptyDashData))

/-- Function `cancelAppointment` (lines 66-89). -/
def cancelAppointment (env : Env) (appointmentId : String) (cancellationReason : JsVal)
    (o appointments dash : Outcome) : Eff Unit :=
  Eff.tryCatch
    (do
      let data ← Eff.axios
        ⟨.post, env.backendUrl ++ "/api/doctor/cancel-appointment",
          [("appointmentId", .str appointmentId), ("cancellationReason", cancellationReason)],
          env.doctorHeaders⟩ o
      if data.success then do
        Eff.emit (.toastSuccess data.message)
        Eff.detach (getAppointments env appointments)
        Eff.detach (getDashData env dash)
      else
        Eff.emit (.toastError data.message))
    (fun error => do
      Eff.emit (.toastError error.message)
      Eff.emit (.consoleLog error.message))

/-- Function `getAppointmentHistory` (lines 162-176). -/
def getAppointmentHistory (env : Env) (o : Outcome) : Eff Unit :=
  Eff.tryCatch
    (do
      let data ← Eff.axios
        ⟨.get, env.backendUrl ++ "/api/doctor/appointment-history", [], env.doctorHeaders⟩ o
      if data.success then
        Eff.emit (.setAppointmentHistory data.appointments.reverse)
      else
        Eff.emit (.toastError data.message))
    (fun error => do
      Eff.emit (.consoleLog error.message)
      Eff.emit (.toastError error.message))

/-- Function `addConsultationSummary` (lines 179-198). -/
def addConsultationSummary (env : Env) (appointmentId consultationSummary : String)
    (o history : Outcome) : Eff Unit :=
  Eff.tryCatch
    (do
      let data ← Eff.axios
        ⟨.post, env.backendUrl ++ "/api/doctor/add-consultation-summary",
          [("appointmentId", .str appointmentId), ("consultationSummary", .str consultationSummary)],
          env.doctorHeaders⟩ o
      if data.success then do
        Eff.emit (.toastSuccess data.message)
        Eff.detach (getAppointmentHistory env history)
      else
        Eff.emit (.toastError data.message))
    (fun error => do
      Eff.emit (.consoleLog error.message)
      Eff.emit (.toastError error.message))

/-- Function `completeAppointment` (lines 92-112). -/
def completeAppointment (env : Env) (appointmentId : String) (o appointments dash : Outcome) :
    Eff Unit :=
  Eff.tryCatch
    (do
      let data ← Eff.axios
        ⟨.post, env.backendUrl ++ "/api/doctor/complete-appointment",
          [("appointmentId", .str appointmentId)], env.doctorHeaders⟩ o
      if data.success then do
        Eff.emit (.toastSuccess data.message)
        Eff.detach (getAppointments env appointments)
        Eff.detach (getDashData env dash)
      else
        Eff.emit (.toastError data.message))
    (fun error => do
      Eff.emit (.toastError error.message)
      Eff.emit (.consoleLog error.message))

/-- Function `markAppointmentsAsSeen` (lines 145-159), for the `appointments` state
it closes over. The response of the request is not looked at. -/
def markAppointmentsAsSeen (env : Env) (appointments : List Appointment) (o : Outcome) :
    Eff Unit :=
  Eff.tryCatch
    (do
      let updatedAppointments := appointments.map fun app => { app with seen := true }
      Eff.emit (.setAppointments updatedAppointments)
      let _ ← Eff.axios
        ⟨.post, env.backendUrl ++ "/api/doctor/mark-appointments-seen", [], env.doctorHeaders⟩ o
      pure ())
    (fun error => do
      Eff.emit (.consoleLog error.message)
      Eff.emit (.toastError error.message))

/-- The state held by the provider (lines 13-31). -/
structure State where
  appointments : List Appointment
  appointmentHistory : List Appointment
  dashData : DashData
  profileData : Option ProfileData
  deriving DecidableEq, Repr

/-- A state setter of the provider applied to its state; other effects leave the
state alone. -/
def State.apply (s : State) : Effect → State
  | .setAppointments as => { s with appointments := as }
  | .setAppointmentHistory as => { s with appointmentHistory := as }
  | .setDashData d => { s with dashData := d }
  | .setProfileData p => { s with profileData := p }
  | _ => s

/-- The state after a list of effects. -/
def State.applyAll (s : State) (es : List Effect) : State := es.foldl State.apply s

end DoctorContext

/-! ## `src/components/DayOffManager.jsx` -/

namespace DayOffManager

/-- Function `handleRunDayOffChecker` (lines 38-62). `check` is the outcome of the
day-off check request, `inner` that of the doctors refresh made by
`runDayOffChecker`, `outer` that of the refresh made here. -/
def handleRunDayOffChecker (env : Env) (showLoading : Bool) (check inner outer : Outcome) :
    Eff Unit := do
  if showLoading then
    Eff.emit (.setIsLoading true)
  Eff.tryFinally
    (Eff.tryCatch
      (do
        let data ← AdminContext.runDayOffChecker env check inner
        match data with
        | some data => do
          Eff.emit (.setDayOffData data)
          Eff.emit .setLastUpdated
          Eff.emit (.setStats data.stats)
          AdminContext.getAllDoctors env outer
        | none => pure ())
      (fun error => do
        Eff.emit (.consoleError ("Error running day off checker: " ++ error.message))
        if showLoading then
          Eff.emit (.toastError "Failed to update doctor availability")))
    (if showLoading then Eff.emit (.setIsLoading false) else pure ())

/-! ### The component as a transition system

The component reacts to five kinds of events: it is mounted, its interval timer
fires, "Update Now" is clicked, a response arrives for a pass in flight, it is
unmounted. A pass is one call of `handleRunDayOffChecker`; it suspends at each
request it awaits and goes on when the response arrives. The outcomes of the
requests a pass will make are fixed by the event that starts it. -/

/-- Cut a trace after each request: the first piece runs when the call is made,
each later piece when the response to the request before it arrives. -/
def segmentsFrom : List Effect → List Effect → List (List Effect)
  | acc, [] => [acc.reverse]
  | acc, e :: es =>
    if e.isRequest then (e :: acc).reverse :: segmentsFrom [] es
    else segmentsFrom (e :: acc) es

/-- The pieces of a trace between its requests. -/
def segments (t : List Effect) : List (List Effect) := segmentsFrom [] t

/-- The outcomes of the three requests one pass can make. -/
structure Outcomes where
  check : Outcome
  inner : Outcome
  outer : Outcome
  deriving DecidableEq, Repr

/-- A pass in flight: a call of `handleRunDayOffChecker showLoading` that has not
returned. `answered` counts the responses it has received, `pending` holds what it
does after each response it still waits for. -/
structure Pass where
  showLoading : Bool
  answered : Nat
  pending : List (List Effect)
  deriving DecidableEq, Repr

/-- Life cycle of the component instance. -/
inductive Phase
  | initial
  | mounted
  | unmounted
  deriving DecidableEq, Repr

/-- The component's state (lines 8-13), the interval timers the browser holds for
it, the passes in flight and everything emitted so far. -/
structure State where
  phase : Phase
  isLoading : Bool
  dayOffData : Option Data
  currentDay : String
  lastUpdated : Option Unit
  stats : Option ReconciliationStats
  autoUpdateIntervalRef : Option Nat
  timers : List Nat
  nextTimer : Nat
  inFlight : List Pass
  autoStarted : Nat
  emitted : List Effect
  deriving DecidableEq, Repr

/-- The state before mount: `useState`/`useRef` initial values (lines 8-13), no
timer. Browser timer handles are positive. -/
def State.init : State where
  phase := .initial
  isLoading := false
  dayOffData := none
  currentDay := ""
  lastUpdated := none
  stats := none
  autoUpdateIntervalRef := none
  timers := []
  nextTimer := 1
  inFlight := []
  autoStarted := 0
  emitted := []

/-- Array `daysOfWeek` (line 17), indexed by `Date.getDay()`. -/
def daysOfWeek : List String :=
  ["Sunday", "Monday", "Tuesday", "Wednesday", "Thursday", "Friday", "Saturday"]

/-- The events of the component. -/
inductive Event
  | mount (getDay : Fin 7) (o : Outcomes)
  | tick (id : Nat) (o : Outcomes)
  | click (o : Outcomes)
  | respond (i : Nat)
  | unmount
  deriving DecidableEq, Repr

/-- One effect applied to the component: a state setter writes its field,
`clearInterval` removes the timer, and every effect is recorded. State writes that
arrive after unmount are applied to the record as well; nothing reads them. -/
def applyEffect (s : State) (e : Effect) : State :=
  let s := { s with emitted := s.emitted ++ [e] }
  match e with
  | .setIsLoading b => { s with isLoading := b }
  | .setDayOffData d => { s with dayOffData := some d }
  | .setLastUpdated => { s with lastUpdated := some () }
  | .setStats st => { s with stats := st }
  | .setCurrentDay d => { s with currentDay := d }
  | .clearInterval id => { s with timers := s.timers.filter (· ≠ id) }
  | _ => s

/-- A list of effects applied in order. -/
def applyEffects (s : State) (es : List Effect) : State := es.foldl applyEffect s

/-- A call `handleRunDayOffChecker(showLoading)` is made: it runs up to its first
request and is then in flight. -/
def startPass (env : Env) (s : State) (showLoading : Bool) (o : Outcomes) : State :=
  match segments (handleRunDayOffChecker env showLoading o.check o.inner o.outer).trace with
  | [] => s
  | first :: rest =>
    let s := applyEffects s first
    match rest with
    | [] => s
    | _ :: _ => { s with inFlight := s.inFlight ++ [⟨showLoading, 0, rest⟩] }

/-- Cleanup returned by the mount effect (lines 30-35). A handle is truthy when it
is not `0`. -/
def cleanup (s : State) : List Effect :=
  match s.autoUpdateIntervalRef with
  | some id => if id ≠ 0 then [.clearInterval id] else []
  | none => []

/-- The call `setInterval(callback, 60 * 1000)` (lines 25-28): the browser hands
out a fresh handle, which is stored in `autoUpdateIntervalRef.current`. -/
def registerInterval (s : State) : State :=
  { s with
    autoUpdateIntervalRef := some s.nextTimer
    timers := s.timers ++ [s.nextTimer]
    nextTimer := s.nextTimer + 1 }

/-- The mount effect (lines 16-28): set the current day, make the initial check
with the default `showLoading = true`, register the interval. -/
def mountEffect (env : Env) (s : State) (getDay : Fin 7) (o : Outcomes) : State :=
  registerInterval
    (startPass env
      (applyEffect { s with phase := .mounted } (.setCurrentDay (daysOfWeek.getD getDay.val "")))
      true o)

/-- The interval callback (lines 25-28): log, then a silent pass. -/
def intervalCallback (env : Env) (s : State) (o : Outcomes) : State :=
  { startPass env (applyEffect s (.consoleLog "Auto-checking day off status...")) false o with
    autoStarted := s.autoStarted + 1 }

/-- A response arrives for the pass `p` at position `i`, which goes on with `seg`
and then still has `rest` to do. -/
def resume (s : State) (i : Nat) (p : Pass) (seg : List Effect) (rest : List (List Effect)) :
    State :=
  { applyEffects s seg with
    inFlight :=
      match rest with
      | [] => s.inFlight.eraseIdx i
      | _ :: _ => s.inFlight.set i { p with answered := p.answered + 1, pending := rest } }

/-- The component is unmounted: the cleanup runs. -/
def unmountEffect (s : State) : State :=
  { applyEffects s (cleanup s) with phase := .unmounted }

/-- One step of the component; `none` when the event cannot happen in this state:
a component mounts once, a timer fires only while registered, the button can be
clicked only while rendered and not `disabled={isLoading}` (lines 77-79), a
response arrives only for a pass in flight. -/
def step (env : Env) (s : State) : Event → Option State
  | .mount getDay o => if s.phase = .initial then some (mountEffect env s getDay o) else none
  | .tick id o => if id ∈ s.timers then some (intervalCallback env s o) else none
  | .click o =>
    if s.phase = .mounted ∧ s.isLoading = false then some (startPass env s true o) else none
  | .respond i =>
    match s.inFlight.get? i with
    | none => none
    | some p =>
      match p.pending with
      | [] => none
      | seg :: rest => some (resume s i p seg rest)
  | .unmount => if s.phase = .mounted then some (unmountEffect s) else none

/-- A sequence of events run from a state; `none` when some event cannot happen. -/
def run (env : Env) : State → List Event → Option State
  | s, [] => some s
  | s, e :: es =>
    match step env s e with
    | none => none
    | some s' => run env s' es

/-- Passes in flight that were started with the loading indicator. -/
def loadingInFlight (s : State) : Nat := (s.inFlight.filter (·.showLoading)).length

/-- The class added to a doctor's table row (line 146): the row is highlighted when
`doctor.dayOff === currentDay`. -/
def rowHighlight (doctor : DoctorRow) (currentDay : String) : String :=
  if doctor.dayOff = currentDay then "bg-yellow-50" else ""

/-- The text of the Day Off Status cell of a doctor's row (lines 183-195). -/
def dayOffStatus (doctor : DoctorRow) (currentDay : String) : String :=
  if doctor.dayOff = currentDay then "On Day Off Today"
  else if doctor.dayOff ≠ "" ∧ doctor.dayOff ≠ "None" then "Day Off: " ++ doctor.dayOff
  else "No Day Off Set"

end DayOffManager

/-! ## `src/pages/Doctor/DoctorProfile.jsx` -/

namespace DoctorProfile

/-- The object `updateData` built from the form state (lines 24-30). -/
def updateData (profileData : ProfileData) : List (String × JsVal) :=
  [("address", .obj profileData.address), ("fees", .num profileData.fees),
    ("about", .str profileData.about), ("available", .bool profileData.available),
    ("dayOff", .str profileData.dayOff)]

/-- Function `updateProfile` (lines 21-58). `o` is the outcome of the profile
update, `profile` that of the profile reload, `dayOff` that of the day-off
availability request. -/
def updateProfile (env : Env) (profileData : ProfileData) (o profile dayOff : Outcome) :
    Eff Unit :=
  Eff.tryFinally
    (Eff.tryCatch
      (do
        Eff.emit (.setLoading true)
        let data ← Eff.axios
          ⟨.post, env.backendUrl ++ "/api/doctor/update-profile", updateData profileData,
            env.doctorHeaders⟩ o
        if data.success then do
          Eff.emit (.toastSuccess data.message)
          Eff.emit (.setIsEdit false)
          Eff.detach (DoctorContext.getProfileData env profile)
          Eff.tryCatch
            (do
              let _ ← Eff.axios
                ⟨.get, env.backendUrl ++ "/api/doctor/update-day-off-availability", [],
                  env.doctorHeaders⟩ dayOff
              Eff.emit (.consoleLog "Day off availability updated after profile change"))
            (fun dayOffError =>
              Eff.emit (.consoleError ("Error updating day off availability: " ++ dayOffError.message)))
        else
          Eff.emit (.toastError data.message)
        Eff.emit (.setIsEdit false))
      (fun error => do
        Eff.emit (.toastError error.message)
        Eff.emit (.consoleLog error.message)))
    (Eff.emit (.setLoading false))

/-- The `value`s of the options of the Day Off select (lines 412-429), the first being
that of "No Day Off Selected"; the chosen one is stored in `profileData.dayOff`. -/
def dayOffOptions : List String :=
  ["", "Monday", "Tuesday", "Wednesday", "Thursday", "Friday", "Saturday", "Sunday"]

end DoctorProfile

/-! ## `src/components/ConsultationSummaryModal.jsx` -/

namespace ConsultationSummaryModal

/-- The characters `String.prototype.trim` strips: ECMAScript white space and line
terminators. -/
def isTrimChar (c : Char) : Bool :=
  c.val = 0x09 || c.val = 0x0A || c.val = 0x0B || c.val = 0x0C || c.val = 0x0D ||
  c.val = 0x20 || c.val = 0xA0 || c.val = 0x1680 || (0x2000 ≤ c.val && c.val ≤ 0x200A) ||
  c.val = 0x2028 || c.val = 0x2029 || c.val = 0x202F || c.val = 0x205F ||
  c.val = 0x3000 || c.val = 0xFEFF

/-- JavaScript `s.trim()`. -/
def trim (s : String) : String :=
  String.mk ((s.data.dropWhile isTrimChar).reverse.dropWhile isTrimChar).reverse

/-- JavaScript `!s`: only the empty string is falsy. -/
def falsy (s : String) : Bool := s.data.isEmpty

/-- Function `handleSubmit` (lines 7-16), for the current `summary` state and the
`appointmentId` prop. The callbacks `onSubmit` and `onClose` are props: calling one
is an effect, and `submitted` is how the promise returned by `onSubmit` settles. -/
def handleSubmit (summary appointmentId : String) (submitted : Except JsError Unit) :
    Eff Unit :=
  if falsy (trim summary) then
    pure ()
  else do
    Eff.emit (.setIsSubmitting true)
    Eff.emit (.onSubmit appointmentId summary)
    let _ ← (⟨[], [], submitted⟩ : Eff Unit)
    Eff.emit (.setIsSubmitting false)
    Eff.emit .onClose

end ConsultationSummaryModal

/-! ## `src/pages/Admin/Archive.jsx` -/

namespace Archive

/-- Function `confirmRestore` (lines 38-62). `itemToRestore` holds the `_id` of the
item and its `type`; `o` and `inner` are the outcomes of the restore request and of
the fetch made by `restoreDoctor`/`restoreUser`, `archivedDoctors` and
`archivedUsers` those of the two fetches made here. -/
def confirmRestore (env : Env) (itemToRestore : Option (String × String))
    (o inner archivedDoctors archivedUsers : Outcome) : Eff Unit :=
  match itemToRestore with
  | none => pure ()
  | some (itemId, type) => do
    Eff.emit (.setIsRestoring true)
    Eff.tryFinally
      (Eff.tryCatch
        (do
          let success ←
            if type = "doctor" then AdminContext.restoreDoctor env itemId o inner
            else AdminContext.restoreUser env itemId o inner
          if success then do
            Eff.emit (.setRestoreModalOpen false)
            Eff.emit (.setItemToRestore none)
            Eff.detach (AdminContext.getArchivedDoctors env archivedDoctors)
            Eff.detach (AdminContext.getArchivedUsers env archivedUsers))
        (fun error => Eff.emit (.consoleError ("Error restoring item: " ++ error.message))))
      (Eff.emit (.setIsRestoring false))

end Archive

/-! ## `src/pages/Admin/DoctorsList.jsx` -/

namespace DoctorsList

/-- The effect run when the page mounts (lines 17-21): with a token present the
active list is fetched. -/
def mountEffect (env : Env) (doctors : Outcome) : Eff Unit :=
  if env.aToken ≠ "" then Eff.detach (AdminContext.getAllDoctors env doctors) else pure ()

/-- Function `confirmArchive` (lines 28-45). `doctorToArchive` is the page state of
that name (`null` is `none`); `o` and `inner` are the outcomes of the archive request
and of the refresh started by `archiveDoctor`, `doctors` that of the refresh started
here. -/
def confirmArchive (env : Env) (doctorToArchive : Option DoctorRow)
    (o inner doctors : Outcome) : Eff Unit :=
  match doctorToArchive with
  | none => pure ()
  | some doctor => do
    Eff.emit (.setIsArchiving true)
    Eff.tryFinally
      (Eff.tryCatch
        (do
          let success ← AdminContext.archiveDoctor env doctor._id o inner
          if success then do
            Eff.emit (.setArchiveModalOpen false)
            Eff.emit (.setDoctorToArchive none)
            Eff.detach (AdminContext.getAllDoctors env doctors))
        (fun error => Eff.emit (.consoleError ("Error archiving doctor: " ++ error.message))))
      (Eff.emit (.setIsArchiving false))

end DoctorsList

/-! ## `src/pages/Doctor/DoctorAppointmentHistory.jsx` -/

namespace DoctorAppointmentHistory

/-- A value written into a template literal: a property the object does not have
(`undefined`) is written as the text `undefined`. -/
def interpolate : Option String → String
  | some s => s
  | none => "undefined"

/-- Whether the characters `search` occur in a text, starting at some position. -/
def occursIn (search : List Char) : List Char → Bool
  | [] => search.isPrefixOf []
  | c :: rest => search.isPrefixOf (c :: rest) || occursIn search rest

/-- JavaScript `s.includes(search)`. -/
def includes (s search : String) : Bool := occursIn search.data s.data

/-- The callback of the filter in `filteredAppointments` (lines 29-37).
`slotDateFormat` comes from `AppContext`, which is not part of these sources, and
`toLowerCase` is the built-in `String.prototype.toLowerCase`; both are parameters. -/
def matchesSearch (toLowerCase slotDateFormat : String → String) (searchTerm : String)
    (app : Appointment) : Bool :=
  if ConsultationSummaryModal.trim searchTerm = "" then true
  else
    let fullName := toLowerCase
      (app.userData.lastName ++ " " ++ app.userData.firstName ++ " " ++
        interpolate app.userData.middleName)
    let date := toLowerCase (slotDateFormat app.slotDate)
    let time := toLowerCase app.slotTime
    let searchLower := toLowerCase searchTerm
    includes fullName searchLower || includes date searchLower || includes time searchLower

/-- Value `filteredAppointments` (lines 28-38). -/
def filteredAppointments (toLowerCase slotDateFormat : String → String)
    (appointmentHistory : List Appointment) (searchTerm : String) : List Appointment :=
  appointmentHistory.filter (matchesSearch toLowerCase slotDateFormat searchTerm)

/-- One table row drawn by `addTableRow`: the page it is drawn on, the index printed
in the first column, the appointment, and the vertical positions (in mm from the top
of the page) where the row starts and where its bottom border is drawn. -/
structure RowDraw where
  page : Nat
  label : String
  item : Appointment
  top : Nat
  bottom : Nat
  deriving DecidableEq, Repr

/-- The `jsPDF` document as far as the table is concerned: its number of pages (the
last one is the page being drawn on) and the rows drawn so far. -/
structure Pdf where
  numberOfPages : Nat
  rows : List RowDraw
  deriving DecidableEq, Repr

/-- The document `new jsPDF('p', 'mm', 'a4')`: one empty page. -/
def Pdf.new : Pdf := ⟨1, []⟩

/-- Method `pdf.addPage()`. -/
def Pdf.addPage (pdf : Pdf) : Pdf := { pdf with numberOfPages := pdf.numberOfPages + 1 }

/-- Height of an A4 page in mm (`jsPDF` computes it from 841.89 pt, a few
hundred-thousandths of a millimetre above 297). -/
def a4Height : Nat := 297

/-- Constant `margin` (line 53). -/
def margin : Nat := 10

/-- Constant `rowsPerPage` (line 67). -/
def rowsPerPage : Nat := 15

/-- Constant `headerHeight` (line 68). -/
def headerHeight : Nat := 35

/-- Constant `rowHeight` (line 69). -/
def rowHeight : Nat := 15

/-- Function `addTableHeader` (lines 73-96): the header band is 8 mm high; the value is
the position below it. -/
def addTableHeader (startY : Nat) : Nat := startY + 8

/-- Function `addTableRow` (lines 99-170): draws the row on the current page with
`(index + 1).toString()` in the first column and the bottom border at
`rowStartY + rowHeight`; the value is the position below the row. -/
def addTableRow (pdf : Pdf) (item : Appointment) (index startY : Nat) : Pdf × Nat :=
  ({ pdf with
      rows := pdf.rows ++ [⟨pdf.numberOfPages, toString (index + 1), item, startY, startY + rowHeight⟩] },
    startY + rowHeight)

/-- The variables of the row loop. -/
structure Cursor where
  pdf : Pdf
  currentPage : Nat
  currentY : Nat
  deriving DecidableEq, Repr

/-- The row loop (lines 180-190), from index `i` on. -/
def rowLoop : List Appointment → Nat → Cursor → Cursor
  | [], _, c => c
  | item :: rest, i, c =>
    let c1 : Cursor :=
      if 0 < i ∧ i % rowsPerPage = 0 then
        ⟨c.pdf.addPage, c.currentPage + 1, addTableHeader (margin + 15)⟩
      else c
    let drawn := addTableRow c1.pdf item i c1.currentY
    rowLoop rest (i + 1) ⟨drawn.1, c1.currentPage, drawn.2⟩

/-- Function `exportToPDF` (lines 41-202): the document handed to `pdf.save`, or
`none` when the function returns at once because the table is not mounted
(`tableRef.current` is `null`). -/
def exportToPDF (tableRef : Bool) (filteredAppointments : List Appointment) : Option Pdf :=
  if !tableRef then none
  else
    let pdf := Pdf.new
    let pageStartY := margin + (if pdf.numberOfPages = 1 then headerHeight else 15)
    some (rowLoop filteredAppointments 0 ⟨pdf, 1, addTableHeader pageStartY⟩).pdf

/-- The state of the page that concerns the summary modal (lines 17-19) together with
the state of the `ConsultationSummaryModal` it renders (lines 4-5 of the component).
The page renders the component unconditionally, so its state lives as long as the
page. -/
structure SummaryState where
  showSummaryModal : Bool
  selectedAppointmentId : Option String
  existingSummary : String
  summary : String
  isSubmitting : Bool
  deriving DecidableEq, Repr

/-- The state after the first render: `useState(existingSummary)` in the component
takes the prop it is given at that render, the page's initial `''`. -/
def SummaryState.init : SummaryState := ⟨false, none, "", "", false⟩

/-- Function `handleOpenSummaryModal` (lines 205-209). -/
def handleOpenSummaryModal (s : SummaryState) (appointmentId existingSummary : String) :
    SummaryState :=
  { s with
    selectedAppointmentId := some appointmentId
    existingSummary := existingSummary
    showSummaryModal := true }

/-- A state setter or callback of the modal applied to the state: `onClose` is
`() => setShowSummaryModal(false)`; `onSubmit` is `addConsultationSummary`, which
touches none of these states. -/
def SummaryState.apply (s : SummaryState) : Effect → SummaryState
  | .setIsSubmitting b => { s with isSubmitting := b }
  | .onClose => { s with showSummaryModal := false }
  | _ => s

/-- What the user can do on the page. -/
inductive SummaryEvent
  | openSummary (appointmentId existingSummary : String)
  | change (text : String)
  | submit (submitted : Except JsError Unit)
  | close
  deriving Repr

/-- One event: a click on a row's summary button, typing in the textarea, a click on
Submit Summary, a click on Cancel. The last three exist only while the modal is
shown. -/
def SummaryState.step (s : SummaryState) : SummaryEvent → SummaryState
  | .openSummary appointmentId existingSummary =>
    handleOpenSummaryModal s appointmentId existingSummary
  | .change text => if s.showSummaryModal then { s with summary := text } else s
  | .submit submitted =>
    match s.showSummaryModal, s.selectedAppointmentId with
    | true, some appointmentId =>
      (ConsultationSummaryModal.handleSubmit s.summary appointmentId submitted).trace.foldl
        SummaryState.apply s
    | _, _ => s
  | .close => if s.showSummaryModal then s.apply .onClose else s

/-- A sequence of events from a state. -/
def SummaryState.run (s : SummaryState) (events : List SummaryEvent) : SummaryState :=
  events.foldl SummaryState.step s

end DoctorAppointmentHistory

/-! ## `src/pages/Admin/Dashboard_fixed.jsx` -/

namespace Dashboard

/-- The object `systemStats` built by `processAnalytics`. -/
structure SystemStats where
  totalAppointments : Nat
  totalDoctors : Nat
  totalPatients : Nat
  completedAppointments : Nat
  cancelledAppointments : Nat
  activeAppointments : Nat
  deriving DecidableEq, Repr

/-- The `systemStats` of `processAnalytics` (lines 141-148). A missing list or
dashboard object (`?.`) gives `0` through `|| 0`. -/
def systemStats (appointments : Option (List Appointment)) (doctors : Option (List DoctorRow))
    (dashData : Option DashPayload) : SystemStats where
  totalAppointments := (appointments.map List.length).getD 0
  totalDoctors := (doctors.map List.length).getD 0
  totalPatients := ((dashData.bind (·.patients))).getD 0
  completedAppointments :=
    (appointments.map fun l => (l.filter fun app => app.isCompleted).length).getD 0
  cancelledAppointments :=
    (appointments.map fun l => (l.filter fun app => app.cancelled).length).getD 0
  activeAppointments :=
    (appointments.map fun l =>
      (l.filter fun app => !app.isCompleted && !app.cancelled).length).getD 0

/-- The counts shown at the top of the dashboard. -/
structure Statistics where
  totalAppointments : Nat
  completedAppointments : Nat
  cancelledAppointments : Nat
  pendingAppointments : Nat
  deriving DecidableEq, Repr

/-- The dashboard statistics (lines 73-76), computed from `dashData` alone; a missing
object or field gives `0`. -/
def statistics (dashData : Option DashPayload) : Statistics where
  totalAppointments := (dashData.bind (·.appointments)).getD 0
  completedAppointments :=
    ((dashData.bind (·.latestAppointments)).map fun l =>
      (l.filter fun app => app.isCompleted).length).getD 0
  cancelledAppointments :=
    ((dashData.bind (·.latestAppointments)).map fun l =>
      (l.filter fun app => app.cancelled).length).getD 0
  pendingAppointments :=
    ((dashData.bind (·.latestAppointments)).map fun l =>
      (l.filter fun app => !app.isCompleted && !app.cancelled).length).getD 0

/-- An entry of the object `doctorStats` (lines 83-92). -/
structure DoctorStat where
  id : String
  name : String
  image : String
  speciality : String
  totalAppointments : Nat
  completedAppointments : Nat
  cancelledAppointments : Nat
  pendingAppointments : Nat
  deriving DecidableEq, Repr

/-- The entry created for a `docId` met for the first time (lines 83-92). -/
def DoctorStat.fresh (app : Appointment) : DoctorStat where
  id := app.docId
  name := app.docData.name
  image := app.docData.image
  speciality := strOr app.docData.speciality "General Practitioner"
  totalAppointments := 0
  completedAppointments := 0
  cancelledAppointments := 0
  pendingAppointments := 0

/-- The counting statements of lines 94-97 applied to the entry of the appointment's
doctor. -/
def DoctorStat.count (app : Appointment) (e : DoctorStat) : DoctorStat :=
  if app.isCompleted then
    { e with totalAppointments := e.totalAppointments + 1
             completedAppointments := e.completedAppointments + 1 }
  else if app.cancelled then
    { e with totalAppointments := e.totalAppointments + 1
             cancelledAppointments := e.cancelledAppointments + 1 }
  else
    { e with totalAppointments := e.totalAppointments + 1
             pendingAppointments := e.pendingAppointments + 1 }

/-- An entry of the object `doctorStats` of `processAnalytics` (lines 181-188). -/
structure DoctorPerformance where
  name : String
  specialization : String
  completed : Nat
  cancelled : Nat
  pending : Nat
  total : Nat
  deriving DecidableEq, Repr

/-- The entry created for a `docId` met for the first time (lines 180-188). -/
def DoctorPerformance.fresh (app : Appointment) : DoctorPerformance where
  name := strOr app.docData.name "Unknown"
  specialization := strOr (strOr app.docData.specialization app.docData.speciality) "General"
  completed := 0
  cancelled := 0
  pending := 0
  total := 0

/-- The counting statements of lines 190-193. -/
def DoctorPerformance.count (app : Appointment) (e : DoctorPerformance) : DoctorPerformance :=
  if app.isCompleted then { e with total := e.total + 1, completed := e.completed + 1 }
  else if app.cancelled then { e with total := e.total + 1, cancelled := e.cancelled + 1 }
  else { e with total := e.total + 1, pending := e.pending + 1 }

/-- The names of the members of `Object.prototype`, which every object literal
inherits: `acc[name]` is such a member for each of them, a function or, for
`__proto__`, the prototype object itself. -/
def objectPrototypeMembers : List String :=
  ["constructor", "__defineGetter__", "__defineSetter__", "hasOwnProperty",
    "__lookupGetter__", "__lookupSetter__", "isPrototypeOf", "propertyIsEnumerable",
    "toString", "valueOf", "__proto__", "toLocaleString"]

/-- The step of the two `reduce` calls for a `docId` that `acc` does not inherit:
`if (!acc[docId]) acc[docId] = fresh; count acc[docId]`, where `acc[docId]` is the own
property of that name, an object, or `undefined`. The object `acc` is held as the list
of its own properties in the order they were created. -/
def tallyOwn {E : Type} (fresh : Appointment → E) (count : Appointment → E → E)
    (acc : List (String × E)) (app : Appointment) : List (String × E) :=
  (if acc.any (fun p => p.1 == app.docId) then acc else acc ++ [(app.docId, fresh app)]).map
    fun p => if p.1 = app.docId then (p.1, count app p.2) else p

/-- One step of the two `reduce` calls (lines 80-99 and 177-195), which have the same
shape: `if (!acc[docId]) acc[docId] = fresh; count acc[docId]`. When `docId` is the
name of a member of `Object.prototype`, `acc[docId]` is that inherited member, which is
truthy: no entry is created, the counters are incremented on the inherited object, and
the own properties of `acc` stay as they are. -/
def tally {E : Type} (fresh : Appointment → E) (count : Appointment → E → E)
    (acc : List (String × E)) (app : Appointment) : List (String × E) :=
  if app.docId ∈ objectPrototypeMembers then acc else tallyOwn fresh count acc app

/-- The number a property name stands for when it is an array index: the canonical
decimal text of an integer below `2^32 - 1`. -/
def arrayIndex (key : String) : Option Nat :=
  match key.toNat? with
  | some n => if toString n = key ∧ n < 4294967295 then some n else none
  | none => none

/-- JavaScript `Object.values(o)`: the values of the array-index keys in ascending
numeric order first, then those of the other keys in the order of creation. -/
def objectValues {E : Type} (o : List (String × E)) : List E :=
  (List.insertionSort (fun p q : String × E => (arrayIndex p.1).getD 0 ≤ (arrayIndex q.1).getD 0)
      (o.filter fun p => (arrayIndex p.1).isSome) ++
    o.filter fun p => !(arrayIndex p.1).isSome).map Prod.snd

/-- The object `doctorStats` (lines 80-99). -/
def doctorStats (appointments : List Appointment) : List (String × DoctorStat) :=
  appointments.foldl (tally DoctorStat.fresh DoctorStat.count) []

/-- The list `mostSelectedDoctors` (lines 102-104). `Array.prototype.sort` is stable:
with the comparator `b.totalAppointments - a.totalAppointments` an entry stays before
the later entries that have the same count. -/
def mostSelectedDoctors (appointments : List Appointment) : List DoctorStat :=
  (List.insertionSort (fun a b : DoctorStat => b.totalAppointments ≤ a.totalAppointments)
    (objectValues (doctorStats appointments))).take 3

/-- The object `doctorStats` of `processAnalytics` (lines 177-195). -/
def performanceStats (appointments : List Appointment) : List (String × DoctorPerformance) :=
  appointments.foldl (tally DoctorPerformance.fresh DoctorPerformance.count) []

/-- The list `doctorPerformance` (lines 197-199). -/
def doctorPerformance (appointments : List Appointment) : List DoctorPerformance :=
  (List.insertionSort (fun a b : DoctorPerformance => b.total ≤ a.total)
    (objectValues (performanceStats appointments))).take 10

end Dashboard

/-! ## `src/components/Sidebar.jsx` -/

namespace Sidebar

/-- The badge count `unseenAppointments` (line 15): the appointments that are neither
cancelled nor completed, `0` for a missing list. -/
def unseenAppointments (appointments : Option (List Appointment)) : Nat :=
  (appointments.map fun l =>
    (l.filter fun app => !app.cancelled && !app.isCompleted).length).getD 0

end Sidebar

/-! ## The reconciliation pass behind `manual-day-off-check`

The client only asks for a pass (`runDayOffChecker`) and shows the `stats` it gets
back; the pass itself runs in the backend, whose code is not part of these sources.
It is modelled here from sections 3 and 4.1 of the specification. -/

namespace Reconciler

/-- Modelled from the spec: the days of the week a `dayOff` can name (section 3); the
backend's doctor schema is missing from the sources. -/
inductive Weekday
  | sunday
  | monday
  | tuesday
  | wednesday
  | thursday
  | friday
  | saturday
  deriving DecidableEq, Repr

/-- Modelled from the spec: the `Doctor` record of section 3 as the backend stores
it (the backend's doctor schema is missing from the sources), with the marker that
section 4.1 requires next to `available`. `dayOff = none` is the value `None`;
`lastAutoToggle` says that the last write of `available` was made by a
reconciliation pass and not by hand. -/
structure Doctor where
  id : String
  dayOff : Option Weekday
  available : Bool
  archived : Bool
  lastAutoToggle : Bool
  deriving DecidableEq, Repr

/-- Modelled from the spec: `weekdayOf(now)` of section 4.1 (the backend's day
computation is missing from the sources), the single wall-clock day of the week, for
a timestamp in milliseconds since 1 January 1970, which was a Thursday. -/
def weekdayOf (now : Nat) : Weekday :=
  match (now / 86400000 + 4) % 7 with
  | 0 => .sunday
  | 1 => .monday
  | 2 => .tuesday
  | 3 => .wednesday
  | 4 => .thursday
  | 5 => .friday
  | _ => .saturday

/-- Modelled from the spec: what one pass does to one doctor (section 4.1): nothing,
or one of the two transitions counted by `turnedOn` and `turnedOff`. -/
inductive Toggle
  | unchanged
  | turnedOn
  | turnedOff
  deriving DecidableEq, Repr

/-- Modelled from the spec: the three rules of section 4.1 for one doctor (the
backend's day-off checker is missing from the sources). An archived doctor is not
looked at. On their day off an available doctor is switched off; off their day off
an unavailable doctor is switched on when the unavailability came from a day-off
transition; otherwise nothing changes. -/
def reconcileDoctor (currentWeekday : Weekday) (doctor : Doctor) : Doctor × Toggle :=
  if doctor.archived then (doctor, .unchanged)
  else
    let onDayOff := decide (doctor.dayOff = some currentWeekday)
    if onDayOff && doctor.available then
      ({ doctor with available := false, lastAutoToggle := true }, .turnedOff)
    else if !onDayOff && !doctor.available && doctor.lastAutoToggle then
      ({ doctor with available := true, lastAutoToggle := true }, .turnedOn)
    else (doctor, .unchanged)

/-- Modelled from the spec: the result of a pass (section 4.1), the registry after it
and the `ReconciliationStats` it reports. -/
structure PassResult where
  registry : List Doctor
  stats : ReconciliationStats
  deriving DecidableEq, Repr

/-- Modelled from the spec: `reconcile(now)` of section 4.1 over a registry, the
pass the backend runs for `manual-day-off-check` (its code is missing from the
sources). `turnedOn`/`turnedOff` count the doctors switched by this pass; the other
counts are taken over the full doctor set after the pass. -/
def reconcile (now : Nat) (registry : List Doctor) : PassResult :=
  let currentWeekday := weekdayOf now
  let results := registry.map (reconcileDoctor currentWeekday)
  let after := results.map Prod.fst
  { registry := after
    stats :=
      { total := after.length
        available := (after.filter (·.available)).length
        unavailable := (after.filter (!·.available)).length
        onDayOff := (after.filter (fun d => decide (d.dayOff = some currentWeekday))).length
        turnedOn := (results.filter (fun r => decide (r.2 = Toggle.turnedOn))).length
        turnedOff := (results.filter (fun r => decide (r.2 = Toggle.turnedOff))).length } }

/-- Passes run one after the other at the given times, nothing else touching the
registry in between. -/
def reconcileAll : List Nat → List Doctor → List Doctor
  | [], registry => registry
  | now :: rest, registry => reconcileAll rest (reconcile now registry).registry

/-- Modelled from the spec: the registry write behind `change-availability` (the
backend handler is missing from the sources), a manual toggle of one doctor's
`available` flag (section 3, "explicit admin/doctor toggle (manual)"); a manual
write is not an automatic toggle. -/
def changeAvailability (docId : String) (registry : List Doctor) : List Doctor :=
  registry.map fun d =>
    if d.id = docId then { d with available := !d.available, lastAutoToggle := false } else d

/-- Modelled from the spec: the registry write behind `update-doctor-profile`
(section 6; the backend handler is missing from the sources), which stores the
`available` and `dayOff` the form sends; a manual write is not an automatic
toggle. -/
def updateProfile (docId : String) (available : Bool) (dayOff : Option Weekday)
    (registry : List Doctor) : List Doctor :=
  registry.map fun d =>
    if d.id = docId then
      { d with available := available, dayOff := dayOff, lastAutoToggle := false }
    else d

end Reconciler

/-! ## The appointment ledger behind the appointment endpoints

The client forwards `cancel-appointment`, `complete-appointment` and
`add-consultation-summary` to the backend and shows the answer; the state machine
that accepts or refuses them runs in the backend, whose code is not part of these
sources. It is modelled here from sections 3, 4.3, 6 and 7 of the specification. -/

namespace Ledger

/-- Modelled from the spec: the `status` of an appointment (section 3); the backend's
appointment schema is missing from the sources. -/
inductive Status
  | scheduled
  | completed
  | cancelled
  deriving DecidableEq, Repr

/-- Modelled from the spec: the error kinds of section 7 (the backend's error handling
is missing from the sources). -/
inductive LedgerError
  | validationError
  | invalidStateError
  | storeError
  | notFoundError
  deriving DecidableEq, Repr

/-- Modelled from the spec: the `Appointment` record of section 3 as the backend
stores it (the backend's appointment schema is missing from the sources). -/
structure Appointment where
  id : String
  doctorId : String
  patientId : String
  slotDate : String
  slotTime : String
  status : Status
  cancellationReason : Option String
  consultationSummary : Option String
  seen : Bool
  deriving DecidableEq, Repr

/-- The flag `isCompleted` the client sees for a stored appointment. -/
def Appointment.isCompleted (a : Appointment) : Bool := decide (a.status = .completed)

/-- The flag `cancelled` the client sees for a stored appointment. -/
def Appointment.cancelled (a : Appointment) : Bool := decide (a.status = .cancelled)

/-- Modelled from the spec: transition `cancel` of section 4.3 (the backend handler
is missing from the sources). It fails with `InvalidStateError` if the status is not
Scheduled and with `ValidationError` if the reason is empty; on success the status
is Cancelled and the reason is stored. -/
def cancel (a : Appointment) (reason : String) : Except LedgerError Appointment :=
  if a.status ≠ .scheduled then .error .invalidStateError
  else if reason = "" then .error .validationError
  else .ok { a with status := .cancelled, cancellationReason := some reason }

/-- Modelled from the spec: transition `complete` of section 4.3 (the backend handler
is missing from the sources). It fails with `InvalidStateError` unless the status is
Scheduled; on success the status is Completed. -/
def complete (a : Appointment) : Except LedgerError Appointment :=
  if a.status ≠ .scheduled then .error .invalidStateError
  else .ok { a with status := .completed }

/-- Modelled from the spec: transition `attachSummary` of section 4.3 (the backend
handler is missing from the sources). It fails with `InvalidStateError` unless the
status is Completed and with `ValidationError` if the summary is empty; on success
it overwrites any earlier summary. -/
def attachSummary (a : Appointment) (summary : String) : Except LedgerError Appointment :=
  if a.status ≠ .completed then .error .invalidStateError
  else if summary = "" then .error .validationError
  else .ok { a with consultationSummary := some summary }

/-- The stored appointment with this id, if any. -/
def find (ledger : List Appointment) (appointmentId : String) : Option Appointment :=
  ledger.find? fun a => a.id = appointmentId

/-- Modelled from the spec: a transition applied to the ledger by appointment id
(sections 4.3 and 7): `NotFoundError` for an unknown id, and no partial mutation,
the ledger changes only when the transition succeeds. Returns the ledger after the
call and the result of the call. -/
def transition (t : Appointment → Except LedgerError Appointment) (ledger : List Appointment)
    (appointmentId : String) : List Appointment × Except LedgerError Appointment :=
  match find ledger appointmentId with
  | none => (ledger, .error .notFoundError)
  | some a =>
    match t a with
    | .error e => (ledger, .error e)
    | .ok b => (ledger.map fun x => if x.id = appointmentId then b else x, .ok b)

/-- Modelled from the spec: the response the backend gives for the result of a
transition (section 6, "map directly to AppointmentLedger transitions"; the backend
handlers are missing from the sources): `success` says whether the transition was
made. The specification does not fix the wording of `message`, so the text sent for
each error kind and the text sent for a success are parameters. -/
def respond (errorMessage : LedgerError → String) (okMessage : String)
    (r : Except LedgerError Appointment) : Outcome :=
  match r with
  | .ok _ => .resolved { success := true, message := okMessage }
  | .error e => .resolved { success := false, message := errorMessage e }

/-- Modelled from the spec: endpoint `appointment-cancel(appointmentId, reason)`. -/
def cancelAppointment (ledger : List Appointment) (appointmentId reason : String) :
    List Appointment × Except LedgerError Appointment :=
  transition (fun a => cancel a reason) ledger appointmentId

/-- Modelled from the spec: endpoint `complete-appointment(appointmentId)`. -/
def completeAppointment (ledger : List Appointment) (appointmentId : String) :
    List Appointment × Except LedgerError Appointment :=
  transition complete ledger appointmentId

/-- Modelled from the spec: endpoint `add-consultation-summary(appointmentId, text)`. -/
def addConsultationSummary (ledger : List Appointment) (appointmentId text : String) :
    List Appointment × Except LedgerError Appointment :=
  transition (fun a => attachSummary a text) ledger appointmentId

end Ledger

/-! ## Definitions used to state the properties -/

/-- Whether an effect is a call of the `onSubmit` prop. -/
def Effect.isOnSubmit : Effect → Bool
  | .onSubmit _ _ => true
  | _ => false

/-- Whether an effect is a call of the `onSubmit` or the `onClose` prop. -/
def Effect.isCallback : Effect → Bool
  | .onSubmit _ _ => true
  | .onClose => true
  | _ => false

namespace DayOffManager

/-- Whether an effect writes the `isLoading` state. -/
def writesLoading : Effect → Bool
  | .setIsLoading _ => true
  | _ => false

/-- Whether an effect clears an interval timer. -/
def clearsTimer : Effect → Bool
  | .clearInterval _ => true
  | _ => false

/-- A piece of a pass that does not write `isLoading`. -/
def quietSeg (seg : List Effect) : Bool := seg.all fun e => !writesLoading e

/-- A piece of a pass that clears no timer. -/
def safeSeg (seg : List Effect) : Bool := seg.all fun e => !clearsTimer e

/-- What holds of every pass in flight: it still waits for a response, no piece of
it clears a timer, only its last piece may write `isLoading`, and a silent pass
never does. -/
def passOk (p : Pass) : Bool :=
  !p.pending.isEmpty && p.pending.all safeSeg && p.pending.dropLast.all quietSeg &&
    (p.showLoading || p.pending.all quietSeg)

/-- What a pass does when it is started: lines 39-44 up to the request. -/
def firstSegment (env : Env) (showLoading : Bool) : List Effect :=
  (if showLoading then [Effect.setIsLoading true] else []) ++
    [Effect.request ⟨.get, env.backendUrl ++ "/api/admin/manual-day-off-check", [], env.adminHeaders⟩]

/-- The invariant of the component. -/
structure Inv (s : State) : Prop where
  passes : ∀ p ∈ s.inFlight, passOk p = true
  loading : ∀ p ∈ s.inFlight, p.showLoading = true → s.isLoading = true
  atMostOne : loadingInFlight s ≤ 1
  initial : s.phase = Phase.initial →
    s.timers = [] ∧ s.inFlight = [] ∧ s.autoUpdateIntervalRef = none ∧ s.autoStarted = 0
  mounted : s.phase = Phase.mounted →
    ∃ id, id ≠ 0 ∧ s.autoUpdateIntervalRef = some id ∧ s.timers = [id]
  unmounted : s.phase = Phase.unmounted → s.timers = []
  next : s.nextTimer ≠ 0

end DayOffManager

namespace Reconciler

/-- Every doctor with this id is unavailable by a manual write. -/
def ManualOff (docId : String) (registry : List Doctor) : Prop :=
  ∀ d ∈ registry, d.id = docId → d.available = false ∧ d.lastAutoToggle = false

end Reconciler

/-- The toasts a function shows itself, in order; the toasts of a refresh it starts
without waiting are not among them. -/
def Eff.toasts {α : Type} (m : Eff α) : List Effect := m.trace.filter Effect.isToast

/-- The signal a manual action owes for the outcome of its request: one success
toast with the backend's message when the backend reports success, one error toast
otherwise (`thrown` is the text shown for a thrown error). -/
def signal (o : Outcome) (thrown : JsError → String) : List Effect :=
  match o with
  | .resolved d => if d.success then [.toastSuccess d.message] else [.toastError d.message]
  | .rejected e => [.toastError (thrown e)]

/-- Whether a request asks the backend for a day-off check: the admin's
`manual-day-off-check` or the doctor's `update-day-off-availability`. -/
def isDayOffCheck (env : Env) (r : Request) : Prop :=
  r.url = env.backendUrl ++ "/api/admin/manual-day-off-check" ∨
  r.url = env.backendUrl ++ "/api/doctor/update-day-off-availability"

/-- Whether a request changes an appointment: the admin's `appointment-cancel/<id>`,
or the doctor's `cancel-appointment`, `complete-appointment`,
`add-consultation-summary` or `mark-appointments-seen`. -/
def isAppointmentMutation (env : Env) (r : Request) : Prop :=
  (∃ appointmentId, r.url = env.backendUrl ++ "/api/admin/appointment-cancel/" ++ appointmentId) ∨
  r.url = env.backendUrl ++ "/api/doctor/cancel-appointment" ∨
  r.url = env.backendUrl ++ "/api/doctor/complete-appointment" ∨
  r.url = env.backendUrl ++ "/api/doctor/add-consultation-summary" ∨
  r.url = env.backendUrl ++ "/api/doctor/mark-appointments-seen"

namespace Dashboard

/-- The appointments that the two `reduce` calls count under an entry: those whose
`docId` is not the name of a member of `Object.prototype`. -/
def counted (appointments : List Appointment) : List Appointment :=
  appointments.filter fun a => decide (a.docId ∉ objectPrototypeMembers)

end Dashboard

namespace DoctorAppointmentHistory

/-- The row the layout assigns to index `i`: page `i / 15 + 1`, printed index `i + 1`,
below the header of its page. -/
def rowAt (i : Nat) (item : Appointment) : RowDraw :=
  ⟨i / 15 + 1, toString (i + 1), item, (if i < 15 then 53 else 33) + 15 * (i % 15),
    (if i < 15 then 53 else 33) + 15 * (i % 15) + 15⟩

/-- The loop variables are in step with index `i`: `i` rows have been drawn. -/
def InStep (i : Nat) (c : Cursor) : Prop :=
  c.pdf.numberOfPages = (if i = 0 then 1 else (i - 1) / 15 + 1) ∧
  c.currentPage = c.pdf.numberOfPages ∧
  c.currentY = (if i = 0 then 53 else (if i - 1 < 15 then 53 else 33) + 15 * ((i - 1) % 15 + 1))

end DoctorAppointmentHistory

/-! ## Sample inputs -/

namespace Examples

/-- A sample environment. -/
def env : Env := ⟨"https://clinic.example", "admin-token", "doctor-token"⟩

/-- A response with `success = true`. -/
def ok : Outcome := .resolved { success := true, message := "ok" }

/-- A response with `success = false`. -/
def refused : Outcome := .resolved { success := false, message := "Database unavailable" }

/-- A request that throws. -/
def failed : Outcome := .rejected { message := "Network Error" }

/-- A pass whose three requests all succeed. -/
def allOk : DayOffManager.Outcomes := ⟨ok, ok, ok⟩

/-- A pass whose day-off check request throws. -/
def checkFails : DayOffManager.Outcomes := ⟨failed, ok, ok⟩

/-- The state a run ends in (the initial state if the run is not possible). -/
def stateAfter (evs : List DayOffManager.Event) : DayOffManager.State :=
  (DayOffManager.run env DayOffManager.State.init evs).getD DayOffManager.State.init

/-- Mount, let the initial pass finish, then a tick and a click before the tick's
check has been answered. -/
def tickThenClick : List DayOffManager.Event :=
  [.mount 3 allOk, .respond 0, .respond 0, .respond 0, .tick 1 allOk, .click allOk]

/-- The state after `tickThenClick`. -/
def afterTickThenClick : DayOffManager.State := stateAfter tickThenClick

/-- Mount, let the initial pass finish, then a tick whose check fails. -/
def failingTick : List DayOffManager.Event :=
  [.mount 3 allOk, .respond 0, .respond 0, .respond 0, .tick 1 checkFails]

/-- The state after `failingTick`. -/
def afterFailingTick : DayOffManager.State := stateAfter failingTick

/-- The state after `failingTick` once the failure has been delivered. -/
def afterFailure : DayOffManager.State := stateAfter (failingTick ++ [.respond 0])

/-- Mount, a tick, unmount, then one response. -/
def mountTickUnmount : List DayOffManager.Event :=
  [.mount 3 allOk, .tick 1 allOk, .unmount, .respond 0]

/-- The state after `mountTickUnmount`. -/
def afterUnmount : DayOffManager.State := stateAfter mountTickUnmount

/-- 7 January 1970, a Wednesday, at midnight. -/
def aWednesday : Nat := 518400000

/-- 8 January 1970, the Thursday after it. -/
def theThursdayAfter : Nat := 604800000

/-- A doctor with Wednesday off, available, not archived. -/
def wednesdayDoctor : Reconciler.Doctor := ⟨"d1", some .wednesday, true, false, false⟩

/-- Another doctor, with no day off. -/
def otherDoctor : Reconciler.Doctor := ⟨"d2", none, true, false, false⟩

/-- A registry in which doctor `d1` has Monday off and is available. -/
def registry : List Reconciler.Doctor :=
  [⟨"d1", some .monday, true, false, false⟩, otherDoctor]

/-- A stored appointment that has been completed. -/
def completedVisit : Ledger.Appointment :=
  ⟨"a1", "d1", "p1", "7_1_2025", "10:00 AM", .completed, none, none, false⟩

/-- A stored appointment that is still scheduled. -/
def scheduledVisit : Ledger.Appointment :=
  ⟨"a2", "d1", "p2", "8_1_2025", "11:00 AM", .scheduled, none, none, false⟩

/-- A ledger holding the two. -/
def ledger : List Ledger.Appointment := [completedVisit, scheduledVisit]

/-- A wording of refusals: the same text for every error kind. -/
def errorWording : Ledger.LedgerError → String := fun _ => "Appointment can no longer be changed"

/-- An appointment object flagged both completed and cancelled. -/
def completedAndCancelled : Appointment :=
  ⟨"a1", "d1", "7_1_2025", "10:00 AM", true, true, false, none, {}, {}⟩

/-- An appointment object the doctor has not seen yet. -/
def unseenVisit : Appointment :=
  ⟨"a1", "d1", "7_1_2025", "10:00 AM", false, false, false, none, {}, {}⟩

/-- A state of the doctor's provider holding that appointment. -/
def doctorState : DoctorContext.State := ⟨[unseenVisit], [], DoctorContext.emptyDashData, none⟩

/-- The listing row of doctor `d1`. -/
def archivedRow : DoctorRow := ⟨"d1", "Dr. Reyes", "Wednesday", true⟩

/-- A provider state of the admin in which `d1` is archived: it is in
`archivedDoctors` and not in `doctors`. -/
def adminState : AdminContext.State := ⟨[], [], none, [archivedRow], []⟩

/-- The listing row of doctor `d2`. -/
def otherRow : DoctorRow := ⟨"d2", "Dr. Santos", "", true⟩

/-- A provider state of the admin in which `d1` and `d2` are active and one
appointment of `d1` is held. -/
def activeState : AdminContext.State := ⟨[unseenVisit], [archivedRow, otherRow], none, [], []⟩

/-- The answer to the fetch of the active doctors once `d1` is archived: `d2` only. -/
def activeWithoutD1 : Outcome := .resolved { success := true, message := "ok", doctors := [otherRow] }

/-- An appointment whose `docId` is the text `constructor`. -/
def constructorVisit : Appointment :=
  ⟨"a8", "constructor", "7_1_2025", "10:00 AM", false, false, false, none, {}, {}⟩

/-- Three appointments of two doctors, one completed, one cancelled, one pending. -/
def visits : List Appointment :=
  [⟨"a1", "d1", "7_1_2025", "10:00 AM", false, true, false, none, {}, {}⟩,
    ⟨"a2", "d2", "7_1_2025", "11:00 AM", true, false, false, none, {}, {}⟩,
    ⟨"a3", "d1", "8_1_2025", "10:00 AM", false, false, false, none, {}, {}⟩]

/-- A listing row of a doctor whose profile form stored "No Day Off Selected". -/
def noDayOffRow : DoctorRow := ⟨"d3", "Dr. Lim", "", true⟩

/-- A history appointment of a patient whose record has no middle name. -/
def visitWithoutMiddleName : Appointment :=
  ⟨"a7", "d1", "7_1_2025", "10:00 AM", false, true, true, none,
    { firstName := "Ana", lastName := "Cruz", email := "ana@example.com" }, {}⟩

/-- Lower-casing of the letters `A`-`Z`, which is what `toLowerCase` does on text made
of ASCII characters. -/
def asciiLowerCase (s : String) : String := String.mk (s.data.map Char.toLower)

end Examples

/-! # Properties

From here on: lemmas, then for each property of the specification one theorem. -/

/-! ## Request helpers and handlers -/

namespace DayOffManager

/-- C2: what the code does on a silent (timer-fired) pass whose request fails. The
pass is `handleRunDayOffChecker(false)`. When the backend answers
`success = false`, an error toast with the backend's message is shown; when the
request throws, an error toast with the error message (or "Failed to update doctor
availability") is shown. The toasts come from `runDayOffChecker`, which also
swallows the error, so the guard `if (showLoading)` in the `catch` of
`handleRunDayOffChecker` is never reached. -/
theorem silent_pass_failure_shows_error_toast :
    (∀ (env : Env) (d : Data) (inner outer : Outcome),
      (handleRunDayOffChecker env false (.resolved { d with success := false }) inner outer).trace =
        [.request ⟨.get, env.backendUrl ++ "/api/admin/manual-day-off-check", [], env.adminHeaders⟩,
          .toastError d.message]) ∧
    (∀ (env : Env) (e : JsError) (inner outer : Outcome),
      (handleRunDayOffChecker env false (.rejected e) inner outer).trace =
        [.request ⟨.get, env.backendUrl ++ "/api/admin/manual-day-off-check", [], env.adminHeaders⟩,
          .consoleLog e.message,
          .toastError (strOr e.message "Failed to update doctor availability")]) := by
  constructor
  · intro env d inner outer
    rfl
  · intro env e inner outer
    rfl

end DayOffManager

/-- C8: what the two profile updates do after the backend reports success.
`DoctorProfile.updateProfile` issues the update, the profile reload and then the
day-off availability request. `AdminContext.updateDoctor` issues the update and the
doctors refresh and nothing else: no day-off check request follows. -/
theorem updateDoctor_issues_no_day_off_check :
    (∀ (env : Env) (p : ProfileData) (d : Data) (profile dayOff : Outcome),
      (DoctorProfile.updateProfile env p (.resolved { d with success := true }) profile
          dayOff).requests =
        [⟨.post, env.backendUrl ++ "/api/doctor/update-profile", DoctorProfile.updateData p,
            env.doctorHeaders⟩,
          ⟨.get, env.backendUrl ++ "/api/doctor/profile", [], env.doctorHeaders⟩,
          ⟨.get, env.backendUrl ++ "/api/doctor/update-day-off-availability", [],
            env.doctorHeaders⟩]) ∧
    (∀ (env : Env) (doctorId : String) (formData : List (String × JsVal)) (d : Data)
        (doctors : Outcome),
      (AdminContext.updateDoctor env doctorId formData (.resolved { d with success := true })
          doctors).requests =
        [⟨.put, env.backendUrl ++ "/api/admin/update-doctor/" ++ doctorId, formData,
            env.adminHeaders ++ [("Content-Type", "multipart/form-data")]⟩,
          ⟨.get, env.backendUrl ++ "/api/admin/all-doctors", [], env.adminHeaders⟩] ∧
      (AdminContext.updateDoctor env doctorId formData (.resolved { d with success := true })
          doctors).result = .ok true) := by
  refine ⟨?_, ?_⟩
  · intro env p d profile dayOff
    rcases profile with ⟨⟨_ | _, m1, ds1, aps1, st1, dd1, pd1⟩⟩ | e1 <;>
    rcases dayOff with ⟨⟨_ | _, m2, ds2, aps2, st2, dd2, pd2⟩⟩ | e2 <;> rfl
  · intro env doctorId formData d doctors
    rcases doctors with ⟨⟨_ | _, m1, ds1, aps1, st1, dd1, pd1⟩⟩ | e1 <;> exact ⟨rfl, rfl⟩

namespace ConsultationSummaryModal

theorem falsy_iff (s : String) : falsy s = true ↔ s = "" := by
  unfold falsy
  rw [List.isEmpty_iff]
  constructor
  · intro h
    exact String.ext h
  · intro h
    rw [h]

theorem handleSubmit_trace (summary appointmentId : String) (submitted : Except JsError Unit) :
    (handleSubmit summary appointmentId submitted).trace =
      if trim summary = "" then []
      else [Effect.setIsSubmitting true, Effect.onSubmit appointmentId summary] ++
        (match submitted with
          | .ok _ => [Effect.setIsSubmitting false, Effect.onClose]
          | .error _ => []) := by
  unfold handleSubmit
  by_cases h : trim summary = ""
  · rw [if_pos ((falsy_iff _).mpr h), if_pos h]
    rfl
  · rw [if_neg (fun hb => h ((falsy_iff _).mp hb)), if_neg h]
    cases submitted <;> rfl

/-- C9: an empty consultation summary is never submitted. For every summary text,
`handleSubmit` calls `onSubmit` if and only if the text is not empty after trimming.
When the text is blank it calls neither `onSubmit` nor `onClose` (it does nothing at
all); when it is not blank it calls `onSubmit` exactly once, with the `appointmentId`
and the text as typed, and then `onClose` if that call did not reject. -/
theorem handleSubmit_skips_blank_summary (summary appointmentId : String)
    (submitted : Except JsError Unit) :
    ((∃ a t, Effect.onSubmit a t ∈ (handleSubmit summary appointmentId submitted).trace) ↔
      trim summary ≠ "") ∧
    (handleSubmit summary appointmentId submitted).trace.filter Effect.isCallback =
      (if trim summary = "" then []
       else Effect.onSubmit appointmentId summary ::
        (match submitted with
          | .ok _ => [Effect.onClose]
          | .error _ => [])) ∧
    (handleSubmit summary appointmentId submitted).trace.filter Effect.isOnSubmit =
      (if trim summary = "" then [] else [Effect.onSubmit appointmentId summary]) ∧
    (if trim summary = "" then (handleSubmit summary appointmentId submitted).effects = []
     else True) := by
  unfold Eff.effects
  have hl : (handleSubmit summary appointmentId submitted).later = [] := by
    unfold handleSubmit
    split
    · rfl
    · cases submitted <;> rfl
  rw [handleSubmit_trace, hl]
  by_cases h : trim summary = ""
  · simp [h]
  · cases submitted <;> simp [h, Effect.isCallback, Effect.isOnSubmit]

end ConsultationSummaryModal

/-- C10 (as amended): `cancelAppointment` does not check the reason. In
`AdminContext` and in `DoctorContext`, for every appointment and every reason (the
empty string and a missing argument included), it sends exactly one cancellation
request, which carries the reason as given, and its promise never rejects. The
cancellation is refused only by the backend: when the response has
`success = false`, or the request throws, an error toast is shown and nothing is
refreshed. -/
theorem cancelAppointment_forwards_reason (env : Env) (appointmentId : String)
    (cancellationReason : JsVal) (o appointments dash : Outcome) (d : Data) (e : JsError) :
    ((AdminContext.cancelAppointment env appointmentId cancellationReason o appointments).requests.filter
        (fun r => r.method != .get) =
      [⟨.put, env.backendUrl ++ "/api/admin/appointment-cancel/" ++ appointmentId,
        [("cancellationReason", cancellationReason)], env.adminHeaders⟩] ∧
      (AdminContext.cancelAppointment env appointmentId cancellationReason o appointments).result =
        .ok () ∧
      (AdminContext.cancelAppointment env appointmentId cancellationReason
          (.resolved { d with success := false }) appointments).effects =
        [.request ⟨.put, env.backendUrl ++ "/api/admin/appointment-cancel/" ++ appointmentId,
            [("cancellationReason", cancellationReason)], env.adminHeaders⟩,
          .toastError d.message] ∧
      (AdminContext.cancelAppointment env appointmentId cancellationReason (.rejected e)
          appointments).effects =
        [.request ⟨.put, env.backendUrl ++ "/api/admin/appointment-cancel/" ++ appointmentId,
            [("cancellationReason", cancellationReason)], env.adminHeaders⟩,
          .toastError e.message, .consoleLog e.message]) ∧
    ((DoctorContext.cancelAppointment env appointmentId cancellationReason o appointments
          dash).requests.filter (fun r => r.method != .get) =
      [⟨.post, env.backendUrl ++ "/api/doctor/cancel-appointment",
        [("appointmentId", .str appointmentId), ("cancellationReason", cancellationReason)],
        env.doctorHeaders⟩] ∧
      (DoctorContext.cancelAppointment env appointmentId cancellationReason o appointments
          dash).result = .ok () ∧
      (DoctorContext.cancelAppointment env appointmentId cancellationReason
          (.resolved { d with success := false }) appointments dash).effects =
        [.request ⟨.post, env.backendUrl ++ "/api/doctor/cancel-appointment",
            [("appointmentId", .str appointmentId), ("cancellationReason", cancellationReason)],
            env.doctorHeaders⟩,
          .toastError d.message] ∧
      (DoctorContext.cancelAppointment env appointmentId cancellationReason (.rejected e)
          appointments dash).effects =
        [.request ⟨.post, env.backendUrl ++ "/api/doctor/cancel-appointment",
            [("appointmentId", .str appointmentId), ("cancellationReason", cancellationReason)],
            env.doctorHeaders⟩,
          .toastError e.message, .consoleLog e.message]) := by
  refine ⟨⟨?_, ?_, rfl, rfl⟩, ⟨?_, ?_, rfl, rfl⟩⟩
  · rcases o with ⟨⟨_ | _, m1, ds1, aps1, st1, dd1, pd1⟩⟩ | e1 <;>
    rcases appointments with ⟨⟨_ | _, m2, ds2, aps2, st2, dd2, pd2⟩⟩ | e2 <;> rfl
  · rcases o with ⟨⟨_ | _, m1, ds1, aps1, st1, dd1, pd1⟩⟩ | e1 <;> rfl
  · rcases o with ⟨⟨_ | _, m1, ds1, aps1, st1, dd1, pd1⟩⟩ | e1 <;>
    rcases appointments with ⟨⟨_ | _, m2, ds2, aps2, st2, dd2, pd2⟩⟩ | e2 <;>
    rcases dash with ⟨⟨_ | _, m3, ds3, aps3, st3, dd3, pd3⟩⟩ | e3 <;> rfl
  · rcases o with ⟨⟨_ | _, m1, ds1, aps1, st1, dd1, pd1⟩⟩ | e1 <;> rfl

/-- C10, counterexample: a cancellation with an empty reason, and one with no reason
at all, is sent to the backend and, when the backend accepts it, is reported as a
success; no validation error is raised. -/
theorem cancelAppointment_sends_empty_reason :
    (AdminContext.cancelAppointment Examples.env "a1" (.str "") Examples.ok Examples.ok).trace =
      [.request ⟨.put, "https://clinic.example/api/admin/appointment-cancel/a1",
          [("cancellationReason", .str "")], [("Authorization", "Bearer admin-token")]⟩,
        .toastSuccess "ok",
        .request ⟨.get, "https://clinic.example/api/admin/appointments", [],
          [("Authorization", "Bearer admin-token")]⟩] ∧
    (AdminContext.cancelAppointment Examples.env "a1" (.str "") Examples.ok Examples.ok).result =
      .ok () ∧
    (DoctorContext.cancelAppointment Examples.env "a1" .undefined Examples.ok Examples.ok
        Examples.ok).trace =
      [.request ⟨.post, "https://clinic.example/api/doctor/cancel-appointment",
          [("appointmentId", .str "a1"), ("cancellationReason", .undefined)],
          [("dToken", "doctor-token")]⟩,
        .toastSuccess "ok",
        .request ⟨.get, "https://clinic.example/api/doctor/appointments", [],
          [("dToken", "doctor-token")]⟩,
        .request ⟨.get, "https://clinic.example/api/doctor/dashboard", [],
          [("dToken", "doctor-token")]⟩] ∧
    (DoctorContext.cancelAppointment Examples.env "a1" .undefined Examples.ok Examples.ok
        Examples.ok).result = .ok () :=
  ⟨by decide, rfl, by decide, rfl⟩

/-! ## The reconciliation pass -/

namespace Reconciler

theorem reconcileDoctor_twice (wd : Weekday) (d : Doctor) :
    reconcileDoctor wd (reconcileDoctor wd d).1 = ((reconcileDoctor wd d).1, Toggle.unchanged) := by
  rcases d with ⟨id, dayOff, av, ar, m⟩
  by_cases h : dayOff = some wd <;> cases av <;> cases ar <;> cases m <;>
    simp [reconcileDoctor, h]

theorem reconcile_registry (now : Nat) (reg : List Doctor) :
    (reconcile now reg).registry = reg.map (fun d => (reconcileDoctor (weekdayOf now) d).1) := by
  simp [reconcile, List.map_map, Function.comp_def]

theorem reconcile_turnedOn (now : Nat) (reg : List Doctor) :
    (reconcile now reg).stats.turnedOn =
      (reg.filter (fun d => decide ((reconcileDoctor (weekdayOf now) d).2 = Toggle.turnedOn))).length := by
  simp [reconcile, List.filter_map, Function.comp_def]

theorem reconcile_turnedOff (now : Nat) (reg : List Doctor) :
    (reconcile now reg).stats.turnedOff =
      (reg.filter (fun d => decide ((reconcileDoctor (weekdayOf now) d).2 = Toggle.turnedOff))).length := by
  simp [reconcile, List.filter_map, Function.comp_def]

/-- C5: reconciliation is idempotent. For every registry and every time `now`, a
second pass run right after a first one, with nothing else touching the registry in
between, reports `turnedOn = 0` and `turnedOff = 0` and leaves the registry, and so
every doctor's `available` flag, as the first pass left it. -/
theorem reconcile_idempotent (registry : List Doctor) (now : Nat) :
    (reconcile now (reconcile now registry).registry).stats.turnedOn = 0 ∧
    (reconcile now (reconcile now registry).registry).stats.turnedOff = 0 ∧
    (reconcile now (reconcile now registry).registry).registry = (reconcile now registry).registry := by
  refine ⟨?_, ?_, ?_⟩
  · rw [reconcile_turnedOn, reconcile_registry, List.length_eq_zero, List.filter_eq_nil_iff]
    intro d hd
    obtain ⟨d0, -, rfl⟩ := List.mem_map.mp hd
    simp [reconcileDoctor_twice]
  · rw [reconcile_turnedOff, reconcile_registry, List.length_eq_zero, List.filter_eq_nil_iff]
    intro d hd
    obtain ⟨d0, -, rfl⟩ := List.mem_map.mp hd
    simp [reconcileDoctor_twice]
  · rw [reconcile_registry, reconcile_registry, List.map_map]
    apply List.map_congr_left
    intro d _
    simp [reconcileDoctor_twice]


theorem reconcileDoctor_id (wd : Weekday) (d : Doctor) : (reconcileDoctor wd d).1.id = d.id := by
  unfold reconcileDoctor
  split
  · rfl
  · dsimp only
    split
    · rfl
    · split <;> rfl

/-- A doctor switched off by hand is left alone by a pass. -/
theorem reconcileDoctor_manualOff (wd : Weekday) (d : Doctor)
    (hav : d.available = false) (hm : d.lastAutoToggle = false) :
    reconcileDoctor wd d = (d, Toggle.unchanged) := by
  rcases d with ⟨id, dayOff, av, ar, m⟩
  simp only at hav hm
  subst hav hm
  cases ar <;> simp [reconcileDoctor]

theorem manualOff_reconcile (docId : String) (now : Nat) (registry : List Doctor)
    (h : ManualOff docId registry) : ManualOff docId (reconcile now registry).registry := by
  intro d hd hid
  rw [reconcile_registry] at hd
  obtain ⟨d0, hd0, rfl⟩ := List.mem_map.mp hd
  rw [reconcileDoctor_id] at hid
  have := h d0 hd0 hid
  rw [reconcileDoctor_manualOff _ _ this.1 this.2]
  exact this

theorem manualOff_reconcileAll (docId : String) (nows : List Nat) (registry : List Doctor)
    (h : ManualOff docId registry) : ManualOff docId (reconcileAll nows registry) := by
  induction nows generalizing registry with
  | nil => exact h
  | cons now rest ih => exact ih _ (manualOff_reconcile docId now registry h)

theorem manualOff_turnedOn (docId : String) (now : Nat) (registry : List Doctor)
    (h : ManualOff docId registry) :
    (reconcile now registry).stats.turnedOn =
      (reconcile now (registry.filter (fun d => decide (d.id ≠ docId)))).stats.turnedOn := by
  rw [reconcile_turnedOn, reconcile_turnedOn, List.filter_filter]
  congr 1
  apply List.filter_congr
  intro d hd
  by_cases hid : d.id = docId
  · have := h d hd hid
    simp [reconcileDoctor_manualOff _ _ this.1 this.2, hid]
  · simp [hid]

theorem manualOff_updateProfile (docId : String) (dayOff : Option Weekday) (registry : List Doctor) :
    ManualOff docId (updateProfile docId false dayOff registry) := by
  intro d hd hid
  obtain ⟨d0, -, rfl⟩ := List.mem_map.mp hd
  by_cases h0 : d0.id = docId
  · simp [h0]
  · simp [h0] at hid

theorem manualOff_changeAvailability (docId : String) (registry : List Doctor)
    (hav : ∀ d ∈ registry, d.id = docId → d.available = true) :
    ManualOff docId (changeAvailability docId registry) := by
  intro d hd hid
  obtain ⟨d0, hd0, rfl⟩ := List.mem_map.mp hd
  by_cases h0 : d0.id = docId
  · simp [h0, hav d0 hd0 h0]
  · simp [h0] at hid

/-- C7: a manual override survives reconciliation. Let `written` be the registry
after a doctor was switched off by hand, through the profile update with
`available = false` or through `changeAvailability` on an available doctor. Then
after any number of passes, at any times, every pass leaves that doctor unavailable
and counts no `turnedOn` for them (the count equals that of the same pass over the
registry without the doctor). The manual write records `lastAutoToggle = false`,
and that marker, not the `available` flag, is what tells the two cases apart: of two
unavailable doctors that differ only in the marker, a pass off their day off leaves
the manual one unavailable and switches the other one on. -/
theorem manual_override_survives_reconcile (registry written : List Doctor) (docId : String) (dayOff : Option Weekday)
    (nows : List Nat) (now : Nat)
    (hManual : written = updateProfile docId false dayOff registry ∨
      (written = changeAvailability docId registry ∧
        ∀ d ∈ registry, d.id = docId → d.available = true)) :
    (∀ d ∈ (reconcile now (reconcileAll nows written)).registry,
        d.id = docId → d.available = false) ∧
    (reconcile now (reconcileAll nows written)).stats.turnedOn =
      (reconcile now ((reconcileAll nows written).filter (fun d => decide (d.id ≠ docId)))).stats.turnedOn ∧
    (∀ d ∈ written, d.id = docId → d.lastAutoToggle = false) ∧
    (∀ (d : Doctor) (wd : Weekday), d.archived = false → d.available = false → d.dayOff ≠ some wd →
      (reconcileDoctor wd { d with lastAutoToggle := false }).1.available = false ∧
      (reconcileDoctor wd { d with lastAutoToggle := true }).1.available = true) := by
  have hw : ManualOff docId written := by
    rcases hManual with h | ⟨h, hav⟩
    · rw [h]; exact manualOff_updateProfile docId dayOff registry
    · rw [h]; exact manualOff_changeAvailability docId registry hav
  have hr := manualOff_reconcileAll docId nows written hw
  refine ⟨?_, manualOff_turnedOn docId now _ hr, ?_, ?_⟩
  · intro d hd hid
    exact (manualOff_reconcile docId now _ hr d hd hid).1
  · intro d hd hid
    exact (hw d hd hid).2
  · intro d wd har hav hoff
    rcases d with ⟨id, dayOff, av, ar, m⟩
    simp only at har hav hoff
    subst har hav
    simp [reconcileDoctor, hoff]

/-- C7, witness: doctor `d1`, available, is switched off through
`changeAvailability`; two passes follow, then a third. -/
theorem manual_override_survives_reconcile_witness :
    (changeAvailability "d1" Examples.registry =
        updateProfile "d1" false none Examples.registry ∨
      (changeAvailability "d1" Examples.registry = changeAvailability "d1" Examples.registry ∧
        ∀ d ∈ Examples.registry, d.id = "d1" → d.available = true)) ∧
    ((∀ d ∈ (reconcile Examples.theThursdayAfter
          (reconcileAll [0, Examples.aWednesday]
            (changeAvailability "d1" Examples.registry))).registry,
        d.id = "d1" → d.available = false) ∧
      (reconcile Examples.theThursdayAfter
          (reconcileAll [0, Examples.aWednesday]
            (changeAvailability "d1" Examples.registry))).stats.turnedOn =
        (reconcile Examples.theThursdayAfter
          ((reconcileAll [0, Examples.aWednesday]
            (changeAvailability "d1" Examples.registry)).filter
              (fun d => decide (d.id ≠ "d1")))).stats.turnedOn ∧
      (∀ d ∈ changeAvailability "d1" Examples.registry, d.id = "d1" → d.lastAutoToggle = false) ∧
      (∀ (d : Doctor) (wd : Weekday), d.archived = false → d.available = false →
        d.dayOff ≠ some wd →
        (reconcileDoctor wd { d with lastAutoToggle := false }).1.available = false ∧
        (reconcileDoctor wd { d with lastAutoToggle := true }).1.available = true)) := by
  have hManual : changeAvailability "d1" Examples.registry =
        updateProfile "d1" false none Examples.registry ∨
      (changeAvailability "d1" Examples.registry = changeAvailability "d1" Examples.registry ∧
        ∀ d ∈ Examples.registry, d.id = "d1" → d.available = true) :=
    Or.inr ⟨rfl, by decide⟩
  have h := manual_override_survives_reconcile Examples.registry
    (changeAvailability "d1" Examples.registry) "d1" none [0, Examples.aWednesday]
    Examples.theThursdayAfter hManual
  exact ⟨hManual, h⟩

theorem getIdx_middle {α : Type} (l1 l2 : List α) (a : α) (n : Nat) (h : l1.length = n) :
    (l1 ++ a :: l2).get? n = some a := by
  subst h
  induction l1 with
  | nil => rfl
  | cons x xs ih => simpa using ih

/-- C6: day-off correctness. The pass of section 4.1 goes over every non-archived
doctor, so the doctor is one of those. Take such a doctor with `dayOff = Wednesday` and
`available = true`, anywhere in the registry. A pass run at a time that falls on a
Wednesday sets `available = false` for them and reports `turnedOff` exactly 1 higher
(and `turnedOn` no higher) than the same pass over the registry without them. The pass
run after it at a time that falls on a Thursday sets `available = true` and reports
`turnedOn` exactly 1 higher (and `turnedOff` no higher) than without them. -/
theorem day_off_toggles_active_doctor (pre post : List Doctor) (d : Doctor) (wed thu : Nat)
    (hWed : weekdayOf wed = Weekday.wednesday) (hThu : weekdayOf thu = Weekday.thursday)
    (hOff : d.dayOff = some Weekday.wednesday) (hAv : d.available = true)
    (hAr : d.archived = false) :
    ((reconcile wed (pre ++ d :: post)).registry.get? pre.length).map (·.available) = some false ∧
    (reconcile wed (pre ++ d :: post)).stats.turnedOff =
      (reconcile wed (pre ++ post)).stats.turnedOff + 1 ∧
    (reconcile wed (pre ++ d :: post)).stats.turnedOn =
      (reconcile wed (pre ++ post)).stats.turnedOn ∧
    ((reconcile thu (reconcile wed (pre ++ d :: post)).registry).registry.get? pre.length).map
      (·.available) = some true ∧
    (reconcile thu (reconcile wed (pre ++ d :: post)).registry).stats.turnedOn =
      (reconcile thu (reconcile wed (pre ++ post)).registry).stats.turnedOn + 1 ∧
    (reconcile thu (reconcile wed (pre ++ d :: post)).registry).stats.turnedOff =
      (reconcile thu (reconcile wed (pre ++ post)).registry).stats.turnedOff := by
  rcases d with ⟨id, dayOff, av, ar, m⟩
  simp only at hOff hAv hAr
  subst hOff hAv hAr
  have h1 : reconcileDoctor Weekday.wednesday ⟨id, some Weekday.wednesday, true, false, m⟩ =
      (⟨id, some Weekday.wednesday, false, false, true⟩, Toggle.turnedOff) := by
    simp [reconcileDoctor]
  have h2 : reconcileDoctor Weekday.thursday ⟨id, some Weekday.wednesday, false, false, true⟩ =
      (⟨id, some Weekday.wednesday, true, false, true⟩, Toggle.turnedOn) := by
    simp [reconcileDoctor]
  have hlen : ∀ wd : Weekday, (List.map (fun d => (reconcileDoctor wd d).1) pre).length = pre.length :=
    fun wd => List.length_map _ _
  refine ⟨?_, ?_, ?_, ?_, ?_, ?_⟩
  · rw [reconcile_registry, hWed, List.map_append, List.map_cons, h1]
    rw [getIdx_middle _ _ _ _ (hlen Weekday.wednesday)]
    rfl
  · rw [reconcile_turnedOff, reconcile_turnedOff, hWed]
    simp [List.filter_append, List.filter_cons, h1]
    omega
  · rw [reconcile_turnedOn, reconcile_turnedOn, hWed]
    simp [List.filter_append, List.filter_cons, h1]
  · rw [reconcile_registry, reconcile_registry, hWed, hThu, List.map_append, List.map_cons, h1,
      List.map_append, List.map_cons, h2]
    have : (List.map (fun d => (reconcileDoctor Weekday.thursday d).1)
        (List.map (fun d => (reconcileDoctor Weekday.wednesday d).1) pre)).length = pre.length := by
      simp
    rw [getIdx_middle _ _ _ _ this]
    rfl
  · rw [reconcile_turnedOn, reconcile_turnedOn, reconcile_registry, reconcile_registry, hWed, hThu,
      List.map_append, List.map_cons, h1]
    simp [List.filter_append, List.filter_cons, h2]
    omega
  · rw [reconcile_turnedOff, reconcile_turnedOff, reconcile_registry, reconcile_registry, hWed, hThu,
      List.map_append, List.map_cons, h1]
    simp [List.filter_append, List.filter_cons, h2]



/-- C6, witness: the registry `[d2, d1]` with `d1` off on Wednesdays, a Wednesday
and the Thursday after it. -/
theorem day_off_toggles_active_doctor_witness :
    (weekdayOf Examples.aWednesday = Weekday.wednesday ∧
      weekdayOf Examples.theThursdayAfter = Weekday.thursday ∧
      Examples.wednesdayDoctor.dayOff = some Weekday.wednesday ∧
      Examples.wednesdayDoctor.available = true ∧
      Examples.wednesdayDoctor.archived = false) ∧
    (((reconcile Examples.aWednesday
          ([Examples.otherDoctor] ++ Examples.wednesdayDoctor :: [])).registry.get?
            [Examples.otherDoctor].length).map (·.available) = some false ∧
      (reconcile Examples.aWednesday
          ([Examples.otherDoctor] ++ Examples.wednesdayDoctor :: [])).stats.turnedOff =
        (reconcile Examples.aWednesday ([Examples.otherDoctor] ++ [])).stats.turnedOff + 1 ∧
      (reconcile Examples.aWednesday
          ([Examples.otherDoctor] ++ Examples.wednesdayDoctor :: [])).stats.turnedOn =
        (reconcile Examples.aWednesday ([Examples.otherDoctor] ++ [])).stats.turnedOn ∧
      ((reconcile Examples.theThursdayAfter
          (reconcile Examples.aWednesday
            ([Examples.otherDoctor] ++ Examples.wednesdayDoctor :: [])).registry).registry.get?
              [Examples.otherDoctor].length).map (·.available) = some true ∧
      (reconcile Examples.theThursdayAfter
          (reconcile Examples.aWednesday
            ([Examples.otherDoctor] ++ Examples.wednesdayDoctor :: [])).registry).stats.turnedOn =
        (reconcile Examples.theThursdayAfter
          (reconcile Examples.aWednesday ([Examples.otherDoctor] ++ [])).registry).stats.turnedOn + 1 ∧
      (reconcile Examples.theThursdayAfter
          (reconcile Examples.aWednesday
            ([Examples.otherDoctor] ++ Examples.wednesdayDoctor :: [])).registry).stats.turnedOff =
        (reconcile Examples.theThursdayAfter
          (reconcile Examples.aWednesday ([Examples.otherDoctor] ++ [])).registry).stats.turnedOff) := by
  have h1 : weekdayOf Examples.aWednesday = Weekday.wednesday := by decide
  have h2 : weekdayOf Examples.theThursdayAfter = Weekday.thursday := by decide
  have h := day_off_toggles_active_doctor [Examples.otherDoctor] [] Examples.wednesdayDoctor
    Examples.aWednesday Examples.theThursdayAfter h1 h2 rfl rfl rfl
  exact ⟨⟨h1, h2, rfl, rfl, rfl⟩, h⟩

end Reconciler

/-! ## The day-off manager component -/

namespace DayOffManager


theorem segments_handleRunDayOffChecker (env : Env) (showLoading : Bool) (o : Outcomes) :
    ∃ next rest,
      segments (handleRunDayOffChecker env showLoading o.check o.inner o.outer).trace =
        firstSegment env showLoading :: next :: rest ∧
      passOk ⟨showLoading, 0, next :: rest⟩ = true := by
  rcases o with ⟨check, inner, outer⟩
  rcases check with ⟨⟨_ | _, m1, ds1, aps1, st1, dd1, pd1⟩⟩ | e1 <;>
  rcases inner with ⟨⟨_ | _, m2, ds2, aps2, st2, dd2, pd2⟩⟩ | e2 <;>
  rcases outer with ⟨⟨_ | _, m3, ds3, aps3, st3, dd3, pd3⟩⟩ | e3 <;>
  cases showLoading <;> exact ⟨_, _, rfl, rfl⟩


/-! Frame lemmas for `applyEffect` -/

theorem applyEffect_frame (s : State) (e : Effect) :
    (applyEffect s e).phase = s.phase ∧ (applyEffect s e).inFlight = s.inFlight ∧
    (applyEffect s e).autoUpdateIntervalRef = s.autoUpdateIntervalRef ∧
    (applyEffect s e).nextTimer = s.nextTimer ∧ (applyEffect s e).autoStarted = s.autoStarted := by
  cases e <;> exact ⟨rfl, rfl, rfl, rfl, rfl⟩

theorem applyEffects_frame (s : State) (es : List Effect) :
    (applyEffects s es).phase = s.phase ∧ (applyEffects s es).inFlight = s.inFlight ∧
    (applyEffects s es).autoUpdateIntervalRef = s.autoUpdateIntervalRef ∧
    (applyEffects s es).nextTimer = s.nextTimer ∧
    (applyEffects s es).autoStarted = s.autoStarted := by
  induction es generalizing s with
  | nil => exact ⟨rfl, rfl, rfl, rfl, rfl⟩
  | cons e es ih =>
    have h1 := applyEffect_frame s e
    have h2 := ih (applyEffect s e)
    simp only [applyEffects, List.foldl_cons] at h2 ⊢
    exact ⟨h2.1.trans h1.1, h2.2.1.trans h1.2.1, h2.2.2.1.trans h1.2.2.1,
      h2.2.2.2.1.trans h1.2.2.2.1, h2.2.2.2.2.trans h1.2.2.2.2⟩

theorem applyEffects_timers (s : State) (es : List Effect) (h : safeSeg es = true) :
    (applyEffects s es).timers = s.timers := by
  induction es generalizing s with
  | nil => rfl
  | cons e es ih =>
    simp only [safeSeg, List.all_cons, Bool.and_eq_true] at h
    have h2 := ih (applyEffect s e) (by simpa [safeSeg] using h.2)
    simp only [applyEffects, List.foldl_cons] at h2 ⊢
    rw [h2]
    cases e <;> first | rfl | simp [clearsTimer] at h

theorem applyEffects_isLoading (s : State) (es : List Effect) (h : quietSeg es = true) :
    (applyEffects s es).isLoading = s.isLoading := by
  induction es generalizing s with
  | nil => rfl
  | cons e es ih =>
    simp only [quietSeg, List.all_cons, Bool.and_eq_true] at h
    have h2 := ih (applyEffect s e) (by simpa [quietSeg] using h.2)
    simp only [applyEffects, List.foldl_cons] at h2 ⊢
    rw [h2]
    cases e <;> first | rfl | simp [writesLoading] at h

theorem firstSegment_safe (env : Env) (b : Bool) : safeSeg (firstSegment env b) = true := by
  cases b <;> rfl

theorem firstSegment_quiet (env : Env) : quietSeg (firstSegment env false) = true := rfl

theorem firstSegment_isLoading (env : Env) (s : State) :
    (applyEffects s (firstSegment env true)).isLoading = true := rfl

/-- What `startPass` does, field by field. -/
theorem startPass_fields (env : Env) (s : State) (showLoading : Bool) (o : Outcomes) :
    (∃ p : Pass, p.showLoading = showLoading ∧ passOk p = true ∧
      (startPass env s showLoading o).inFlight = s.inFlight ++ [p]) ∧
    (startPass env s showLoading o).phase = s.phase ∧
    (startPass env s showLoading o).isLoading = (showLoading || s.isLoading) ∧
    (startPass env s showLoading o).timers = s.timers ∧
    (startPass env s showLoading o).autoUpdateIntervalRef = s.autoUpdateIntervalRef ∧
    (startPass env s showLoading o).nextTimer = s.nextTimer ∧
    (startPass env s showLoading o).autoStarted = s.autoStarted := by
  obtain ⟨next, rest, hseg, hok⟩ := segments_handleRunDayOffChecker env showLoading o
  have hfr := applyEffects_frame s (firstSegment env showLoading)
  have htm := applyEffects_timers s (firstSegment env showLoading) (firstSegment_safe env showLoading)
  have heq : startPass env s showLoading o =
      { applyEffects s (firstSegment env showLoading) with
        inFlight := (applyEffects s (firstSegment env showLoading)).inFlight ++
          [⟨showLoading, 0, next :: rest⟩] } := by
    unfold startPass
    rw [hseg]
  rw [heq]
  refine ⟨⟨⟨showLoading, 0, next :: rest⟩, rfl, hok, ?_⟩, hfr.1, ?_, htm, hfr.2.2.1, hfr.2.2.2.1,
    hfr.2.2.2.2⟩
  · show (applyEffects s (firstSegment env showLoading)).inFlight ++ _ = _
    rw [hfr.2.1]
  · show (applyEffects s (firstSegment env showLoading)).isLoading = _
    cases showLoading
    · exact applyEffects_isLoading s _ (firstSegment_quiet env)
    · exact firstSegment_isLoading env s

/-! List lemmas used for the passes in flight -/

theorem filter_eraseIdx_length {α : Type} (f : α → Bool) (l : List α) (i : Nat) (a : α)
    (h : l.get? i = some a) :
    ((l.eraseIdx i).filter f).length + (if f a then 1 else 0) = (l.filter f).length := by
  induction l generalizing i with
  | nil => simp at h
  | cons x xs ih =>
    cases i with
    | zero =>
      simp only [List.get?_cons_zero, Option.some.injEq] at h
      subst h
      cases hf : f x <;> simp [List.filter_cons, hf]
    | succ n =>
      simp only [List.get?_cons_succ] at h
      have := ih n h
      cases hf : f x <;> simp [List.filter_cons, hf] <;> omega

theorem filter_set_length {α : Type} (f : α → Bool) (l : List α) (i : Nat) (a b : α)
    (h : l.get? i = some a) (hf : f b = f a) :
    ((l.set i b).filter f).length = (l.filter f).length := by
  induction l generalizing i with
  | nil => simp at h
  | cons x xs ih =>
    cases i with
    | zero =>
      simp only [List.get?_cons_zero, Option.some.injEq] at h
      subst h
      cases hx : f x <;> simp [List.filter_cons, hf, hx]
    | succ n =>
      simp only [List.get?_cons_succ] at h
      have := ih n h
      cases hx : f x <;> simp [List.filter_cons, hx, this]

theorem mem_of_getIdx {α : Type} (l : List α) (i : Nat) (a : α) (h : l.get? i = some a) : a ∈ l := by
  induction l generalizing i with
  | nil => simp at h
  | cons x xs ih =>
    cases i with
    | zero =>
      simp only [List.get?_cons_zero, Option.some.injEq] at h
      subst h
      exact List.mem_cons_self _ _
    | succ n =>
      simp only [List.get?_cons_succ] at h
      exact List.mem_cons_of_mem _ (ih n h)

theorem inv_init : Inv State.init where
  passes := by intro p hp; cases hp
  loading := by intro p hp; cases hp
  atMostOne := by decide
  initial := fun _ => ⟨rfl, rfl, rfl, rfl⟩
  mounted := by intro h; cases h
  unmounted := by intro h; cases h
  next := by decide

theorem no_loading_of_count_zero (l : List Pass) (h : (l.filter (·.showLoading)).length = 0) :
    ∀ p ∈ l, p.showLoading = true → False := by
  intro p hp hs
  have : p ∈ l.filter (·.showLoading) := List.mem_filter.mpr ⟨hp, hs⟩
  rw [List.length_eq_zero] at h
  rw [h] at this
  cases this

theorem count_zero_of_no_loading (l : List Pass) (h : ∀ p ∈ l, p.showLoading = true → False) :
    (l.filter (·.showLoading)).length = 0 := by
  rw [List.length_eq_zero, List.filter_eq_nil_iff]
  intro p hp hs
  exact h p hp hs


/-! What each event does to the fields the invariant talks about -/

theorem mountEffect_fields (env : Env) (s : State) (getDay : Fin 7) (o : Outcomes) :
    (mountEffect env s getDay o).phase = Phase.mounted ∧
    (mountEffect env s getDay o).isLoading = true ∧
    (∃ p : Pass, p.showLoading = true ∧ passOk p = true ∧
      (mountEffect env s getDay o).inFlight = s.inFlight ++ [p]) ∧
    (mountEffect env s getDay o).timers = s.timers ++ [s.nextTimer] ∧
    (mountEffect env s getDay o).autoUpdateIntervalRef = some s.nextTimer ∧
    (mountEffect env s getDay o).nextTimer = s.nextTimer + 1 ∧
    (mountEffect env s getDay o).autoStarted = s.autoStarted := by
  obtain ⟨⟨p, hp, hok, hin⟩, hph, hld, htm, -, hnt, hau⟩ := startPass_fields env
    (applyEffect { s with phase := Phase.mounted }
      (Effect.setCurrentDay (daysOfWeek.getD getDay.val ""))) true o
  refine ⟨hph, hld, ⟨p, hp, hok, hin⟩, ?_, ?_, ?_, hau⟩
  · show _ ++ [_] = _
    rw [htm, hnt]
    rfl
  · show some _ = _
    rw [hnt]
    rfl
  · show _ + 1 = _
    rw [hnt]
    rfl

theorem intervalCallback_fields (env : Env) (s : State) (o : Outcomes) :
    (intervalCallback env s o).phase = s.phase ∧
    (intervalCallback env s o).isLoading = s.isLoading ∧
    (∃ p : Pass, p.showLoading = false ∧ passOk p = true ∧
      (intervalCallback env s o).inFlight = s.inFlight ++ [p]) ∧
    (intervalCallback env s o).timers = s.timers ∧
    (intervalCallback env s o).autoUpdateIntervalRef = s.autoUpdateIntervalRef ∧
    (intervalCallback env s o).nextTimer = s.nextTimer ∧
    (intervalCallback env s o).autoStarted = s.autoStarted + 1 := by
  obtain ⟨⟨p, hp, hok, hin⟩, hph, hld, htm, hrf, hnt, -⟩ := startPass_fields env
    (applyEffect s (Effect.consoleLog "Auto-checking day off status...")) false o
  exact ⟨hph, hld, ⟨p, hp, hok, hin⟩, htm, hrf, hnt, rfl⟩

theorem resume_fields (s : State) (i : Nat) (p : Pass) (seg : List Effect)
    (rest : List (List Effect)) :
    (resume s i p seg rest).phase = s.phase ∧
    (resume s i p seg rest).isLoading = (applyEffects s seg).isLoading ∧
    (resume s i p seg rest).timers = (applyEffects s seg).timers ∧
    (resume s i p seg rest).autoUpdateIntervalRef = s.autoUpdateIntervalRef ∧
    (resume s i p seg rest).nextTimer = s.nextTimer ∧
    (resume s i p seg rest).autoStarted = s.autoStarted ∧
    (resume s i p seg rest).inFlight =
      (match rest with
        | [] => s.inFlight.eraseIdx i
        | _ :: _ => s.inFlight.set i { p with answered := p.answered + 1, pending := rest }) := by
  have hfr := applyEffects_frame s seg
  exact ⟨hfr.1, rfl, rfl, hfr.2.2.1, hfr.2.2.2.1, hfr.2.2.2.2, rfl⟩

theorem unmountEffect_fields (s : State) :
    (unmountEffect s).phase = Phase.unmounted ∧
    (unmountEffect s).isLoading = (applyEffects s (cleanup s)).isLoading ∧
    (unmountEffect s).timers = (applyEffects s (cleanup s)).timers ∧
    (unmountEffect s).inFlight = s.inFlight ∧
    (unmountEffect s).autoUpdateIntervalRef = s.autoUpdateIntervalRef ∧
    (unmountEffect s).nextTimer = s.nextTimer ∧
    (unmountEffect s).autoStarted = s.autoStarted := by
  have hfr := applyEffects_frame s (cleanup s)
  exact ⟨rfl, rfl, rfl, hfr.2.1, hfr.2.2.1, hfr.2.2.2.1, hfr.2.2.2.2⟩


/-! The invariant is kept by every event -/

theorem loadingInFlight_append (l : List Pass) (p : Pass) :
    ((l ++ [p]).filter (·.showLoading)).length =
      (l.filter (·.showLoading)).length + (if p.showLoading then 1 else 0) := by
  cases h : p.showLoading <;> simp [List.filter_append, List.filter_cons, h]

theorem passOk_tail (p : Pass) (seg r : List Effect) (rs : List (List Effect))
    (hpend : p.pending = seg :: r :: rs) (hok : passOk p = true) :
    quietSeg seg = true ∧ safeSeg seg = true ∧
    passOk { p with answered := p.answered + 1, pending := r :: rs } = true := by
  rcases p with ⟨b, n, pend⟩
  simp only at hpend
  subst hpend
  simp only [passOk, List.dropLast_cons₂, List.all_cons, Bool.and_eq_true, Bool.or_eq_true,
    List.isEmpty_cons, Bool.not_false, true_and] at hok ⊢
  obtain ⟨⟨⟨hs1, hs2⟩, hq1, hq2⟩, hb⟩ := hok
  refine ⟨hq1, hs1, ⟨hs2, hq2⟩, ?_⟩
  rcases hb with hb | hb
  · exact Or.inl hb
  · exact Or.inr hb.2

theorem passOk_last (p : Pass) (seg : List Effect) (hpend : p.pending = [seg])
    (hok : passOk p = true) :
    safeSeg seg = true ∧ (p.showLoading = false → quietSeg seg = true) := by
  rcases p with ⟨b, n, pend⟩
  simp only at hpend
  subst hpend
  simp only [passOk, List.all_cons, List.all_nil, Bool.and_true, Bool.and_eq_true,
    Bool.or_eq_true] at hok
  refine ⟨hok.1.1.2, ?_⟩
  intro hb
  rcases hok.2 with h | h
  · simp only at hb; rw [hb] at h; cases h
  · exact h

theorem inv_mount (env : Env) (s : State) (getDay : Fin 7) (o : Outcomes) (h : Inv s)
    (hph : s.phase = Phase.initial) : Inv (mountEffect env s getDay o) := by
  obtain ⟨hT, hF, -, -⟩ := h.initial hph
  obtain ⟨h1, h2, ⟨p, hp, hok, hin⟩, h4, h5, h6, -⟩ := mountEffect_fields env s getDay o
  rw [hF] at hin
  rw [hT] at h4
  refine ⟨?_, ?_, ?_, ?_, ?_, ?_, ?_⟩
  · intro q hq
    rw [hin] at hq
    simp only [List.nil_append, List.mem_singleton] at hq
    rw [hq]; exact hok
  · intro _ _ _; exact h2
  · unfold loadingInFlight
    rw [hin]
    simp only [List.nil_append]
    exact (List.length_filter_le _ _)
  · intro hc; rw [h1] at hc; cases hc
  · intro _
    exact ⟨s.nextTimer, h.next, h5, by rw [h4]; rfl⟩
  · intro hc; rw [h1] at hc; cases hc
  · rw [h6]; exact Nat.succ_ne_zero _

theorem inv_tick (env : Env) (s : State) (o : Outcomes) (h : Inv s) (hne : s.timers ≠ []) :
    Inv (intervalCallback env s o) := by
  obtain ⟨h1, h2, ⟨p, hp, hok, hin⟩, h4, h5, h6, h7⟩ := intervalCallback_fields env s o
  refine ⟨?_, ?_, ?_, ?_, ?_, ?_, ?_⟩
  · intro q hq
    rw [hin] at hq
    rcases List.mem_append.mp hq with hq | hq
    · exact h.passes q hq
    · simp only [List.mem_singleton] at hq; rw [hq]; exact hok
  · intro q hq hqs
    rw [hin] at hq
    rw [h2]
    rcases List.mem_append.mp hq with hq | hq
    · exact h.loading q hq hqs
    · simp only [List.mem_singleton] at hq
      rw [hq, hp] at hqs; cases hqs
  · unfold loadingInFlight
    rw [hin, loadingInFlight_append, hp]
    exact h.atMostOne
  · intro hc
    rw [h1] at hc
    exact absurd (h.initial hc).1 hne
  · intro hc
    rw [h1] at hc
    rw [h4, h5]
    exact h.mounted hc
  · intro hc
    rw [h1] at hc
    rw [h4]
    exact h.unmounted hc
  · rw [h6]; exact h.next

theorem inv_click (env : Env) (s : State) (o : Outcomes) (h : Inv s)
    (hph : s.phase = Phase.mounted) (hld : s.isLoading = false) :
    Inv (startPass env s true o) := by
  obtain ⟨⟨p, hp, hok, hin⟩, h1, h2, h4, h5, h6, -⟩ := startPass_fields env s true o
  have hnone : ∀ q ∈ s.inFlight, q.showLoading = true → False := by
    intro q hq hqs
    have := h.loading q hq hqs
    rw [hld] at this
    cases this
  refine ⟨?_, ?_, ?_, ?_, ?_, ?_, ?_⟩
  · intro q hq
    rw [hin] at hq
    rcases List.mem_append.mp hq with hq | hq
    · exact h.passes q hq
    · simp only [List.mem_singleton] at hq; rw [hq]; exact hok
  · intro _ _ _
    rw [h2]; rfl
  · unfold loadingInFlight
    rw [hin, loadingInFlight_append, hp, count_zero_of_no_loading _ hnone]
    decide
  · intro hc
    rw [h1, hph] at hc; cases hc
  · intro hc
    rw [h1] at hc
    rw [h4, h5]
    exact h.mounted hc
  · intro hc
    rw [h1, hph] at hc; cases hc
  · rw [h6]; exact h.next


theorem inv_resume (s : State) (i : Nat) (p : Pass) (seg : List Effect)
    (rest : List (List Effect)) (h : Inv s) (hp : s.inFlight.get? i = some p)
    (hpend : p.pending = seg :: rest) : Inv (resume s i p seg rest) := by
  obtain ⟨h1, h2, h3, h4, h5, -, h7⟩ := resume_fields s i p seg rest
  have hmem : p ∈ s.inFlight := mem_of_getIdx _ _ _ hp
  have hok := h.passes p hmem
  cases rest with
  | nil =>
    simp only at h7
    obtain ⟨hsafe, hquiet⟩ := passOk_last p seg hpend hok
    have hcount := filter_eraseIdx_length (·.showLoading) s.inFlight i p hp
    have htm : (resume s i p seg []).timers = s.timers := by
      rw [h3]; exact applyEffects_timers s seg hsafe
    refine ⟨?_, ?_, ?_, ?_, ?_, ?_, ?_⟩
    · intro q hq
      rw [h7] at hq
      exact h.passes q (List.mem_of_mem_eraseIdx hq)
    · intro q hq hqs
      rw [h7] at hq
      cases hb : p.showLoading with
      | false =>
        rw [h2, applyEffects_isLoading s seg (hquiet hb)]
        exact h.loading q (List.mem_of_mem_eraseIdx hq) hqs
      | true =>
        exfalso
        have hone := h.atMostOne
        unfold loadingInFlight at hone
        simp only [hb, if_true] at hcount
        have hz : ((s.inFlight.eraseIdx i).filter (·.showLoading)).length = 0 := by omega
        exact no_loading_of_count_zero _ hz q hq hqs
    · unfold loadingInFlight
      rw [h7]
      have hone := h.atMostOne
      unfold loadingInFlight at hone
      omega
    · intro hc
      rw [h1] at hc
      have := (h.initial hc).2.1
      rw [this] at hmem
      cases hmem
    · intro hc
      rw [h1] at hc
      rw [htm, h4]
      exact h.mounted hc
    · intro hc
      rw [h1] at hc
      rw [htm]
      exact h.unmounted hc
    · rw [h5]; exact h.next
  | cons r rs =>
    simp only at h7
    obtain ⟨hquiet, hsafe, hok'⟩ := passOk_tail p seg r rs hpend hok
    have htm : (resume s i p seg (r :: rs)).timers = s.timers := by
      rw [h3]; exact applyEffects_timers s seg hsafe
    have hld : (resume s i p seg (r :: rs)).isLoading = s.isLoading := by
      rw [h2]; exact applyEffects_isLoading s seg hquiet
    refine ⟨?_, ?_, ?_, ?_, ?_, ?_, ?_⟩
    · intro q hq
      rw [h7] at hq
      rcases List.mem_or_eq_of_mem_set hq with hq | hq
      · exact h.passes q hq
      · rw [hq]; exact hok'
    · intro q hq hqs
      rw [h7] at hq
      rw [hld]
      rcases List.mem_or_eq_of_mem_set hq with hq | hq
      · exact h.loading q hq hqs
      · rw [hq] at hqs
        exact h.loading p hmem hqs
    · unfold loadingInFlight
      have hset := filter_set_length (fun q : Pass => q.showLoading) s.inFlight i p
        { p with answered := p.answered + 1, pending := r :: rs } hp rfl
      rw [h7, hset]
      exact h.atMostOne
    · intro hc
      rw [h1] at hc
      have := (h.initial hc).2.1
      rw [this] at hmem
      cases hmem
    · intro hc
      rw [h1] at hc
      rw [htm, h4]
      exact h.mounted hc
    · intro hc
      rw [h1] at hc
      rw [htm]
      exact h.unmounted hc
    · rw [h5]; exact h.next

theorem cleanup_timers (s : State) (id : Nat) (hid : id ≠ 0)
    (href : s.autoUpdateIntervalRef = some id) (htm : s.timers = [id]) :
    (applyEffects s (cleanup s)).timers = [] ∧
    (applyEffects s (cleanup s)).isLoading = s.isLoading := by
  have hc : cleanup s = [Effect.clearInterval id] := by
    unfold cleanup
    rw [href]
    simp [hid]
  rw [hc]
  constructor
  · show (s.timers.filter (· ≠ id)) = []
    rw [htm]
    simp
  · rfl

theorem inv_unmount (s : State) (h : Inv s) (hph : s.phase = Phase.mounted) :
    Inv (unmountEffect s) := by
  obtain ⟨h1, h2, h3, h4, h5, h6, -⟩ := unmountEffect_fields s
  obtain ⟨id, hid, href, htm⟩ := h.mounted hph
  obtain ⟨hc1, hc2⟩ := cleanup_timers s id hid href htm
  refine ⟨?_, ?_, ?_, ?_, ?_, ?_, ?_⟩
  · intro q hq
    rw [h4] at hq
    exact h.passes q hq
  · intro q hq hqs
    rw [h4] at hq
    rw [h2, hc2]
    exact h.loading q hq hqs
  · unfold loadingInFlight
    rw [h4]
    exact h.atMostOne
  · intro hc; rw [h1] at hc; cases hc
  · intro hc; rw [h1] at hc; cases hc
  · intro _; rw [h3]; exact hc1
  · rw [h6]; exact h.next

theorem inv_step (env : Env) (s s' : State) (e : Event) (h : Inv s)
    (hs : step env s e = some s') : Inv s' := by
  cases e with
  | mount getDay o =>
    simp only [step] at hs
    split at hs
    · rename_i hph
      simp only [Option.some.injEq] at hs
      rw [← hs]
      exact inv_mount env s getDay o h hph
    · cases hs
  | tick id o =>
    simp only [step] at hs
    split at hs
    · rename_i hid
      simp only [Option.some.injEq] at hs
      rw [← hs]
      exact inv_tick env s o h (List.ne_nil_of_mem hid)
    · cases hs
  | click o =>
    simp only [step] at hs
    split at hs
    · rename_i hg
      simp only [Option.some.injEq] at hs
      rw [← hs]
      exact inv_click env s o h hg.1 hg.2
    · cases hs
  | respond i =>
    simp only [step] at hs
    split at hs
    · cases hs
    · rename_i p hp
      split at hs
      · cases hs
      · rename_i seg rest hpend
        simp only [Option.some.injEq] at hs
        rw [← hs]
        exact inv_resume s i p seg rest h hp hpend
  | unmount =>
    simp only [step] at hs
    split at hs
    · rename_i hph
      simp only [Option.some.injEq] at hs
      rw [← hs]
      exact inv_unmount s h hph
    · cases hs

theorem inv_run (env : Env) (s s' : State) (evs : List Event) (h : Inv s)
    (hr : run env s evs = some s') : Inv s' := by
  induction evs generalizing s with
  | nil =>
    simp only [run, Option.some.injEq] at hr
    rw [← hr]; exact h
  | cons e es ih =>
    simp only [run] at hr
    split at hr
    · cases hr
    · rename_i s1 hs1
      exact ih s1 (inv_step env s s1 e h hs1) hr


/-- Once the component is unmounted nothing but responses can happen, and they
start no pass. -/
theorem run_unmounted (env : Env) (s s' : State) (evs : List Event) (h : Inv s)
    (hph : s.phase = Phase.unmounted) (hr : run env s evs = some s') :
    s'.phase = Phase.unmounted ∧ s'.autoStarted = s.autoStarted ∧ s'.timers = [] ∧
    ∀ e ∈ evs, ∃ i, e = Event.respond i := by
  induction evs generalizing s with
  | nil =>
    simp only [run, Option.some.injEq] at hr
    subst hr
    exact ⟨hph, rfl, h.unmounted hph, by intro e he; cases he⟩
  | cons e es ih =>
    simp only [run] at hr
    split at hr
    · cases hr
    · rename_i s1 hs1
      have hinv1 := inv_step env s s1 e h hs1
      have hstep : s1.phase = Phase.unmounted ∧ s1.autoStarted = s.autoStarted ∧
          ∃ i, e = Event.respond i := by
        cases e with
        | mount getDay o =>
          simp only [step, hph] at hs1
          cases hs1
        | tick id o =>
          simp only [step, h.unmounted hph] at hs1
          cases hs1
        | click o =>
          simp only [step, hph] at hs1
          cases hs1
        | respond i =>
          simp only [step] at hs1
          split at hs1
          · cases hs1
          · rename_i p hp
            split at hs1
            · cases hs1
            · rename_i seg rest hpend
              simp only [Option.some.injEq] at hs1
              subst hs1
              obtain ⟨h1, -, -, -, -, h6, -⟩ := resume_fields s i p seg rest
              exact ⟨h1.trans hph, h6, i, rfl⟩
        | unmount =>
          simp only [step, hph] at hs1
          cases hs1
      obtain ⟨hp1, ha1, hev⟩ := hstep
      obtain ⟨r1, r2, r3, r4⟩ := ih s1 hinv1 hp1 hr
      refine ⟨r1, r2.trans ha1, r3, ?_⟩
      intro e' he'
      rcases List.mem_cons.mp he' with he' | he'
      · rw [he']; exact hev
      · exact r4 e' he'

/-- C1 (as amended): in every state the component can reach, at most one pass
started with the loading indicator (the check made on mount, or an "Update Now"
click) is in flight, and a click can start a pass only in a state where no such
pass is in flight, because the button is disabled while `isLoading`. -/
theorem at_most_one_loading_pass_in_flight (env : Env) (evs : List Event) (s : State)
    (hr : run env State.init evs = some s) :
    loadingInFlight s ≤ 1 ∧
    ∀ (o : Outcomes) (s' : State), step env s (.click o) = some s' →
      loadingInFlight s = 0 ∧ loadingInFlight s' = 1 := by
  have hinv := inv_run env State.init s evs inv_init hr
  refine ⟨hinv.atMostOne, ?_⟩
  intro o s' hs
  simp only [step] at hs
  split at hs
  · rename_i hg
    simp only [Option.some.injEq] at hs
    have hzero : loadingInFlight s = 0 := by
      apply count_zero_of_no_loading
      intro q hq hqs
      have := hinv.loading q hq hqs
      rw [hg.2] at this
      cases this
    obtain ⟨⟨p, hp, -, hin⟩, -⟩ := startPass_fields env s true o
    refine ⟨hzero, ?_⟩
    rw [← hs]
    unfold loadingInFlight at hzero ⊢
    rw [hin, loadingInFlight_append, hp, hzero]
    rfl
  · cases hs

/-- C1, witness: the run "mount, initial pass answered, tick, click". -/
theorem at_most_one_loading_pass_in_flight_witness :
    run Examples.env State.init Examples.tickThenClick = some Examples.afterTickThenClick ∧
    (loadingInFlight Examples.afterTickThenClick ≤ 1 ∧
      ∀ (o : Outcomes) (s' : State),
        step Examples.env Examples.afterTickThenClick (.click o) = some s' →
        loadingInFlight Examples.afterTickThenClick = 0 ∧ loadingInFlight s' = 1) := by
  have h1 : run Examples.env State.init Examples.tickThenClick =
      some Examples.afterTickThenClick := by decide
  have h := at_most_one_loading_pass_in_flight Examples.env Examples.tickThenClick
    Examples.afterTickThenClick h1
  exact ⟨h1, h⟩

/-- C1, counterexample: two passes are in flight at once, neither of them answered
yet. After the initial pass has finished, a tick starts a silent pass and a click
on "Update Now" starts another one while the first still waits for its response;
and a tick that arrives while the pass made on mount still waits starts a second
pass as well. -/
theorem two_passes_in_flight :
    (run Examples.env State.init Examples.tickThenClick).map
        (fun s => s.inFlight.map fun p => (p.showLoading, p.answered)) =
      some [(false, 0), (true, 0)] ∧
    (run Examples.env State.init [.mount 3 Examples.allOk, .tick 1 Examples.allOk]).map
        (fun s => s.inFlight.map fun p => (p.showLoading, p.answered)) =
      some [(true, 0), (false, 0)] := by
  constructor <;> rfl

/-- A response delivered to a pass in flight touches neither the timers nor the
stored handle. -/
theorem respond_keeps_interval (env : Env) (s s' : State) (i : Nat) (h : Inv s)
    (hs : step env s (.respond i) = some s') :
    s'.timers = s.timers ∧ s'.autoUpdateIntervalRef = s.autoUpdateIntervalRef := by
  simp only [step] at hs
  split at hs
  · cases hs
  · rename_i p hp
    split at hs
    · cases hs
    · rename_i seg rest hpend
      simp only [Option.some.injEq] at hs
      subst hs
      obtain ⟨-, -, h3, h4, -⟩ := resume_fields s i p seg rest
      have hok := h.passes p (mem_of_getIdx _ _ _ hp)
      have hsafe : safeSeg seg = true := by
        cases rest with
        | nil => exact (passOk_last p seg hpend hok).1
        | cons r rs => exact (passOk_tail p seg r rs hpend hok).2.1
      exact ⟨h3.trans (applyEffects_timers s seg hsafe), h4⟩

/-- C3: a failed pass does not stop the recurring trigger. Whatever the outcome of
its requests, `handleRunDayOffChecker(false)` returns normally and clears no timer;
and in every state the component can reach, a response delivered to a pass in
flight leaves the registered interval as it is, so that a tick of a registered
timer then starts a new pass. -/
theorem failed_pass_keeps_interval (env : Env) (check inner outer : Outcome)
    (evs : List Event) (s s' : State) (i : Nat)
    (hr : run env State.init evs = some s) (hs : step env s (.respond i) = some s') :
    (handleRunDayOffChecker env false check inner outer).result = .ok () ∧
    safeSeg (handleRunDayOffChecker env false check inner outer).effects = true ∧
    s'.timers = s.timers ∧ s'.autoUpdateIntervalRef = s.autoUpdateIntervalRef ∧
    ∀ id ∈ s.timers, ∀ o : Outcomes, ∃ s2 : State,
      step env s' (.tick id o) = some s2 ∧ s2.autoStarted = s'.autoStarted + 1 ∧
      s2.inFlight.length = s'.inFlight.length + 1 := by
  have hinv := inv_run env State.init s evs inv_init hr
  have hres : (handleRunDayOffChecker env false check inner outer).result = .ok () ∧
      safeSeg (handleRunDayOffChecker env false check inner outer).effects = true := by
    rcases check with ⟨⟨_ | _, m1, ds1, aps1, st1, dd1, pd1⟩⟩ | e1 <;>
    rcases inner with ⟨⟨_ | _, m2, ds2, aps2, st2, dd2, pd2⟩⟩ | e2 <;>
    rcases outer with ⟨⟨_ | _, m3, ds3, aps3, st3, dd3, pd3⟩⟩ | e3 <;>
    exact ⟨rfl, rfl⟩
  obtain ⟨htm, href⟩ := respond_keeps_interval env s s' i hinv hs
  refine ⟨hres.1, hres.2, htm, href, ?_⟩
  intro id hid o
  have hid' : id ∈ s'.timers := by rw [htm]; exact hid
  obtain ⟨-, -, ⟨p, -, -, hin⟩, -, -, -, hau⟩ := intervalCallback_fields env s' o
  refine ⟨intervalCallback env s' o, ?_, hau, ?_⟩
  · simp only [step, hid', if_true]
  · rw [hin, List.length_append]
    rfl

/-- C3, witness: the silent pass of a tick fails (the check request throws); the
failure is delivered and the timer is still there. -/
theorem failed_pass_keeps_interval_witness :
    (run Examples.env State.init Examples.failingTick = some Examples.afterFailingTick ∧
      step Examples.env Examples.afterFailingTick (.respond 0) = some Examples.afterFailure) ∧
    ((handleRunDayOffChecker Examples.env false Examples.failed Examples.ok Examples.ok).result =
        .ok () ∧
      safeSeg (handleRunDayOffChecker Examples.env false Examples.failed Examples.ok
        Examples.ok).effects = true ∧
      Examples.afterFailure.timers = Examples.afterFailingTick.timers ∧
      Examples.afterFailure.autoUpdateIntervalRef =
        Examples.afterFailingTick.autoUpdateIntervalRef ∧
      ∀ id ∈ Examples.afterFailingTick.timers, ∀ o : Outcomes, ∃ s2 : State,
        step Examples.env Examples.afterFailure (.tick id o) = some s2 ∧
        s2.autoStarted = Examples.afterFailure.autoStarted + 1 ∧
        s2.inFlight.length = Examples.afterFailure.inFlight.length + 1) := by
  have h1 : run Examples.env State.init Examples.failingTick =
      some Examples.afterFailingTick := by decide
  have h2 : step Examples.env Examples.afterFailingTick (.respond 0) =
      some Examples.afterFailure := by decide
  have h := failed_pass_keeps_interval Examples.env Examples.failed Examples.ok Examples.ok
    Examples.failingTick Examples.afterFailingTick Examples.afterFailure 0 h1 h2
  exact ⟨⟨h1, h2⟩, h⟩

/-- C4: the recurring trigger stops on unmount. In every state the component can
reach: while it is mounted exactly one interval timer is registered, the one whose
handle is stored in `autoUpdateIntervalRef`; once it is unmounted no timer is
registered, no tick can happen, and in whatever follows only responses arrive and no
timer-triggered pass is started. -/
theorem interval_cleared_on_unmount (env : Env) (evs : List Event) (s : State)
    (hr : run env State.init evs = some s) :
    (s.phase = Phase.mounted →
      ∃ id, s.timers = [id] ∧ s.autoUpdateIntervalRef = some id) ∧
    (s.phase = Phase.unmounted →
      s.timers = [] ∧ (∀ id o, step env s (.tick id o) = none) ∧
      ∀ (later : List Event) (s' : State), run env s later = some s' →
        s'.timers = [] ∧ s'.autoStarted = s.autoStarted ∧
        ∀ e ∈ later, ∀ id o, e ≠ Event.tick id o) := by
  have hinv := inv_run env State.init s evs inv_init hr
  constructor
  · intro hph
    obtain ⟨id, -, href, htm⟩ := hinv.mounted hph
    exact ⟨id, htm, href⟩
  · intro hph
    refine ⟨hinv.unmounted hph, ?_, ?_⟩
    · intro id o
      simp only [step, hinv.unmounted hph, List.not_mem_nil, if_false]
    · intro later s' hl
      obtain ⟨-, r2, r3, r4⟩ := run_unmounted env s s' later hinv hph hl
      refine ⟨r3, r2, ?_⟩
      intro e he id o heq
      obtain ⟨i, hi⟩ := r4 e he
      rw [hi] at heq
      cases heq


/-- C4, witness: mount, a tick, unmount, then a response. -/
theorem interval_cleared_on_unmount_witness :
    run Examples.env State.init Examples.mountTickUnmount = some Examples.afterUnmount ∧
    ((Examples.afterUnmount.phase = Phase.mounted →
        ∃ id, Examples.afterUnmount.timers = [id] ∧
          Examples.afterUnmount.autoUpdateIntervalRef = some id) ∧
      (Examples.afterUnmount.phase = Phase.unmounted →
        Examples.afterUnmount.timers = [] ∧
        (∀ id o, step Examples.env Examples.afterUnmount (.tick id o) = none) ∧
        ∀ (later : List Event) (s' : State),
          run Examples.env Examples.afterUnmount later = some s' →
          s'.timers = [] ∧ s'.autoStarted = Examples.afterUnmount.autoStarted ∧
          ∀ e ∈ later, ∀ id o, e ≠ Event.tick id o)) := by
  have h1 : run Examples.env State.init Examples.mountTickUnmount =
      some Examples.afterUnmount := by decide
  have h := interval_cleared_on_unmount Examples.env Examples.mountTickUnmount
    Examples.afterUnmount h1
  exact ⟨h1, h⟩

end DayOffManager

/-! ## The appointment ledger -/

namespace Ledger

theorem transition_refused (t : Appointment → Except LedgerError Appointment)
    (ledger : List Appointment) (appointmentId : String) (a : Appointment) (e : LedgerError)
    (hfind : find ledger appointmentId = some a) (ht : t a = .error e) :
    transition t ledger appointmentId = (ledger, .error e) := by
  unfold transition
  rw [hfind]
  simp only [ht]

/-- C11: terminal states are enforced. Take any ledger and any appointment `a` stored
in it under `appointmentId`. If `a` is Completed, `cancel-appointment` fails with
`InvalidStateError`. If `a` is not Scheduled, `complete-appointment` fails with
`InvalidStateError`. If `a` is Scheduled, `add-consultation-summary` fails with
`InvalidStateError`. Each of the three holds on its own. In each case the ledger after
the call is the ledger before it, so the appointment stored under that id has the flags
`isCompleted` and `cancelled` it had; and the client function that forwards the call,
given the refusal in whatever wording the backend uses, sends its one request, shows
that wording as an error toast and does nothing else. -/
theorem terminal_states_enforced (env : Env) (errorMessage : LedgerError → String)
    (okMessage : String) (ledger : List Appointment) (appointmentId : String) (a : Appointment)
    (hfind : find ledger appointmentId = some a) :
    (a.status = .completed → ∀ (reason : String) (appointments dash : Outcome),
      (cancelAppointment ledger appointmentId reason).2 = .error .invalidStateError ∧
      (cancelAppointment ledger appointmentId reason).1 = ledger ∧
      (find (cancelAppointment ledger appointmentId reason).1 appointmentId).map
          (fun b => (b.isCompleted, b.cancelled)) = some (a.isCompleted, a.cancelled) ∧
      (DoctorContext.cancelAppointment env appointmentId (.str reason)
          (respond errorMessage okMessage (cancelAppointment ledger appointmentId reason).2)
          appointments dash).effects =
        [.request ⟨.post, env.backendUrl ++ "/api/doctor/cancel-appointment",
            [("appointmentId", .str appointmentId), ("cancellationReason", .str reason)],
            env.doctorHeaders⟩,
          .toastError (errorMessage .invalidStateError)]) ∧
    (a.status ≠ .scheduled → ∀ (appointments dash : Outcome),
      (completeAppointment ledger appointmentId).2 = .error .invalidStateError ∧
      (completeAppointment ledger appointmentId).1 = ledger ∧
      (find (completeAppointment ledger appointmentId).1 appointmentId).map
          (fun b => (b.isCompleted, b.cancelled)) = some (a.isCompleted, a.cancelled) ∧
      (DoctorContext.completeAppointment env appointmentId
          (respond errorMessage okMessage (completeAppointment ledger appointmentId).2)
          appointments dash).effects =
        [.request ⟨.post, env.backendUrl ++ "/api/doctor/complete-appointment",
            [("appointmentId", .str appointmentId)], env.doctorHeaders⟩,
          .toastError (errorMessage .invalidStateError)]) ∧
    (a.status = .scheduled → ∀ (text : String) (history : Outcome),
      (addConsultationSummary ledger appointmentId text).2 = .error .invalidStateError ∧
      (addConsultationSummary ledger appointmentId text).1 = ledger ∧
      (find (addConsultationSummary ledger appointmentId text).1 appointmentId).map
          (fun b => (b.isCompleted, b.cancelled)) = some (a.isCompleted, a.cancelled) ∧
      (DoctorContext.addConsultationSummary env appointmentId text
          (respond errorMessage okMessage (addConsultationSummary ledger appointmentId text).2)
          history).effects =
        [.request ⟨.post, env.backendUrl ++ "/api/doctor/add-consultation-summary",
            [("appointmentId", .str appointmentId), ("consultationSummary", .str text)],
            env.doctorHeaders⟩,
          .toastError (errorMessage .invalidStateError)]) := by
  refine ⟨?_, ?_, ?_⟩
  · intro hst reason appointments dash
    have h : cancelAppointment ledger appointmentId reason = (ledger, .error .invalidStateError) :=
      transition_refused _ ledger appointmentId a _ hfind (by simp [cancel, hst])
    rw [h]
    exact ⟨rfl, rfl, by rw [hfind]; rfl, rfl⟩
  · intro hst appointments dash
    have h : completeAppointment ledger appointmentId = (ledger, .error .invalidStateError) :=
      transition_refused _ ledger appointmentId a _ hfind (by simp [complete, hst])
    rw [h]
    exact ⟨rfl, rfl, by rw [hfind]; rfl, rfl⟩
  · intro hst text history
    have h : addConsultationSummary ledger appointmentId text =
        (ledger, .error .invalidStateError) :=
      transition_refused _ ledger appointmentId a _ hfind (by simp [attachSummary, hst])
    rw [h]
    exact ⟨rfl, rfl, by rw [hfind]; rfl, rfl⟩

/-- C11, witness: a ledger with a completed appointment `a1`, on which the cancel and
the complete call are refused, and a scheduled appointment `a2`, on which the summary
call is refused; one wording for every error kind. -/
theorem terminal_states_enforced_witness :
    (find Examples.ledger "a1" = some Examples.completedVisit ∧
      Examples.completedVisit.status = .completed ∧
      Examples.completedVisit.status ≠ .scheduled) ∧
    ((cancelAppointment Examples.ledger "a1" "no longer needed").2 =
        .error .invalidStateError ∧
      (cancelAppointment Examples.ledger "a1" "no longer needed").1 = Examples.ledger ∧
      (find (cancelAppointment Examples.ledger "a1" "no longer needed").1 "a1").map
          (fun b => (b.isCompleted, b.cancelled)) = some (true, false) ∧
      (DoctorContext.cancelAppointment Examples.env "a1" (.str "no longer needed")
          (respond Examples.errorWording "Appointment Cancelled"
            (cancelAppointment Examples.ledger "a1" "no longer needed").2)
          Examples.ok Examples.ok).effects =
        [.request ⟨.post, Examples.env.backendUrl ++ "/api/doctor/cancel-appointment",
            [("appointmentId", .str "a1"), ("cancellationReason", .str "no longer needed")],
            Examples.env.doctorHeaders⟩,
          .toastError "Appointment can no longer be changed"]) ∧
    ((completeAppointment Examples.ledger "a1").2 = .error .invalidStateError ∧
      (completeAppointment Examples.ledger "a1").1 = Examples.ledger ∧
      (find (completeAppointment Examples.ledger "a1").1 "a1").map
          (fun b => (b.isCompleted, b.cancelled)) = some (true, false) ∧
      (DoctorContext.completeAppointment Examples.env "a1"
          (respond Examples.errorWording "Appointment Cancelled"
            (completeAppointment Examples.ledger "a1").2)
          Examples.ok Examples.ok).effects =
        [.request ⟨.post, Examples.env.backendUrl ++ "/api/doctor/complete-appointment",
            [("appointmentId", .str "a1")], Examples.env.doctorHeaders⟩,
          .toastError "Appointment can no longer be changed"]) ∧
    (find Examples.ledger "a2" = some Examples.scheduledVisit ∧
      Examples.scheduledVisit.status = .scheduled) ∧
    ((addConsultationSummary Examples.ledger "a2" "all well").2 = .error .invalidStateError ∧
      (addConsultationSummary Examples.ledger "a2" "all well").1 = Examples.ledger ∧
      (find (addConsultationSummary Examples.ledger "a2" "all well").1 "a2").map
          (fun b => (b.isCompleted, b.cancelled)) = some (false, false) ∧
      (DoctorContext.addConsultationSummary Examples.env "a2" "all well"
          (respond Examples.errorWording "Appointment Cancelled"
            (addConsultationSummary Examples.ledger "a2" "all well").2)
          Examples.ok).effects =
        [.request ⟨.post, Examples.env.backendUrl ++ "/api/doctor/add-consultation-summary",
            [("appointmentId", .str "a2"), ("consultationSummary", .str "all well")],
            Examples.env.doctorHeaders⟩,
          .toastError "Appointment can no longer be changed"]) := by
  have hc : find Examples.ledger "a1" = some Examples.completedVisit := by decide
  have hs : find Examples.ledger "a2" = some Examples.scheduledVisit := by decide
  have hn : Examples.completedVisit.status ≠ .scheduled := by decide
  have h := terminal_states_enforced Examples.env Examples.errorWording "Appointment Cancelled"
    Examples.ledger "a1" Examples.completedVisit hc
  have h2 := terminal_states_enforced Examples.env Examples.errorWording "Appointment Cancelled"
    Examples.ledger "a2" Examples.scheduledVisit hs
  exact ⟨⟨hc, rfl, hn⟩, h.1 rfl "no longer needed" Examples.ok Examples.ok,
    h.2.1 hn Examples.ok Examples.ok, ⟨hs, rfl⟩, h2.2.2 rfl "all well" Examples.ok⟩

end Ledger

/-! ## Dashboard counts and refreshes -/

namespace Dashboard

theorem status_counts (l : List Appointment) :
    (l.filter fun app => app.isCompleted).length + (l.filter fun app => app.cancelled).length +
        (l.filter fun app => !app.isCompleted && !app.cancelled).length =
      l.length + (l.filter fun app => app.isCompleted && app.cancelled).length := by
  induction l with
  | nil => rfl
  | cons a l ih =>
    cases hc : a.isCompleted <;> cases hx : a.cancelled <;>
      simp [List.filter_cons, hc, hx] <;> omega

/-- C12: what the `systemStats` of `processAnalytics` add up to. The three counts
are taken by three independent filters, so for every list of appointments
`completedAppointments + cancelledAppointments + activeAppointments` is
`totalAppointments` plus the number of appointments flagged both completed and
cancelled; for a list holding one such appointment the counts are 1, 1 and 0 and
add up to 2, not to the total 1. -/
theorem systemStats_double_counts :
    (∀ (appointments : List Appointment) (doctors : Option (List DoctorRow))
        (dashData : Option DashPayload),
      (systemStats (some appointments) doctors dashData).completedAppointments +
          (systemStats (some appointments) doctors dashData).cancelledAppointments +
          (systemStats (some appointments) doctors dashData).activeAppointments =
        (systemStats (some appointments) doctors dashData).totalAppointments +
          (appointments.filter fun app => app.isCompleted && app.cancelled).length) ∧
    systemStats (some [Examples.completedAndCancelled]) (some []) none =
      { totalAppointments := 1, totalDoctors := 0, totalPatients := 0,
        completedAppointments := 1, cancelledAppointments := 1, activeAppointments := 0 } := by
  constructor
  · intro appointments doctors dashData
    exact status_counts appointments
  · decide

end Dashboard

/-- C13: what is re-queried after a successful cancellation or completion. The
doctor's `cancelAppointment` and `completeAppointment` fetch the appointment list
and the dashboard data again. The admin's `cancelAppointment` fetches only the
appointment list: the dashboard request that `getDashData` would make is not
issued, and the `dashData` state, from which the dashboard statistics are computed,
is left as it was. -/
theorem admin_cancel_skips_dashboard_refresh :
    (∀ (env : Env) (appointmentId : String) (reason : JsVal) (d : Data)
        (appointments dash : Outcome),
      (DoctorContext.cancelAppointment env appointmentId reason
          (.resolved { d with success := true }) appointments dash).requests =
        [⟨.post, env.backendUrl ++ "/api/doctor/cancel-appointment",
            [("appointmentId", .str appointmentId), ("cancellationReason", reason)],
            env.doctorHeaders⟩,
          ⟨.get, env.backendUrl ++ "/api/doctor/appointments", [], env.doctorHeaders⟩,
          ⟨.get, env.backendUrl ++ "/api/doctor/dashboard", [], env.doctorHeaders⟩]) ∧
    (∀ (env : Env) (appointmentId : String) (d : Data) (appointments dash : Outcome),
      (DoctorContext.completeAppointment env appointmentId
          (.resolved { d with success := true }) appointments dash).requests =
        [⟨.post, env.backendUrl ++ "/api/doctor/complete-appointment",
            [("appointmentId", .str appointmentId)], env.doctorHeaders⟩,
          ⟨.get, env.backendUrl ++ "/api/doctor/appointments", [], env.doctorHeaders⟩,
          ⟨.get, env.backendUrl ++ "/api/doctor/dashboard", [], env.doctorHeaders⟩]) ∧
    (∀ (env : Env) (appointmentId : String) (reason : JsVal) (d : Data)
        (appointments dash : Outcome) (s : AdminContext.State),
      (AdminContext.cancelAppointment env appointmentId reason
          (.resolved { d with success := true }) appointments).requests =
        [⟨.put, env.backendUrl ++ "/api/admin/appointment-cancel/" ++ appointmentId,
            [("cancellationReason", reason)], env.adminHeaders⟩,
          ⟨.get, env.backendUrl ++ "/api/admin/appointments", [], env.adminHeaders⟩] ∧
      (AdminContext.getDashData env dash).requests =
        [⟨.get, env.backendUrl ++ "/api/admin/dashboard", [], env.adminHeaders⟩] ∧
      Dashboard.statistics
          (s.applyAll (AdminContext.cancelAppointment env appointmentId reason
            (.resolved { d with success := true }) appointments).effects).dashData =
        Dashboard.statistics s.dashData) := by
  refine ⟨?_, ?_, ?_⟩
  · intro env appointmentId reason d appointments dash
    rcases appointments with ⟨⟨_ | _, m1, ds1, aps1, st1, dd1, pd1, ad1, au1⟩⟩ | e1 <;>
    rcases dash with ⟨⟨_ | _, m2, ds2, aps2, st2, dd2, pd2, ad2, au2⟩⟩ | e2 <;> rfl
  · intro env appointmentId d appointments dash
    rcases appointments with ⟨⟨_ | _, m1, ds1, aps1, st1, dd1, pd1, ad1, au1⟩⟩ | e1 <;>
    rcases dash with ⟨⟨_ | _, m2, ds2, aps2, st2, dd2, pd2, ad2, au2⟩⟩ | e2 <;> rfl
  · intro env appointmentId reason d appointments dash s
    rcases appointments with ⟨⟨_ | _, m1, ds1, aps1, st1, dd1, pd1, ad1, au1⟩⟩ | e1 <;>
    rcases dash with ⟨⟨_ | _, m2, ds2, aps2, st2, dd2, pd2, ad2, au2⟩⟩ | e2 <;>
    exact ⟨rfl, rfl, rfl⟩

/-! ## Signals and failures of the manual actions -/

/-- C14: every manual action gives an explicit signal. For `cancelAppointment`,
`completeAppointment` and `addConsultationSummary` of the doctor's provider and for
`archiveDoctor`, `restoreDoctor`, `archiveUser` and `restoreUser` of the admin's,
and for every outcome of the request, the function shows exactly one toast of its
own: a success toast with the backend's message if the response has
`success = true`, an error toast with the backend's message if it has
`success = false`, an error toast with the error's message if the request throws. -/
theorem manual_actions_signal_outcome (env : Env) (entityId : String) (reason : JsVal)
    (summary : String) (o r1 r2 : Outcome) :
    (DoctorContext.cancelAppointment env entityId reason o r1 r2).toasts =
      signal o (·.message) ∧
    (DoctorContext.completeAppointment env entityId o r1 r2).toasts = signal o (·.message) ∧
    (DoctorContext.addConsultationSummary env entityId summary o r1).toasts =
      signal o (·.message) ∧
    (AdminContext.archiveDoctor env entityId o r1).toasts =
      signal o AdminContext.responseMessageOr ∧
    (AdminContext.restoreDoctor env entityId o r1).toasts =
      signal o AdminContext.responseMessageOr ∧
    (AdminContext.archiveUser env entityId o).toasts = signal o AdminContext.responseMessageOr ∧
    (AdminContext.restoreUser env entityId o r1).toasts =
      signal o AdminContext.responseMessageOr := by
  rcases o with ⟨⟨_ | _, m, ds, aps, st, dd, pd, ad, au⟩⟩ | e <;>
  rcases r1 with ⟨⟨_ | _, m1, ds1, aps1, st1, dd1, pd1, ad1, au1⟩⟩ | e1 <;>
  rcases r2 with ⟨⟨_ | _, m2, ds2, aps2, st2, dd2, pd2, ad2, au2⟩⟩ | e2 <;>
  exact ⟨rfl, rfl, rfl, rfl, rfl, rfl, rfl⟩

/-- C15: a failed appointment transition changes nothing on the client. When the
request of the doctor's `cancelAppointment`, `completeAppointment` or
`addConsultationSummary` is answered with `success = false`, or throws, the
provider's state (`appointments`, `appointmentHistory`, `dashData`) is what it was
and the request that failed is the only request issued: nothing is retried or
refreshed. -/
theorem failed_transition_changes_nothing (env : Env) (appointmentId : String)
    (reason : JsVal) (summary : String) (d : Data) (e : JsError) (r1 r2 : Outcome)
    (s : DoctorContext.State) :
    (s.applyAll (DoctorContext.cancelAppointment env appointmentId reason
          (.resolved { d with success := false }) r1 r2).effects = s ∧
      s.applyAll (DoctorContext.cancelAppointment env appointmentId reason (.rejected e) r1
          r2).effects = s ∧
      (DoctorContext.cancelAppointment env appointmentId reason
          (.resolved { d with success := false }) r1 r2).requests =
        [⟨.post, env.backendUrl ++ "/api/doctor/cancel-appointment",
          [("appointmentId", .str appointmentId), ("cancellationReason", reason)],
          env.doctorHeaders⟩] ∧
      (DoctorContext.cancelAppointment env appointmentId reason (.rejected e) r1 r2).requests =
        [⟨.post, env.backendUrl ++ "/api/doctor/cancel-appointment",
          [("appointmentId", .str appointmentId), ("cancellationReason", reason)],
          env.doctorHeaders⟩]) ∧
    (s.applyAll (DoctorContext.completeAppointment env appointmentId
          (.resolved { d with success := false }) r1 r2).effects = s ∧
      s.applyAll (DoctorContext.completeAppointment env appointmentId (.rejected e) r1
          r2).effects = s ∧
      (DoctorContext.completeAppointment env appointmentId
          (.resolved { d with success := false }) r1 r2).requests =
        [⟨.post, env.backendUrl ++ "/api/doctor/complete-appointment",
          [("appointmentId", .str appointmentId)], env.doctorHeaders⟩] ∧
      (DoctorContext.completeAppointment env appointmentId (.rejected e) r1 r2).requests =
        [⟨.post, env.backendUrl ++ "/api/doctor/complete-appointment",
          [("appointmentId", .str appointmentId)], env.doctorHeaders⟩]) ∧
    (s.applyAll (DoctorContext.addConsultationSummary env appointmentId summary
          (.resolved { d with success := false }) r1).effects = s ∧
      s.applyAll (DoctorContext.addConsultationSummary env appointmentId summary (.rejected e)
          r1).effects = s ∧
      (DoctorContext.addConsultationSummary env appointmentId summary
          (.resolved { d with success := false }) r1).requests =
        [⟨.post, env.backendUrl ++ "/api/doctor/add-consultation-summary",
          [("appointmentId", .str appointmentId), ("consultationSummary", .str summary)],
          env.doctorHeaders⟩] ∧
      (DoctorContext.addConsultationSummary env appointmentId summary (.rejected e)
          r1).requests =
        [⟨.post, env.backendUrl ++ "/api/doctor/add-consultation-summary",
          [("appointmentId", .str appointmentId), ("consultationSummary", .str summary)],
          env.doctorHeaders⟩]) :=
  ⟨⟨rfl, rfl, rfl, rfl⟩, ⟨rfl, rfl, rfl, rfl⟩, ⟨rfl, rfl, rfl, rfl⟩⟩

/-! ## Marking appointments as seen -/

namespace DoctorContext

/-- The list `markAppointmentsAsSeen` leaves in the `appointments` state. -/
theorem markAppointmentsAsSeen_appointments (env : Env) (s : State) (o : Outcome) :
    (s.applyAll (markAppointmentsAsSeen env s.appointments o).effects).appointments =
      s.appointments.map (fun app => { app with seen := true }) := by
  rcases o with ⟨d⟩ | e <;> rfl

theorem filter_map_seen (p : Appointment → Bool)
    (hp : ∀ app : Appointment, p { app with seen := true } = p app) (l : List Appointment) :
    ((l.map fun app => { app with seen := true }).filter p).length = (l.filter p).length := by
  induction l with
  | nil => rfl
  | cons a l ih =>
    simp only [List.map_cons, List.filter_cons, hp a]
    split <;> simp [ih]

/-- C16 (as amended): `markAppointmentsAsSeen` sets the flags locally first and
keeps them. Whatever the outcome of the `mark-appointments-seen` request, the
client's `appointments` list afterwards is the list before with `seen = true` on
every appointment; the request is issued once, and a request that throws is
reported by an error toast, a response of any kind by nothing. -/
theorem markAppointmentsAsSeen_keeps_local_flags (env : Env) (s : State) (o : Outcome) :
    (s.applyAll (markAppointmentsAsSeen env s.appointments o).effects).appointments =
      s.appointments.map (fun app => { app with seen := true }) ∧
    (markAppointmentsAsSeen env s.appointments o).requests =
      [⟨.post, env.backendUrl ++ "/api/doctor/mark-appointments-seen", [], env.doctorHeaders⟩] ∧
    (markAppointmentsAsSeen env s.appointments o).toasts =
      (match o with
        | .resolved _ => []
        | .rejected e => [.toastError e.message]) := by
  rcases o with ⟨d⟩ | e <;> exact ⟨rfl, rfl, rfl⟩

/-- C16, counterexample: the `mark-appointments-seen` request throws, or is answered
with `success = false`, and the client's list is not what it was before the call:
the appointment that was unseen is now flagged seen. -/
theorem markAppointmentsAsSeen_not_rolled_back :
    (Examples.doctorState.applyAll
        (markAppointmentsAsSeen Examples.env Examples.doctorState.appointments
          Examples.failed).effects).appointments =
      [{ Examples.unseenVisit with seen := true }] ∧
    (Examples.doctorState.applyAll
        (markAppointmentsAsSeen Examples.env Examples.doctorState.appointments
          Examples.failed).effects).appointments ≠ Examples.doctorState.appointments ∧
    (Examples.doctorState.applyAll
        (markAppointmentsAsSeen Examples.env Examples.doctorState.appointments
          Examples.refused).effects).appointments ≠ Examples.doctorState.appointments := by
  decide

/-- C17: marking appointments as seen never fails the caller. For every appointment
list and every outcome of the request, a thrown error included, the promise returned
by `markAppointmentsAsSeen` resolves. -/
theorem markAppointmentsAsSeen_never_rejects (env : Env) (appointments : List Appointment)
    (o : Outcome) :
    (markAppointmentsAsSeen env appointments o).result = .ok () ∧
    (markAppointmentsAsSeen env appointments o).rejects = false := by
  rcases o with ⟨d⟩ | e <;> exact ⟨rfl, rfl⟩

/-- C18: the `seen` flag does not touch the state machine. For every appointment
list, the list `markAppointmentsAsSeen` writes has the same length, holds at each
position the appointment that was there with `seen` set to `true` and nothing else
changed, so that `isCompleted` and `cancelled` are what they were; and the Sidebar
badge count, the number of appointments neither cancelled nor completed (0 for a
missing list), is the same before and after. -/
theorem seen_flag_is_independent (env : Env) (s : State) (o : Outcome) (i : Nat) :
    (s.applyAll (markAppointmentsAsSeen env s.appointments o).effects).appointments.length =
      s.appointments.length ∧
    (s.applyAll (markAppointmentsAsSeen env s.appointments o).effects).appointments.get? i =
      (s.appointments.get? i).map (fun app => { app with seen := true }) ∧
    (∀ app ∈ (s.applyAll (markAppointmentsAsSeen env s.appointments o).effects).appointments,
      app.seen = true) ∧
    (s.applyAll (markAppointmentsAsSeen env s.appointments o).effects).appointments.map
        (fun app => (app.isCompleted, app.cancelled)) =
      s.appointments.map (fun app => (app.isCompleted, app.cancelled)) ∧
    Sidebar.unseenAppointments
        (some (s.applyAll (markAppointmentsAsSeen env s.appointments o).effects).appointments) =
      Sidebar.unseenAppointments (some s.appointments) ∧
    Sidebar.unseenAppointments none = 0 := by
  rw [markAppointmentsAsSeen_appointments env s o]
  refine ⟨by simp, by simp, ?_, by simp, ?_, rfl⟩
  · intro app happ
    obtain ⟨a, -, rfl⟩ := List.mem_map.mp happ
    rfl
  · exact filter_map_seen (fun app => !app.cancelled && !app.isCompleted) (fun _ => rfl) _

end DoctorContext

/-! ## Archiving and restoring doctors -/

theorem Eff.bind_pure_eq {α : Type} (m : Eff α) : (do let a ← m; pure a) = m := by
  rcases m with ⟨t, l, r⟩
  cases r with
  | error e => rfl
  | ok a =>
    show Eff.bind _ _ = _
    simp [Eff.bind, pure]

theorem append_ne_of_mismatch (b x y : String) (h : x.data ≠ y.data) : b ++ x ≠ b ++ y := by
  intro he
  have h2 := congrArg String.data he
  simp only [String.data_append] at h2
  exact h (List.append_cancel_left h2)

theorem append_ne_of_take (b x y z : String) (n : Nat)
    (h : (x.data ++ z.data).take n ≠ y.data.take n) : b ++ x ++ z ≠ b ++ y := by
  rw [String.append_assoc]
  apply append_ne_of_mismatch
  intro he
  apply h
  rw [← String.data_append, he]

namespace AdminContext

/-- C19: doctors are never deleted, only archived. For every doctor id and every
outcome, `deleteDoctor` is `archiveDoctor`: the same effects in the same order and
the same result. It issues the one `PUT archive-doctor` request, followed by the
doctors refresh when the backend reports success, and no request with the verb
`DELETE`; it shows the same one toast and returns the same boolean. -/
theorem deleteDoctor_is_archiveDoctor (env : Env) (doctorId : String) (o doctors : Outcome) :
    deleteDoctor env doctorId o doctors = archiveDoctor env doctorId o doctors ∧
    (deleteDoctor env doctorId o doctors).requests =
      ⟨.put, env.backendUrl ++ "/api/admin/archive-doctor/" ++ doctorId, [], env.adminHeaders⟩ ::
        (match o with
          | .resolved d =>
            if d.success then
              [⟨.get, env.backendUrl ++ "/api/admin/all-doctors", [], env.adminHeaders⟩]
            else []
          | .rejected _ => []) ∧
    (deleteDoctor env doctorId o doctors).requests.all (fun r => r.method != .delete) = true ∧
    (deleteDoctor env doctorId o doctors).toasts = signal o responseMessageOr ∧
    (deleteDoctor env doctorId o doctors).result =
      .ok (match o with
        | .resolved d => d.success
        | .rejected _ => false) := by
  have h : deleteDoctor env doctorId o doctors = archiveDoctor env doctorId o doctors :=
    Eff.bind_pure_eq _
  rw [h]
  refine ⟨rfl, ?_⟩
  rcases o with ⟨⟨_ | _, m, ds, aps, st, dd, pd, ad, au⟩⟩ | e <;>
  rcases doctors with ⟨⟨_ | _, m1, ds1, aps1, st1, dd1, pd1, ad1, au1⟩⟩ | e1 <;>
  exact ⟨rfl, rfl, rfl, rfl⟩

theorem restoreDoctor_request_not_check (env : Env) (doctorId : String) :
    ¬ isDayOffCheck env
      ⟨.put, env.backendUrl ++ "/api/admin/restore-doctor/" ++ doctorId, [], env.adminHeaders⟩ := by
  intro h
  rcases h with h | h
  · exact append_ne_of_take _ _ _ _ 12 (by simp) h
  · exact append_ne_of_take _ _ _ _ 6 (by simp) h

theorem archivedDoctors_request_not_check (env : Env) :
    ¬ isDayOffCheck env
      ⟨.get, env.backendUrl ++ "/api/admin/archived-doctors", [], env.adminHeaders⟩ := by
  intro h
  rcases h with h | h
  · exact append_ne_of_mismatch _ _ _ (by decide) h
  · exact append_ne_of_mismatch _ _ _ (by decide) h

theorem archivedUsers_request_not_check (env : Env) :
    ¬ isDayOffCheck env
      ⟨.get, env.backendUrl ++ "/api/admin/archived-users", [], env.adminHeaders⟩ := by
  intro h
  rcases h with h | h
  · exact append_ne_of_mismatch _ _ _ (by decide) h
  · exact append_ne_of_mismatch _ _ _ (by decide) h

theorem restoreDoctor_requests (env : Env) (doctorId : String) (o archived : Outcome) :
    (restoreDoctor env doctorId o archived).requests =
      ⟨.put, env.backendUrl ++ "/api/admin/restore-doctor/" ++ doctorId, [], env.adminHeaders⟩ ::
        (match o with
          | .resolved d =>
            if d.success then
              [⟨.get, env.backendUrl ++ "/api/admin/archived-doctors", [], env.adminHeaders⟩]
            else []
          | .rejected _ => []) := by
  rcases o with ⟨⟨_ | _, m, ds, aps, st, dd, pd, ad, au⟩⟩ | e <;>
  rcases archived with ⟨⟨_ | _, m1, ds1, aps1, st1, dd1, pd1, ad1, au1⟩⟩ | e1 <;> rfl

theorem confirmRestore_requests (env : Env) (doctorId : String)
    (o inner archivedDoctors archivedUsers : Outcome) :
    (Archive.confirmRestore env (some (doctorId, "doctor")) o inner archivedDoctors
        archivedUsers).requests =
      ⟨.put, env.backendUrl ++ "/api/admin/restore-doctor/" ++ doctorId, [], env.adminHeaders⟩ ::
        (match o with
          | .resolved d =>
            if d.success then
              [⟨.get, env.backendUrl ++ "/api/admin/archived-doctors", [], env.adminHeaders⟩,
                ⟨.get, env.backendUrl ++ "/api/admin/archived-doctors", [], env.adminHeaders⟩,
                ⟨.get, env.backendUrl ++ "/api/admin/archived-users", [], env.adminHeaders⟩]
            else []
          | .rejected _ => []) := by
  rcases o with ⟨⟨_ | _, m, ds, aps, st, dd, pd, ad, au⟩⟩ | e <;>
  rcases inner with ⟨⟨_ | _, m1, ds1, aps1, st1, dd1, pd1, ad1, au1⟩⟩ | e1 <;>
  rcases archivedDoctors with ⟨⟨_ | _, m2, ds2, aps2, st2, dd2, pd2, ad2, au2⟩⟩ | e2 <;>
  rcases archivedUsers with ⟨⟨_ | _, m3, ds3, aps3, st3, dd3, pd3, ad3, au3⟩⟩ | e3 <;> rfl

theorem confirmRestore_doctors (env : Env) (doctorId : String)
    (o inner archivedDoctors archivedUsers : Outcome) (s : State) :
    (s.applyAll (Archive.confirmRestore env (some (doctorId, "doctor")) o inner archivedDoctors
        archivedUsers).effects).doctors = s.doctors := by
  rcases o with ⟨⟨_ | _, m, ds, aps, st, dd, pd, ad, au⟩⟩ | e <;>
  rcases inner with ⟨⟨_ | _, m1, ds1, aps1, st1, dd1, pd1, ad1, au1⟩⟩ | e1 <;>
  rcases archivedDoctors with ⟨⟨_ | _, m2, ds2, aps2, st2, dd2, pd2, ad2, au2⟩⟩ | e2 <;>
  rcases archivedUsers with ⟨⟨_ | _, m3, ds3, aps3, st3, dd3, pd3, ad3, au3⟩⟩ | e3 <;> rfl

/-- C20: restoring does not re-run the reconciler. For every doctor id and every
outcome of the requests, the requests of `restoreDoctor` are exactly the
`PUT restore-doctor` request, followed after a success by one fetch of the archived
doctors; those of `confirmRestore` of the Archive page, when it restores a doctor, are
exactly the `PUT restore-doctor` request, followed after a success by two fetches of
the archived doctors and one of the archived users. None of them is a day-off check
request. Neither function writes the `doctors` state, so every `available` flag in it
is what it was; the archived list is either left alone or replaced by the list the
backend returned. -/
theorem restoreDoctor_runs_no_day_off_check (env : Env) (doctorId : String)
    (o archived archivedDoctors archivedUsers : Outcome) (s : State) :
    ((restoreDoctor env doctorId o archived).requests =
        ⟨.put, env.backendUrl ++ "/api/admin/restore-doctor/" ++ doctorId, [], env.adminHeaders⟩ ::
          (match o with
            | .resolved d =>
              if d.success then
                [⟨.get, env.backendUrl ++ "/api/admin/archived-doctors", [], env.adminHeaders⟩]
              else []
            | .rejected _ => []) ∧
      (Archive.confirmRestore env (some (doctorId, "doctor")) o archived archivedDoctors
          archivedUsers).requests =
        ⟨.put, env.backendUrl ++ "/api/admin/restore-doctor/" ++ doctorId, [], env.adminHeaders⟩ ::
          (match o with
            | .resolved d =>
              if d.success then
                [⟨.get, env.backendUrl ++ "/api/admin/archived-doctors", [], env.adminHeaders⟩,
                  ⟨.get, env.backendUrl ++ "/api/admin/archived-doctors", [], env.adminHeaders⟩,
                  ⟨.get, env.backendUrl ++ "/api/admin/archived-users", [], env.adminHeaders⟩]
              else []
            | .rejected _ => [])) ∧
    ((∀ r ∈ (restoreDoctor env doctorId o archived).requests, ¬ isDayOffCheck env r) ∧
      (s.applyAll (restoreDoctor env doctorId o archived).effects).doctors = s.doctors ∧
      ((s.applyAll (restoreDoctor env doctorId o archived).effects).archivedDoctors =
          s.archivedDoctors ∨
        ∃ d, archived = .resolved d ∧
          (s.applyAll (restoreDoctor env doctorId o archived).effects).archivedDoctors =
            d.archivedDoctors)) ∧
    ((∀ r ∈ (Archive.confirmRestore env (some (doctorId, "doctor")) o archived archivedDoctors
          archivedUsers).requests, ¬ isDayOffCheck env r) ∧
      (s.applyAll (Archive.confirmRestore env (some (doctorId, "doctor")) o archived
          archivedDoctors archivedUsers).effects).doctors = s.doctors) := by
  refine ⟨⟨restoreDoctor_requests env doctorId o archived,
      confirmRestore_requests env doctorId o archived archivedDoctors archivedUsers⟩,
    ⟨?_, ?_, ?_⟩, ⟨?_, confirmRestore_doctors env doctorId o archived archivedDoctors
    archivedUsers s⟩⟩
  · intro r hr
    rw [restoreDoctor_requests] at hr
    rcases o with ⟨⟨_ | _, m, ds, aps, st, dd, pd, ad, au⟩⟩ | e <;>
    simp only [List.mem_cons, List.mem_singleton, List.not_mem_nil, or_false, if_true,
      Bool.false_eq_true, if_false] at hr
    · rw [hr]; exact restoreDoctor_request_not_check env doctorId
    · rcases hr with hr | hr
      · rw [hr]; exact restoreDoctor_request_not_check env doctorId
      · rw [hr]; exact archivedDoctors_request_not_check env
    · rw [hr]; exact restoreDoctor_request_not_check env doctorId
  · rcases o with ⟨⟨_ | _, m, ds, aps, st, dd, pd, ad, au⟩⟩ | e <;>
    rcases archived with ⟨⟨_ | _, m1, ds1, aps1, st1, dd1, pd1, ad1, au1⟩⟩ | e1 <;> rfl
  · rcases o with ⟨⟨_ | _, m, ds, aps, st, dd, pd, ad, au⟩⟩ | e <;>
    rcases archived with ⟨⟨_ | _, m1, ds1, aps1, st1, dd1, pd1, ad1, au1⟩⟩ | e1 <;>
    first
      | exact Or.inl rfl
      | exact Or.inr ⟨_, rfl, rfl⟩
  · intro r hr
    rw [confirmRestore_requests] at hr
    rcases o with ⟨⟨_ | _, m, ds, aps, st, dd, pd, ad, au⟩⟩ | e <;>
    simp only [List.mem_cons, List.mem_singleton, List.not_mem_nil, or_false, if_true,
      Bool.false_eq_true, if_false] at hr
    · rw [hr]; exact restoreDoctor_request_not_check env doctorId
    · rcases hr with hr | hr | hr | hr
      · rw [hr]; exact restoreDoctor_request_not_check env doctorId
      · rw [hr]; exact archivedDoctors_request_not_check env
      · rw [hr]; exact archivedDoctors_request_not_check env
      · rw [hr]; exact archivedUsers_request_not_check env
    · rw [hr]; exact restoreDoctor_request_not_check env doctorId

end AdminContext

/-! ## Archiving and restoring: what the client refreshes -/

theorem append_ne_of_take_both (b x y z w : String) (n : Nat)
    (h : (x.data ++ z.data).take n ≠ (y.data ++ w.data).take n) :
    b ++ x ++ z ≠ b ++ y ++ w := by
  rw [String.append_assoc, String.append_assoc]
  apply append_ne_of_mismatch
  intro he
  apply h
  rw [← String.data_append, ← String.data_append, he]

theorem archiveDoctor_request_not_mutation (env : Env) (doctorId : String) :
    ¬ isAppointmentMutation env
      ⟨.put, env.backendUrl ++ "/api/admin/archive-doctor/" ++ doctorId, [], env.adminHeaders⟩ := by
  intro h
  rcases h with ⟨a, h⟩ | h | h | h | h
  · exact append_ne_of_take_both _ _ _ _ _ 13 (by simp) h
  · exact append_ne_of_take _ _ _ _ 6 (by simp) h
  · exact append_ne_of_take _ _ _ _ 6 (by simp) h
  · exact append_ne_of_take _ _ _ _ 6 (by simp) h
  · exact append_ne_of_take _ _ _ _ 6 (by simp) h

theorem allDoctors_request_not_mutation (env : Env) :
    ¬ isAppointmentMutation env
      ⟨.get, env.backendUrl ++ "/api/admin/all-doctors", [], env.adminHeaders⟩ := by
  intro h
  rcases h with ⟨a, h⟩ | h | h | h | h
  · exact (append_ne_of_take _ _ _ _ 13 (by simp)) h.symm
  · exact append_ne_of_mismatch _ _ _ (by decide) h
  · exact append_ne_of_mismatch _ _ _ (by decide) h
  · exact append_ne_of_mismatch _ _ _ (by decide) h
  · exact append_ne_of_mismatch _ _ _ (by decide) h

namespace AdminContext

theorem archiveDoctor_requests (env : Env) (doctorId : String) (o doctors : Outcome) :
    (archiveDoctor env doctorId o doctors).requests =
      ⟨.put, env.backendUrl ++ "/api/admin/archive-doctor/" ++ doctorId, [], env.adminHeaders⟩ ::
        (match o with
          | .resolved d =>
            if d.success then
              [⟨.get, env.backendUrl ++ "/api/admin/all-doctors", [], env.adminHeaders⟩]
            else []
          | .rejected _ => []) := by
  rcases o with ⟨⟨_ | _, m, ds, aps, st, dd, pd, ad, au⟩⟩ | e <;>
  rcases doctors with ⟨⟨_ | _, m1, ds1, aps1, st1, dd1, pd1, ad1, au1⟩⟩ | e1 <;> rfl

theorem confirmArchive_requests (env : Env) (doctor : DoctorRow) (o inner doctors : Outcome) :
    (DoctorsList.confirmArchive env (some doctor) o inner doctors).requests =
      ⟨.put, env.backendUrl ++ "/api/admin/archive-doctor/" ++ doctor._id, [], env.adminHeaders⟩ ::
        (match o with
          | .resolved d =>
            if d.success then
              [⟨.get, env.backendUrl ++ "/api/admin/all-doctors", [], env.adminHeaders⟩,
                ⟨.get, env.backendUrl ++ "/api/admin/all-doctors", [], env.adminHeaders⟩]
            else []
          | .rejected _ => []) := by
  rcases o with ⟨⟨_ | _, m, ds, aps, st, dd, pd, ad, au⟩⟩ | e <;>
  rcases inner with ⟨⟨_ | _, m1, ds1, aps1, st1, dd1, pd1, ad1, au1⟩⟩ | e1 <;>
  rcases doctors with ⟨⟨_ | _, m2, ds2, aps2, st2, dd2, pd2, ad2, au2⟩⟩ | e2 <;> rfl

theorem archiveDoctor_frame (env : Env) (doctorId : String) (o doctors : Outcome) (s : State) :
    s.applyAll (archiveDoctor env doctorId o doctors).effects =
      { s with doctors := (s.applyAll (archiveDoctor env doctorId o doctors).effects).doctors } := by
  rcases o with ⟨⟨_ | _, m, ds, aps, st, dd, pd, ad, au⟩⟩ | e <;>
  rcases doctors with ⟨⟨_ | _, m1, ds1, aps1, st1, dd1, pd1, ad1, au1⟩⟩ | e1 <;> rfl

theorem confirmArchive_frame (env : Env) (doctor : DoctorRow) (o inner doctors : Outcome)
    (s : State) :
    s.applyAll (DoctorsList.confirmArchive env (some doctor) o inner doctors).effects =
      { s with doctors :=
          (s.applyAll (DoctorsList.confirmArchive env (some doctor) o inner doctors).effects).doctors } := by
  rcases o with ⟨⟨_ | _, m, ds, aps, st, dd, pd, ad, au⟩⟩ | e <;>
  rcases inner with ⟨⟨_ | _, m1, ds1, aps1, st1, dd1, pd1, ad1, au1⟩⟩ | e1 <;>
  rcases doctors with ⟨⟨_ | _, m2, ds2, aps2, st2, dd2, pd2, ad2, au2⟩⟩ | e2 <;> rfl

/-- C22: archiving is non-destructive for appointments. For every doctor and every
outcome of the requests, `archiveDoctor`, and `confirmArchive` of the doctors list
page that calls it, issue no request that changes an appointment: the only request
that is not a `GET` is the `PUT archive-doctor` one, and the others fetch the active
doctors list. Applying all their effects to any provider state leaves `appointments`
as it was, and every other part of the state too, except `doctors`, the list that is
fetched again after a success. With no doctor chosen `confirmArchive` does nothing. -/
theorem archiveDoctor_leaves_appointments (env : Env) (doctorId : String) (doctor : DoctorRow)
    (o inner doctors : Outcome) (s : State) :
    (∀ r ∈ (archiveDoctor env doctorId o inner).requests, ¬ isAppointmentMutation env r) ∧
    (∀ r ∈ (DoctorsList.confirmArchive env (some doctor) o inner doctors).requests,
      ¬ isAppointmentMutation env r) ∧
    (s.applyAll (archiveDoctor env doctorId o inner).effects).appointments = s.appointments ∧
    (s.applyAll (DoctorsList.confirmArchive env (some doctor) o inner doctors).effects).appointments =
      s.appointments ∧
    s.applyAll (archiveDoctor env doctorId o inner).effects =
      { s with doctors := (s.applyAll (archiveDoctor env doctorId o inner).effects).doctors } ∧
    s.applyAll (DoctorsList.confirmArchive env (some doctor) o inner doctors).effects =
      { s with doctors :=
          (s.applyAll (DoctorsList.confirmArchive env (some doctor) o inner doctors).effects).doctors } ∧
    ((archiveDoctor env doctorId o inner).requests.filter (fun r => r.method != .get) =
      [⟨.put, env.backendUrl ++ "/api/admin/archive-doctor/" ++ doctorId, [], env.adminHeaders⟩]) ∧
    ((DoctorsList.confirmArchive env (some doctor) o inner doctors).requests.filter
        (fun r => r.method != .get) =
      [⟨.put, env.backendUrl ++ "/api/admin/archive-doctor/" ++ doctor._id, [], env.adminHeaders⟩]) ∧
    (DoctorsList.confirmArchive env none o inner doctors).effects = [] := by
  have hA := archiveDoctor_frame env doctorId o inner s
  have hC := confirmArchive_frame env doctor o inner doctors s
  refine ⟨?_, ?_, ?_, ?_, hA, hC, ?_, ?_, rfl⟩
  · intro r hr
    rw [archiveDoctor_requests] at hr
    rcases o with ⟨⟨_ | _, m, ds, aps, st, dd, pd, ad, au⟩⟩ | e <;>
    simp at hr <;> rcases hr with rfl | rfl <;>
    first
      | exact archiveDoctor_request_not_mutation env doctorId
      | exact allDoctors_request_not_mutation env
  · intro r hr
    rw [confirmArchive_requests] at hr
    rcases o with ⟨⟨_ | _, m, ds, aps, st, dd, pd, ad, au⟩⟩ | e <;>
    simp at hr <;> rcases hr with rfl | rfl <;>
    first
      | exact archiveDoctor_request_not_mutation env doctor._id
      | exact allDoctors_request_not_mutation env
  · rw [hA]
  · rw [hC]
  · rw [archiveDoctor_requests]
    rcases o with ⟨⟨_ | _, m, ds, aps, st, dd, pd, ad, au⟩⟩ | e <;> rfl
  · rw [confirmArchive_requests]
    rcases o with ⟨⟨_ | _, m, ds, aps, st, dd, pd, ad, au⟩⟩ | e <;> rfl

/-- C21 (as amended): what a successful `restoreDoctor` refreshes. When the backend
reports success, `restoreDoctor` returns `true` and issues the `restore-doctor` request
followed by one fetch of the archived doctors, and no fetch of the active list: the
`doctors` state is what it was, also after `confirmRestore` of the Archive page. When
the fetch of the archived doctors succeeds, `archivedDoctors` becomes the list the
backend returned. The restored doctor reaches `doctors` with the next `getAllDoctors`,
which the doctors list page runs when it mounts with a token. -/
theorem restoreDoctor_refreshes_archived_list_only (env : Env) (doctorId : String)
    (d a l : Data) (archived archivedDoctors archivedUsers : Outcome) (s : State) :
    (restoreDoctor env doctorId (.resolved { d with success := true }) archived).result = .ok true ∧
    (restoreDoctor env doctorId (.resolved { d with success := true }) archived).requests =
      [⟨.put, env.backendUrl ++ "/api/admin/restore-doctor/" ++ doctorId, [], env.adminHeaders⟩,
        ⟨.get, env.backendUrl ++ "/api/admin/archived-doctors", [], env.adminHeaders⟩] ∧
    (s.applyAll
      (restoreDoctor env doctorId (.resolved { d with success := true }) archived).effects).doctors =
      s.doctors ∧
    (s.applyAll
      (Archive.confirmRestore env (some (doctorId, "doctor")) (.resolved { d with success := true })
        archived archivedDoctors archivedUsers).effects).doctors = s.doctors ∧
    (s.applyAll
      (restoreDoctor env doctorId (.resolved { d with success := true })
        (.resolved { a with success := true })).effects).archivedDoctors = a.archivedDoctors ∧
    ((s.applyAll
      (restoreDoctor env doctorId (.resolved { d with success := true }) archived).effects).applyAll
        (DoctorsList.mountEffect env (.resolved { l with success := true })).effects).doctors =
      (if env.aToken ≠ "" then l.doctors else s.doctors) := by
  have h3 : (s.applyAll
      (restoreDoctor env doctorId (.resolved { d with success := true }) archived).effects).doctors =
      s.doctors := by
    rcases archived with ⟨⟨_ | _, m1, ds1, aps1, st1, dd1, pd1, ad1, au1⟩⟩ | e1 <;> rfl
  refine ⟨?_, ?_, h3, ?_, rfl, ?_⟩
  · rcases archived with ⟨⟨_ | _, m1, ds1, aps1, st1, dd1, pd1, ad1, au1⟩⟩ | e1 <;> rfl
  · rw [restoreDoctor_requests]; rfl
  · exact confirmRestore_doctors env doctorId _ archived archivedDoctors archivedUsers s
  · by_cases ht : env.aToken = ""
    · simp only [DoctorsList.mountEffect, ht, ne_eq, not_true_eq_false, if_false]
      exact h3
    · simp only [DoctorsList.mountEffect, ht, ne_eq, not_false_eq_true, if_true]
      rfl

/-- C21, counterexample: doctor `d1` is archived and the `doctors` state is empty;
`restoreDoctor` succeeds and the archived list comes back empty. Afterwards `d1` is
gone from `archivedDoctors`, but `doctors` is still empty, and no request for the
active list was issued. -/
theorem restoreDoctor_skips_active_list :
    (restoreDoctor Examples.env "d1" Examples.ok Examples.ok).result = .ok true ∧
    Examples.archivedRow ∈ Examples.adminState.archivedDoctors ∧
    (Examples.adminState.applyAll
      (restoreDoctor Examples.env "d1" Examples.ok Examples.ok).effects).archivedDoctors = [] ∧
    (Examples.adminState.applyAll
      (restoreDoctor Examples.env "d1" Examples.ok Examples.ok).effects).doctors = [] ∧
    (restoreDoctor Examples.env "d1" Examples.ok Examples.ok).requests.all
      (fun r => r.url != Examples.env.backendUrl ++ "/api/admin/all-doctors") = true := by
  refine ⟨rfl, by decide, by decide, by decide, by decide⟩

end AdminContext

/-! ## Rows of the day-off table -/

namespace DayOffManager

/-- C24: a doctor with no day off and the day-off test of the table. Before the mount
effect has computed the weekday, `currentDay` is the initial `''`, which is also the
value the profile form stores for "No Day Off Selected": for such a doctor
`doctor.dayOff === currentDay` holds, the row is highlighted and labelled
"On Day Off Today". For each of the seven weekday names the test fails for a doctor
whose `dayOff` is `''` or `'None'`, and for `'None'` it fails for the initial value
too. -/
theorem empty_day_off_is_highlighted_before_mount :
    State.init.currentDay = "" ∧
    Examples.noDayOffRow.dayOff ∈ DoctorProfile.dayOffOptions ∧
    rowHighlight Examples.noDayOffRow State.init.currentDay = "bg-yellow-50" ∧
    dayOffStatus Examples.noDayOffRow State.init.currentDay = "On Day Off Today" ∧
    (∀ doctor : DoctorRow, ∀ day ∈ daysOfWeek, doctor.dayOff = "" ∨ doctor.dayOff = "None" →
      rowHighlight doctor day = "" ∧ dayOffStatus doctor day = "No Day Off Set") ∧
    (∀ doctor : DoctorRow, doctor.dayOff = "None" →
      rowHighlight doctor State.init.currentDay = "" ∧
      dayOffStatus doctor State.init.currentDay = "No Day Off Set") := by
  refine ⟨rfl, by decide, by decide, by decide, ?_, ?_⟩
  · intro doctor day hday h
    simp only [daysOfWeek, List.mem_cons, List.mem_singleton, List.not_mem_nil, or_false] at hday
    rcases h with h | h <;>
    rcases hday with rfl | rfl | rfl | rfl | rfl | rfl | rfl <;>
    simp [rowHighlight, dayOffStatus, h]
  · intro doctor h
    simp [rowHighlight, dayOffStatus, h, State.init]

end DayOffManager

/-! ## The summary editor of the appointment history -/

namespace DoctorAppointmentHistory

/-- C27: the text of the summary editor does not follow the opened appointment.
Opening the editor for an appointment whose summary is "Old summary" leaves the
modal's `summary` state at its initial `''`, so the editor is empty and Submit sends
nothing. After a summary was typed and submitted for `a1`, opening the editor for `a2`
leaves that text in `summary`, and Submit sends it for `a2`. In general
`handleOpenSummaryModal` never changes `summary`. -/
theorem summary_state_ignores_opened_appointment :
    (SummaryState.init.run [.openSummary "a1" "Old summary"]).summary = "" ∧
    (SummaryState.init.run [.openSummary "a1" "Old summary"]).existingSummary = "Old summary" ∧
    (ConsultationSummaryModal.handleSubmit
      (SummaryState.init.run [.openSummary "a1" "Old summary"]).summary "a1" (.ok ())).trace = [] ∧
    SummaryState.init.run
        [.openSummary "a1" "", .change "Note for a1", .submit (.ok ()),
          .openSummary "a2" "Old summary of a2"] =
      ⟨true, some "a2", "Old summary of a2", "Note for a1", false⟩ ∧
    (ConsultationSummaryModal.handleSubmit "Note for a1" "a2" (.ok ())).trace =
      [.setIsSubmitting true, .onSubmit "a2" "Note for a1", .setIsSubmitting false, .onClose] ∧
    (∀ (s : SummaryState) (appointmentId existingSummary : String),
      (handleOpenSummaryModal s appointmentId existingSummary).summary = s.summary) := by
  refine ⟨rfl, rfl, by decide, by decide, by decide, fun _ _ _ => rfl⟩

end DoctorAppointmentHistory

/-! ## Archive then restore, as the client runs them -/

theorem restoreDoctor_request_not_mutation (env : Env) (doctorId : String) :
    ¬ isAppointmentMutation env
      ⟨.put, env.backendUrl ++ "/api/admin/restore-doctor/" ++ doctorId, [], env.adminHeaders⟩ := by
  intro h
  rcases h with ⟨a, h⟩ | h | h | h | h
  · exact append_ne_of_take_both _ _ _ _ _ 12 (by simp) h
  · exact append_ne_of_take _ _ _ _ 6 (by simp) h
  · exact append_ne_of_take _ _ _ _ 6 (by simp) h
  · exact append_ne_of_take _ _ _ _ 6 (by simp) h
  · exact append_ne_of_take _ _ _ _ 6 (by simp) h

theorem archivedDoctors_request_not_mutation (env : Env) :
    ¬ isAppointmentMutation env
      ⟨.get, env.backendUrl ++ "/api/admin/archived-doctors", [], env.adminHeaders⟩ := by
  intro h
  rcases h with ⟨a, h⟩ | h | h | h | h
  · exact (append_ne_of_take _ _ _ _ 13 (by simp)) h.symm
  · exact append_ne_of_mismatch _ _ _ (by decide) h
  · exact append_ne_of_mismatch _ _ _ (by decide) h
  · exact append_ne_of_mismatch _ _ _ (by decide) h
  · exact append_ne_of_mismatch _ _ _ (by decide) h

namespace AdminContext

theorem restoreDoctor_frame (env : Env) (doctorId : String) (o archived : Outcome) (s : State) :
    s.applyAll (restoreDoctor env doctorId o archived).effects =
      { s with archivedDoctors :=
          (s.applyAll (restoreDoctor env doctorId o archived).effects).archivedDoctors } := by
  rcases o with ⟨⟨_ | _, m, ds, aps, st, dd, pd, ad, au⟩⟩ | e <;>
  rcases archived with ⟨⟨_ | _, m1, ds1, aps1, st1, dd1, pd1, ad1, au1⟩⟩ | e1 <;> rfl

theorem archiveDoctor_doctors (env : Env) (doctorId : String) (o doctors : Outcome) (s : State) :
    (s.applyAll (archiveDoctor env doctorId o doctors).effects).doctors =
      (match o, doctors with
        | .resolved d, .resolved f => if d.success && f.success then f.doctors else s.doctors
        | _, _ => s.doctors) := by
  rcases o with ⟨⟨_ | _, m, ds, aps, st, dd, pd, ad, au⟩⟩ | e <;>
  rcases doctors with ⟨⟨_ | _, m1, ds1, aps1, st1, dd1, pd1, ad1, au1⟩⟩ | e1 <;> rfl

/-- C23 (as amended): archive then restore, as the client runs them. For every doctor
id, every outcome of the requests and every provider state: `archiveDoctor` sends the
`PUT archive-doctor` request, followed after a success by one fetch of the active
doctors, and `restoreDoctor` sends the `PUT restore-doctor` request, followed after a
success by one fetch of the archived doctors; none of these requests changes an
appointment. The `appointments` state is the same before, between and after the two
calls. After `archiveDoctor` the `doctors` state is the list that fetch returned, if
both the request and the fetch succeeded, and what it was otherwise; `restoreDoctor`
writes nothing but `archivedDoctors`, so after the two calls `doctors` is still the
list held after `archiveDoctor`. The doctor is among `doctors` again once a later
`getAllDoctors` returns it, which the doctors list page runs when it mounts with a
token. -/
theorem archiveDoctor_then_restoreDoctor (env : Env) (doctorId : String)
    (o1 i1 o2 i2 : Outcome) (l : Data) (s : State) :
    (archiveDoctor env doctorId o1 i1).requests =
      ⟨.put, env.backendUrl ++ "/api/admin/archive-doctor/" ++ doctorId, [], env.adminHeaders⟩ ::
        (match o1 with
          | .resolved d =>
            if d.success then
              [⟨.get, env.backendUrl ++ "/api/admin/all-doctors", [], env.adminHeaders⟩]
            else []
          | .rejected _ => []) ∧
    (restoreDoctor env doctorId o2 i2).requests =
      ⟨.put, env.backendUrl ++ "/api/admin/restore-doctor/" ++ doctorId, [], env.adminHeaders⟩ ::
        (match o2 with
          | .resolved d =>
            if d.success then
              [⟨.get, env.backendUrl ++ "/api/admin/archived-doctors", [], env.adminHeaders⟩]
            else []
          | .rejected _ => []) ∧
    (∀ r ∈ (archiveDoctor env doctorId o1 i1).requests ++ (restoreDoctor env doctorId o2 i2).requests,
      ¬ isAppointmentMutation env r) ∧
    (s.applyAll (archiveDoctor env doctorId o1 i1).effects).appointments = s.appointments ∧
    ((s.applyAll (archiveDoctor env doctorId o1 i1).effects).applyAll
      (restoreDoctor env doctorId o2 i2).effects).appointments = s.appointments ∧
    (s.applyAll (archiveDoctor env doctorId o1 i1).effects).doctors =
      (match o1, i1 with
        | .resolved d, .resolved f => if d.success && f.success then f.doctors else s.doctors
        | _, _ => s.doctors) ∧
    (s.applyAll (archiveDoctor env doctorId o1 i1).effects).applyAll
        (restoreDoctor env doctorId o2 i2).effects =
      { s.applyAll (archiveDoctor env doctorId o1 i1).effects with
        archivedDoctors :=
          ((s.applyAll (archiveDoctor env doctorId o1 i1).effects).applyAll
            (restoreDoctor env doctorId o2 i2).effects).archivedDoctors } ∧
    ((s.applyAll (archiveDoctor env doctorId o1 i1).effects).applyAll
      (restoreDoctor env doctorId o2 i2).effects).doctors =
      (s.applyAll (archiveDoctor env doctorId o1 i1).effects).doctors ∧
    ((((s.applyAll (archiveDoctor env doctorId o1 i1).effects).applyAll
      (restoreDoctor env doctorId o2 i2).effects).applyAll
        (DoctorsList.mountEffect env (.resolved { l with success := true })).effects).doctors =
      (if env.aToken ≠ "" then l.doctors
        else (s.applyAll (archiveDoctor env doctorId o1 i1).effects).doctors)) := by
  have hA := archiveDoctor_frame env doctorId o1 i1 s
  have hR := restoreDoctor_frame env doctorId o2 i2
    (s.applyAll (archiveDoctor env doctorId o1 i1).effects)
  have hRd : ((s.applyAll (archiveDoctor env doctorId o1 i1).effects).applyAll
      (restoreDoctor env doctorId o2 i2).effects).doctors =
      (s.applyAll (archiveDoctor env doctorId o1 i1).effects).doctors := by
    rw [hR]
  refine ⟨archiveDoctor_requests env doctorId o1 i1, restoreDoctor_requests env doctorId o2 i2,
    ?_, ?_, ?_, archiveDoctor_doctors env doctorId o1 i1 s, hR, hRd, ?_⟩
  · intro r hr
    rw [archiveDoctor_requests, restoreDoctor_requests] at hr
    rcases o1 with ⟨⟨_ | _, m, ds, aps, st, dd, pd, ad, au⟩⟩ | e <;>
    rcases o2 with ⟨⟨_ | _, m2, ds2, aps2, st2, dd2, pd2, ad2, au2⟩⟩ | e2 <;>
    simp at hr <;>
    rcases hr with rfl | rfl | rfl | rfl <;>
    first
      | exact archiveDoctor_request_not_mutation env doctorId
      | exact allDoctors_request_not_mutation env
      | exact restoreDoctor_request_not_mutation env doctorId
      | exact archivedDoctors_request_not_mutation env
  · rw [hA]
  · rw [hR, hA]
  · by_cases ht : env.aToken = ""
    · simp only [DoctorsList.mountEffect, ht, ne_eq, not_true_eq_false, if_false]
      exact hRd
    · simp only [DoctorsList.mountEffect, ht, ne_eq, not_false_eq_true, if_true]
      rfl

/-- C23, counterexample: the provider holds the active doctors `d1` and `d2` and one
appointment of `d1`. `archiveDoctor` succeeds for `d1` and the active list comes back
without `d1`; `restoreDoctor` then succeeds for `d1`. Afterwards `doctors` is still the
list without `d1`: the two calls have not returned `d1` to the active set the client
holds, and no request for the active list followed the restore. -/
theorem round_trip_leaves_doctor_out_of_doctors :
    Examples.archivedRow ∈ Examples.activeState.doctors ∧
    (archiveDoctor Examples.env "d1" Examples.ok Examples.activeWithoutD1).result = .ok true ∧
    (restoreDoctor Examples.env "d1" Examples.ok Examples.ok).result = .ok true ∧
    ((Examples.activeState.applyAll
        (archiveDoctor Examples.env "d1" Examples.ok Examples.activeWithoutD1).effects).applyAll
      (restoreDoctor Examples.env "d1" Examples.ok Examples.ok).effects).doctors =
      [Examples.otherRow] ∧
    Examples.archivedRow ∉
      ((Examples.activeState.applyAll
          (archiveDoctor Examples.env "d1" Examples.ok Examples.activeWithoutD1).effects).applyAll
        (restoreDoctor Examples.env "d1" Examples.ok Examples.ok).effects).doctors ∧
    (restoreDoctor Examples.env "d1" Examples.ok Examples.ok).requests =
      [⟨.put, "https://clinic.example/api/admin/restore-doctor/d1", [],
          Examples.env.adminHeaders⟩,
        ⟨.get, "https://clinic.example/api/admin/archived-doctors", [],
          Examples.env.adminHeaders⟩] := by
  refine ⟨by decide, rfl, rfl, by decide, by decide, by decide⟩

end AdminContext

/-! ## The PDF export of the appointment history -/

namespace DoctorAppointmentHistory

theorem rowLoop_spec (items : List Appointment) :
    ∀ (i : Nat) (c : Cursor), InStep i c →
      InStep (i + items.length) (rowLoop items i c) ∧
      (rowLoop items i c).pdf.rows =
        c.pdf.rows ++ (items.enumFrom i).map (fun p => rowAt p.1 p.2) := by
  induction items with
  | nil => intro i c h; exact ⟨h, by simp [rowLoop]⟩
  | cons item rest ih =>
    intro i c h
    obtain ⟨h1, h2, h3⟩ := h
    have key : InStep (i + 1)
        ⟨(addTableRow (if 0 < i ∧ i % rowsPerPage = 0 then
              (⟨c.pdf.addPage, c.currentPage + 1, addTableHeader (margin + 15)⟩ : Cursor)
            else c).pdf item i
            (if 0 < i ∧ i % rowsPerPage = 0 then
              (⟨c.pdf.addPage, c.currentPage + 1, addTableHeader (margin + 15)⟩ : Cursor)
            else c).currentY).1,
          (if 0 < i ∧ i % rowsPerPage = 0 then
              (⟨c.pdf.addPage, c.currentPage + 1, addTableHeader (margin + 15)⟩ : Cursor)
            else c).currentPage,
          (addTableRow (if 0 < i ∧ i % rowsPerPage = 0 then
              (⟨c.pdf.addPage, c.currentPage + 1, addTableHeader (margin + 15)⟩ : Cursor)
            else c).pdf item i
            (if 0 < i ∧ i % rowsPerPage = 0 then
              (⟨c.pdf.addPage, c.currentPage + 1, addTableHeader (margin + 15)⟩ : Cursor)
            else c).currentY).2⟩ ∧
        (addTableRow (if 0 < i ∧ i % rowsPerPage = 0 then
              (⟨c.pdf.addPage, c.currentPage + 1, addTableHeader (margin + 15)⟩ : Cursor)
            else c).pdf item i
            (if 0 < i ∧ i % rowsPerPage = 0 then
              (⟨c.pdf.addPage, c.currentPage + 1, addTableHeader (margin + 15)⟩ : Cursor)
            else c).currentY).1.rows = c.pdf.rows ++ [rowAt i item] := by
      by_cases hi : 0 < i ∧ i % rowsPerPage = 0
      · rw [if_pos hi]
        simp only [rowsPerPage] at hi
        simp only [InStep, addTableRow, Pdf.addPage, addTableHeader, margin, rowHeight, rowAt,
          Nat.add_sub_cancel, h1, h3]
        have hi0 : i ≠ 0 := by omega
        simp only [hi0, if_false]
        refine ⟨⟨by simp; omega, by simp [h2, h1, hi0], ?_⟩, ?_⟩
        · simp
          split_ifs <;> omega
        · simp
          refine ⟨by omega, ?_, ?_⟩ <;> split_ifs <;> omega
      · rw [if_neg hi]
        simp only [rowsPerPage] at hi
        simp only [InStep, addTableRow, rowHeight, rowAt, Nat.add_sub_cancel, h1, h3]
        refine ⟨⟨by simp; split_ifs <;> omega, by simp [h2, h1], ?_⟩, ?_⟩
        · simp
          split_ifs <;> omega
        · simp
          refine ⟨?_, ?_⟩ <;> split_ifs <;> omega
    obtain ⟨k1, k2⟩ := key
    have := ih (i + 1) _ k1
    refine ⟨?_, ?_⟩
    · have e : i + (item :: rest).length = i + 1 + rest.length := by simp; omega
      rw [e]
      exact this.1
    · show (rowLoop rest (i + 1) _).pdf.rows = _
      rw [this.2, k2]
      simp [List.enumFrom_cons]

theorem exportToPDF_document (apps : List Appointment) :
    exportToPDF true apps =
      some ⟨if apps.length = 0 then 1 else (apps.length - 1) / 15 + 1,
        (apps.enumFrom 0).map (fun p => rowAt p.1 p.2)⟩ := by
  have h0 : InStep 0 ⟨Pdf.new, 1, addTableHeader (margin + headerHeight)⟩ := by
    simp [InStep, Pdf.new, addTableHeader, margin, headerHeight]
  obtain ⟨⟨h1, _, _⟩, h2⟩ := rowLoop_spec apps 0 _ h0
  simp only [Nat.zero_add] at h1
  have e : exportToPDF true apps =
      some (rowLoop apps 0 ⟨Pdf.new, 1, addTableHeader (margin + headerHeight)⟩).pdf := by
    simp [exportToPDF, Pdf.new]
  rw [e]
  congr 1
  cases hp : (rowLoop apps 0 ⟨Pdf.new, 1, addTableHeader (margin + headerHeight)⟩).pdf with
  | mk n rows =>
    rw [hp] at h1 h2
    simp only [Pdf.new, List.nil_append] at h2
    simp only at h1
    rw [h1, h2]

theorem rows_on_page_le (n p : Nat) :
    ((List.range n).filter (fun k => k / 15 + 1 = p)).length ≤ 15 := by
  have hsub : (List.range n).filter (fun k => k / 15 + 1 = p) ⊆ List.range' (15 * (p - 1)) 15 := by
    intro k hk
    simp only [List.mem_filter, List.mem_range, decide_eq_true_eq] at hk
    simp only [List.mem_range', Nat.one_mul]
    exact ⟨k - 15 * (p - 1), by omega, by omega⟩
  have hnd : ((List.range n).filter (fun k => k / 15 + 1 = p)).Nodup :=
    (List.nodup_range n).filter _
  have := (List.subperm_of_subset hnd hsub).length_le
  simpa using this

/-- C28: the PDF export puts 15 rows on a page. With the table mounted, `exportToPDF`
produces a document for every list of appointments: row `i` (counted from 0) is drawn
on page `i / 15 + 1` with the printed index `i + 1`, for the appointment at position
`i`, starting 53 mm from the top on the first page and 33 mm on the later ones plus
15 mm for each earlier row of the page. The document has `max 1 ⌈n / 15⌉` pages, each
row is on one of them, no page holds more than 15 rows, and the bottom border of every
row is at most 278 mm from the top, within the 297 mm of an A4 page. Without the table
nothing is produced. -/
theorem exportToPDF_paginates (apps : List Appointment) :
    ∃ doc : Pdf,
      exportToPDF true apps = some doc ∧
      doc.rows.length = apps.length ∧
      (∀ (i : Nat) (item : Appointment), apps[i]? = some item →
        doc.rows[i]? =
          some ⟨i / 15 + 1, toString (i + 1), item, (if i < 15 then 53 else 33) + 15 * (i % 15),
            (if i < 15 then 53 else 33) + 15 * (i % 15) + rowHeight⟩) ∧
      doc.numberOfPages = max 1 ((apps.length + 14) / 15) ∧
      (∀ p : Nat, (doc.rows.filter (fun r => r.page = p)).length ≤ rowsPerPage) ∧
      (∀ r ∈ doc.rows, 1 ≤ r.page ∧ r.page ≤ doc.numberOfPages ∧ r.bottom = r.top + rowHeight ∧
        r.bottom ≤ 278 ∧ r.bottom ≤ a4Height) ∧
      exportToPDF false apps = none := by
  refine ⟨_, exportToPDF_document apps, by simp, ?_, ?_, ?_, ?_, rfl⟩
  · intro i item hi
    simp [List.getElem?_enumFrom, hi, rowAt, rowHeight]
  · simp only
    split_ifs <;> omega
  · intro p
    simp only [List.filter_map, List.length_map, rowsPerPage]
    have : ((apps.enumFrom 0).filter ((fun r : RowDraw => decide (r.page = p)) ∘
        fun q : Nat × Appointment => rowAt q.1 q.2)).length =
        (((apps.enumFrom 0).map Prod.fst).filter (fun k => k / 15 + 1 = p)).length := by
      rw [List.filter_map, List.length_map]
      rfl
    rw [this, List.enumFrom_map_fst, ← List.range_eq_range']
    exact rows_on_page_le _ _
  · intro r hr
    simp only [List.mem_map] at hr
    obtain ⟨⟨k, item⟩, hk, rfl⟩ := hr
    have hk2 := List.fst_lt_add_of_mem_enumFrom hk
    have hk3 : k < apps.length := by omega
    refine ⟨?_, ?_, ?_, ?_, ?_⟩ <;> simp only [rowAt, rowHeight, a4Height] <;>
      (try split_ifs) <;> omega

end DoctorAppointmentHistory

/-! ## The search of the appointment history -/

namespace DoctorAppointmentHistory

/-- C25: the history search and a patient without a middle name. The filter keeps a
sublist of the history in its order, all of it when the term is blank, and otherwise
exactly the appointments that pass the test of the callback. For a patient whose
record has no middle name the template literal writes the text `undefined` into the
name that is searched: the term "undefined" keeps the appointment of Ana Cruz, although
it occurs in neither her last name, her first name nor the slot time, and whatever the
formatted date is. -/
theorem filteredAppointments_matches_undefined :
    (∀ (toLowerCase slotDateFormat : String → String) (history : List Appointment)
        (searchTerm : String),
      (filteredAppointments toLowerCase slotDateFormat history searchTerm).Sublist history) ∧
    (∀ (toLowerCase slotDateFormat : String → String) (history : List Appointment)
        (searchTerm : String), ConsultationSummaryModal.trim searchTerm = "" →
      filteredAppointments toLowerCase slotDateFormat history searchTerm = history) ∧
    (∀ (toLowerCase slotDateFormat : String → String) (history : List Appointment)
        (searchTerm : String) (app : Appointment),
      app ∈ filteredAppointments toLowerCase slotDateFormat history searchTerm ↔
        app ∈ history ∧ matchesSearch toLowerCase slotDateFormat searchTerm app = true) ∧
    Examples.visitWithoutMiddleName.userData.middleName = none ∧
    (∀ slotDateFormat : String → String,
      filteredAppointments Examples.asciiLowerCase slotDateFormat
        [Examples.visitWithoutMiddleName] "undefined" = [Examples.visitWithoutMiddleName]) ∧
    includes (Examples.asciiLowerCase Examples.visitWithoutMiddleName.userData.lastName)
      (Examples.asciiLowerCase "undefined") = false ∧
    includes (Examples.asciiLowerCase Examples.visitWithoutMiddleName.userData.firstName)
      (Examples.asciiLowerCase "undefined") = false ∧
    includes (Examples.asciiLowerCase Examples.visitWithoutMiddleName.slotTime)
      (Examples.asciiLowerCase "undefined") = false := by
  refine ⟨?_, ?_, ?_, rfl, ?_, by decide, by decide, by decide⟩
  · intro toLowerCase slotDateFormat history searchTerm
    exact List.filter_sublist history
  · intro toLowerCase slotDateFormat history searchTerm h
    simp [filteredAppointments, matchesSearch, h]
  · intro toLowerCase slotDateFormat history searchTerm app
    simp [filteredAppointments, List.mem_filter]
  · intro slotDateFormat
    have h1 : ConsultationSummaryModal.trim "undefined" ≠ "" := by decide
    have h2 : includes
        (Examples.asciiLowerCase
          (Examples.visitWithoutMiddleName.userData.lastName ++ " " ++
            Examples.visitWithoutMiddleName.userData.firstName ++ " " ++
            interpolate Examples.visitWithoutMiddleName.userData.middleName))
        (Examples.asciiLowerCase "undefined") = true := by decide
    simp [filteredAppointments, matchesSearch, h1, h2]

end DoctorAppointmentHistory

/-! ## Per-doctor counts of the dashboard -/

namespace Dashboard

section Tally

variable {E : Type} (fresh : Appointment → E) (count : Appointment → E → E)

theorem tally_keys (acc : List (String × E)) (app : Appointment) :
    (tallyOwn fresh count acc app).map Prod.fst =
      if app.docId ∈ acc.map Prod.fst then acc.map Prod.fst
      else acc.map Prod.fst ++ [app.docId] := by
  have hany : (acc.any fun p => p.1 == app.docId) = true ↔ app.docId ∈ acc.map Prod.fst := by
    simp only [List.any_eq_true, beq_iff_eq, List.mem_map]
  have hmap : ∀ l : List (String × E),
      (l.map fun p => if p.1 = app.docId then (p.1, count app p.2) else p).map Prod.fst =
        l.map Prod.fst := by
    intro l
    rw [List.map_map]
    apply List.map_congr_left
    intro p _
    by_cases h : p.1 = app.docId <;> simp [h]
  unfold tallyOwn
  rw [hmap]
  by_cases h : app.docId ∈ acc.map Prod.fst
  · rw [if_pos (hany.mpr h), if_pos h]
  · have h2 : ¬ (acc.any fun p => p.1 == app.docId) = true := fun hh => h (hany.mp hh)
    rw [if_neg h2, if_neg h]
    simp

theorem tally_keys_nodup (l : List Appointment) :
    ((l.foldl (tallyOwn fresh count) []).map Prod.fst).Nodup := by
  induction l using List.reverseRecOn with
  | nil => simp
  | append_singleton l a ih =>
    rw [List.foldl_append, List.foldl_cons, List.foldl_nil, tally_keys]
    split_ifs with h
    · exact ih
    · exact List.Nodup.append ih (List.nodup_singleton _) (by simpa using h)

theorem tally_mem_keys (l : List Appointment) (k : String) :
    k ∈ (l.foldl (tallyOwn fresh count) []).map Prod.fst ↔ k ∈ l.map (fun a => a.docId) := by
  induction l using List.reverseRecOn with
  | nil => simp
  | append_singleton l a ih =>
    rw [List.foldl_append, List.foldl_cons, List.foldl_nil, tally_keys]
    split_ifs with h
    · rw [ih]
      simp only [List.map_append, List.map_cons, List.map_nil, List.mem_append,
        List.mem_singleton]
      constructor
      · exact Or.inl
      · rintro (h1 | rfl)
        · exact h1
        · exact ih.mp h
    · simp only [List.map_append, List.map_cons, List.map_nil, List.mem_append,
        List.mem_singleton, ih]

theorem tally_mem (acc : List (String × E)) (app : Appointment) (p : String × E)
    (hp : p ∈ tallyOwn fresh count acc app) :
    (p.1 ≠ app.docId ∧ p ∈ acc) ∨
    (p.1 = app.docId ∧ ∃ e, p.2 = count app e ∧
      ((p.1, e) ∈ acc ∨ (app.docId ∉ acc.map Prod.fst ∧ e = fresh app))) := by
  unfold tallyOwn at hp
  rw [List.mem_map] at hp
  obtain ⟨q, hq, rfl⟩ := hp
  have hq2 : q ∈ acc ∨ (app.docId ∉ acc.map Prod.fst ∧ q = (app.docId, fresh app)) := by
    by_cases hany : (acc.any fun p => p.1 == app.docId) = true
    · rw [if_pos hany] at hq
      exact Or.inl hq
    · rw [if_neg hany] at hq
      rcases List.mem_append.mp hq with h | h
      · exact Or.inl h
      · refine Or.inr ⟨?_, by simpa using h⟩
        intro hmem
        apply hany
        obtain ⟨r, hr, hr1⟩ := List.mem_map.mp hmem
        exact List.any_eq_true.mpr ⟨r, hr, by simp [hr1]⟩
  by_cases hk : q.1 = app.docId
  · right
    rw [if_pos hk]
    refine ⟨hk, q.2, rfl, ?_⟩
    rcases hq2 with h | ⟨h1, h2⟩
    · exact Or.inl h
    · exact Or.inr ⟨h1, by rw [h2]⟩
  · left
    rw [if_neg hk]
    refine ⟨hk, ?_⟩
    rcases hq2 with h | ⟨_, h2⟩
    · exact h
    · exact absurd (by rw [h2]) hk

theorem tally_counter (w : E → Nat) (hit : Appointment → Bool)
    (hfresh : ∀ a, w (fresh a) = 0)
    (hcount : ∀ a e, w (count a e) = w e + if hit a then 1 else 0)
    (l : List Appointment) :
    ∀ p ∈ l.foldl (tallyOwn fresh count) [],
      w p.2 = l.countP (fun a => decide (a.docId = p.1) && hit a) := by
  induction l using List.reverseRecOn with
  | nil => simp
  | append_singleton l a ih =>
    intro p hp
    rw [List.foldl_append, List.foldl_cons, List.foldl_nil] at hp
    rw [List.countP_append]
    rcases tally_mem fresh count _ a p hp with ⟨h1, h2⟩ | ⟨h1, e, he, h2⟩
    · rw [ih p h2]
      have : a.docId ≠ p.1 := fun h => h1 h.symm
      simp [List.countP_cons, this]
    · rw [he, hcount]
      rcases h2 with h2 | ⟨h3, h4⟩
      · rw [ih _ h2]
        simp [List.countP_cons, h1]
      · rw [h4, hfresh]
        have hz : l.countP (fun x => decide (x.docId = p.1) && hit x) = 0 := by
          rw [List.countP_eq_zero]
          intro x hx hxx
          apply h3
          rw [tally_mem_keys]
          simp only [Bool.and_eq_true, decide_eq_true_eq] at hxx
          exact List.mem_map.mpr ⟨x, hx, by rw [hxx.1, h1]⟩
        rw [hz]
        simp [List.countP_cons, h1]

theorem sum_bump (w : E → Nat) (k : String) (f : E → E) (hf : ∀ e, w (f e) = w e + 1) :
    ∀ acc : List (String × E), (acc.map Prod.fst).Nodup → k ∈ acc.map Prod.fst →
      ((acc.map fun p => if p.1 = k then (p.1, f p.2) else p).map fun p => w p.2).sum =
        (acc.map fun p => w p.2).sum + 1 := by
  intro acc
  induction acc with
  | nil => intro _ h; simp at h
  | cons q rest ih =>
    intro hnd hk
    simp only [List.map_cons, List.nodup_cons] at hnd
    simp only [List.map_cons, List.sum_cons]
    by_cases hq : q.1 = k
    · rw [if_pos hq]
      have hrest : (rest.map fun p => if p.1 = k then (p.1, f p.2) else p) = rest := by
        conv_rhs => rw [← List.map_id rest]
        apply List.map_congr_left
        intro p hp
        have : p.1 ≠ k := by
          intro h
          apply hnd.1
          rw [hq, ← h]
          exact List.mem_map.mpr ⟨p, hp, rfl⟩
        simp [this]
      rw [hrest]
      simp only [hf]
      omega
    · rw [if_neg hq]
      have hk2 : k ∈ rest.map Prod.fst := by
        simp only [List.map_cons, List.mem_cons] at hk
        rcases hk with h | h
        · exact absurd h.symm hq
        · exact h
      rw [ih hnd.2 hk2]
      omega

theorem tally_total (w : E → Nat) (hfresh : ∀ a, w (fresh a) = 0)
    (hcount : ∀ a e, w (count a e) = w e + 1) (l : List Appointment) :
    ((l.foldl (tallyOwn fresh count) []).map fun p => w p.2).sum = l.length := by
  induction l using List.reverseRecOn with
  | nil => simp
  | append_singleton l a ih =>
    rw [List.foldl_append, List.foldl_cons, List.foldl_nil, List.length_append,
      List.length_singleton, ← ih]
    have hnd := tally_keys_nodup fresh count l
    generalize l.foldl (tallyOwn fresh count) [] = acc at hnd ⊢
    unfold tallyOwn
    by_cases hany : (acc.any fun p => p.1 == a.docId) = true
    · rw [if_pos hany]
      apply sum_bump w a.docId (count a) (hcount a) _ hnd
      obtain ⟨r, hr, hr1⟩ := List.any_eq_true.mp hany
      exact List.mem_map.mpr ⟨r, hr, by simpa using hr1⟩
    · rw [if_neg hany]
      have hnot : a.docId ∉ acc.map Prod.fst := by
        intro hmem
        apply hany
        obtain ⟨r, hr, hr1⟩ := List.mem_map.mp hmem
        exact List.any_eq_true.mpr ⟨r, hr, by simp [hr1]⟩
      rw [sum_bump w a.docId (count a) (hcount a)]
      · simp [hfresh]
      · rw [List.map_append]
        exact List.Nodup.append hnd (List.nodup_singleton _) (by simpa using hnot)
      · simp

end Tally

theorem countP_by_status (l : List Appointment) (k : String) :
    l.countP (fun a => decide (a.docId = k)) =
      l.countP (fun a => decide (a.docId = k) && a.isCompleted) +
      l.countP (fun a => decide (a.docId = k) && (!a.isCompleted && a.cancelled)) +
      l.countP (fun a => decide (a.docId = k) && (!a.isCompleted && !a.cancelled)) := by
  induction l with
  | nil => rfl
  | cons a rest ih =>
    simp only [List.countP_cons, ih]
    by_cases h : a.docId = k <;> cases a.isCompleted <;> cases a.cancelled <;> simp [h] <;> omega

theorem foldl_tally {E : Type} (fresh : Appointment → E) (count : Appointment → E → E)
    (l : List Appointment) :
    ∀ acc : List (String × E),
      l.foldl (tally fresh count) acc = (counted l).foldl (tallyOwn fresh count) acc := by
  induction l with
  | nil => intro acc; rfl
  | cons a rest ih =>
    intro acc
    by_cases h : a.docId ∈ objectPrototypeMembers
    · have hc : counted (a :: rest) = counted rest := by
        simp [counted, h]
      rw [List.foldl_cons, hc, ← ih]
      simp only [tally, h, if_true]
    · have hc : counted (a :: rest) = a :: counted rest := by
        simp [counted, h]
      rw [List.foldl_cons, hc, List.foldl_cons, ← ih]
      simp only [tally, h, if_false]

theorem doctorStats_eq (appointments : List Appointment) :
    doctorStats appointments =
      (counted appointments).foldl (tallyOwn DoctorStat.fresh DoctorStat.count) [] :=
  foldl_tally _ _ appointments []

theorem performanceStats_eq (appointments : List Appointment) :
    performanceStats appointments =
      (counted appointments).foldl (tallyOwn DoctorPerformance.fresh DoctorPerformance.count) [] :=
  foldl_tally _ _ appointments []

theorem mem_counted (appointments : List Appointment) (a : Appointment) :
    a ∈ counted appointments ↔ a ∈ appointments ∧ a.docId ∉ objectPrototypeMembers := by
  simp [counted]

theorem mem_counted_ids (appointments : List Appointment) (k : String) :
    k ∈ (counted appointments).map (fun a => a.docId) ↔
      k ∈ appointments.map (fun a => a.docId) ∧ k ∉ objectPrototypeMembers := by
  simp only [List.mem_map, mem_counted]
  constructor
  · rintro ⟨a, ⟨ha, hn⟩, rfl⟩
    exact ⟨⟨a, ha, rfl⟩, hn⟩
  · rintro ⟨⟨a, ha, rfl⟩, hn⟩
    exact ⟨a, ⟨ha, hn⟩, rfl⟩

theorem countP_counted (appointments : List Appointment) (k : String)
    (hk : k ∉ objectPrototypeMembers) (hit : Appointment → Bool) :
    (counted appointments).countP (fun a => decide (a.docId = k) && hit a) =
      appointments.countP (fun a => decide (a.docId = k) && hit a) := by
  unfold counted
  rw [List.countP_filter]
  apply List.countP_congr
  intro a _
  by_cases h : a.docId = k
  · subst h
    simp [hk]
  · simp [h]

theorem doctorStats_key (appointments : List Appointment) (k : String) :
    k ∈ (doctorStats appointments).map Prod.fst ↔
      k ∈ appointments.map (fun a => a.docId) ∧ k ∉ objectPrototypeMembers := by
  rw [doctorStats_eq, tally_mem_keys, mem_counted_ids]

theorem performanceStats_key (appointments : List Appointment) (k : String) :
    k ∈ (performanceStats appointments).map Prod.fst ↔
      k ∈ appointments.map (fun a => a.docId) ∧ k ∉ objectPrototypeMembers := by
  rw [performanceStats_eq, tally_mem_keys, mem_counted_ids]

theorem doctorStats_entry (appointments : List Appointment) :
    ∀ p ∈ doctorStats appointments,
      p.2.totalAppointments = appointments.countP (fun a => decide (a.docId = p.1)) ∧
      p.2.completedAppointments =
        appointments.countP (fun a => decide (a.docId = p.1) && a.isCompleted) ∧
      p.2.cancelledAppointments =
        appointments.countP (fun a => decide (a.docId = p.1) && (!a.isCompleted && a.cancelled)) ∧
      p.2.pendingAppointments =
        appointments.countP (fun a => decide (a.docId = p.1) && (!a.isCompleted && !a.cancelled)) := by
  intro p hp
  have hk : p.1 ∉ objectPrototypeMembers :=
    ((doctorStats_key appointments p.1).mp (List.mem_map.mpr ⟨p, hp, rfl⟩)).2
  rw [doctorStats_eq] at hp
  have h1 := tally_counter DoctorStat.fresh DoctorStat.count (fun e => e.totalAppointments)
    (fun _ => true) (fun _ => rfl)
    (by intro a e; unfold DoctorStat.count; split_ifs <;> simp_all) (counted appointments) p hp
  have h2 := tally_counter DoctorStat.fresh DoctorStat.count (fun e => e.completedAppointments)
    (fun a => a.isCompleted) (fun _ => rfl)
    (by intro a e; unfold DoctorStat.count; split_ifs <;> simp_all) (counted appointments) p hp
  have h3 := tally_counter DoctorStat.fresh DoctorStat.count (fun e => e.cancelledAppointments)
    (fun a => !a.isCompleted && a.cancelled) (fun _ => rfl)
    (by intro a e; unfold DoctorStat.count; split_ifs <;> simp_all) (counted appointments) p hp
  have h4 := tally_counter DoctorStat.fresh DoctorStat.count (fun e => e.pendingAppointments)
    (fun a => !a.isCompleted && !a.cancelled) (fun _ => rfl)
    (by intro a e; unfold DoctorStat.count; split_ifs <;> simp_all) (counted appointments) p hp
  rw [countP_counted appointments p.1 hk] at h1 h2 h3 h4
  refine ⟨?_, h2, h3, h4⟩
  simpa using h1

theorem performanceStats_entry (appointments : List Appointment) :
    ∀ p ∈ performanceStats appointments,
      p.2.total = appointments.countP (fun a => decide (a.docId = p.1)) ∧
      p.2.completed = appointments.countP (fun a => decide (a.docId = p.1) && a.isCompleted) ∧
      p.2.cancelled =
        appointments.countP (fun a => decide (a.docId = p.1) && (!a.isCompleted && a.cancelled)) ∧
      p.2.pending =
        appointments.countP (fun a => decide (a.docId = p.1) && (!a.isCompleted && !a.cancelled)) := by
  intro p hp
  have hk : p.1 ∉ objectPrototypeMembers :=
    ((performanceStats_key appointments p.1).mp (List.mem_map.mpr ⟨p, hp, rfl⟩)).2
  rw [performanceStats_eq] at hp
  have h1 := tally_counter DoctorPerformance.fresh DoctorPerformance.count (fun e => e.total)
    (fun _ => true) (fun _ => rfl)
    (by intro a e; unfold DoctorPerformance.count; split_ifs <;> simp_all)
    (counted appointments) p hp
  have h2 := tally_counter DoctorPerformance.fresh DoctorPerformance.count (fun e => e.completed)
    (fun a => a.isCompleted) (fun _ => rfl)
    (by intro a e; unfold DoctorPerformance.count; split_ifs <;> simp_all)
    (counted appointments) p hp
  have h3 := tally_counter DoctorPerformance.fresh DoctorPerformance.count (fun e => e.cancelled)
    (fun a => !a.isCompleted && a.cancelled) (fun _ => rfl)
    (by intro a e; unfold DoctorPerformance.count; split_ifs <;> simp_all)
    (counted appointments) p hp
  have h4 := tally_counter DoctorPerformance.fresh DoctorPerformance.count (fun e => e.pending)
    (fun a => !a.isCompleted && !a.cancelled) (fun _ => rfl)
    (by intro a e; unfold DoctorPerformance.count; split_ifs <;> simp_all)
    (counted appointments) p hp
  rw [countP_counted appointments p.1 hk] at h1 h2 h3 h4
  refine ⟨?_, h2, h3, h4⟩
  simpa using h1

theorem doctorStats_has_entry (appointments : List Appointment) (docId : String)
    (h : docId ∈ appointments.map (fun a => a.docId)) (hk : docId ∉ objectPrototypeMembers) :
    ∃ e, (docId, e) ∈ doctorStats appointments := by
  have := (doctorStats_key appointments docId).mpr ⟨h, hk⟩
  obtain ⟨p, hp, rfl⟩ := List.mem_map.mp this
  exact ⟨p.2, hp⟩

theorem performanceStats_has_entry (appointments : List Appointment) (docId : String)
    (h : docId ∈ appointments.map (fun a => a.docId)) (hk : docId ∉ objectPrototypeMembers) :
    ∃ e, (docId, e) ∈ performanceStats appointments := by
  have := (performanceStats_key appointments docId).mpr ⟨h, hk⟩
  obtain ⟨p, hp, rfl⟩ := List.mem_map.mp this
  exact ⟨p.2, hp⟩

theorem doctorStats_keys_nodup (appointments : List Appointment) :
    ((doctorStats appointments).map Prod.fst).Nodup := by
  rw [doctorStats_eq]
  exact tally_keys_nodup _ _ _

theorem performanceStats_keys_nodup (appointments : List Appointment) :
    ((performanceStats appointments).map Prod.fst).Nodup := by
  rw [performanceStats_eq]
  exact tally_keys_nodup _ _ _

/-- C29 (as amended): the per-doctor counts partition the doctor's appointments, for
the doctors that get an entry. For every appointment list, both `doctorStats` objects
(the one of the dashboard and the one of `processAnalytics`) have exactly one entry for
each `docId` that occurs and is not the name of a member of `Object.prototype`, and no
entry for a `docId` that is such a name. In each entry the total is the number of
appointments with that `docId`; the completed count is the number of those flagged
completed, the cancelled count the number of those flagged cancelled and not completed,
the pending count the number of those flagged neither, so an appointment flagged both
is counted as completed only, and the total is the sum of the three. The totals of all
entries add up to the number of appointments whose `docId` is not such a name. -/
theorem doctorStats_counts_partition (appointments : List Appointment) :
    ((doctorStats appointments).map Prod.fst).Nodup ∧
    (∀ app ∈ appointments, app.docId ∉ objectPrototypeMembers →
      ∃ e, (app.docId, e) ∈ doctorStats appointments) ∧
    (∀ p ∈ doctorStats appointments, p.1 ∉ objectPrototypeMembers) ∧
    (∀ p ∈ doctorStats appointments,
      p.2.totalAppointments = appointments.countP (fun a => decide (a.docId = p.1)) ∧
      p.2.completedAppointments =
        appointments.countP (fun a => decide (a.docId = p.1) && a.isCompleted) ∧
      p.2.cancelledAppointments =
        appointments.countP (fun a => decide (a.docId = p.1) && (!a.isCompleted && a.cancelled)) ∧
      p.2.pendingAppointments =
        appointments.countP (fun a => decide (a.docId = p.1) && (!a.isCompleted && !a.cancelled)) ∧
      p.2.totalAppointments =
        p.2.completedAppointments + p.2.cancelledAppointments + p.2.pendingAppointments) ∧
    ((doctorStats appointments).map fun p => p.2.totalAppointments).sum =
      (counted appointments).length ∧
    ((performanceStats appointments).map Prod.fst).Nodup ∧
    (∀ app ∈ appointments, app.docId ∉ objectPrototypeMembers →
      ∃ e, (app.docId, e) ∈ performanceStats appointments) ∧
    (∀ p ∈ performanceStats appointments, p.1 ∉ objectPrototypeMembers) ∧
    (∀ p ∈ performanceStats appointments,
      p.2.total = appointments.countP (fun a => decide (a.docId = p.1)) ∧
      p.2.completed = appointments.countP (fun a => decide (a.docId = p.1) && a.isCompleted) ∧
      p.2.cancelled =
        appointments.countP (fun a => decide (a.docId = p.1) && (!a.isCompleted && a.cancelled)) ∧
      p.2.pending =
        appointments.countP (fun a => decide (a.docId = p.1) && (!a.isCompleted && !a.cancelled)) ∧
      p.2.total = p.2.completed + p.2.cancelled + p.2.pending) ∧
    ((performanceStats appointments).map fun p => p.2.total).sum =
      (counted appointments).length ∧
    ((∀ app ∈ appointments, app.docId ∉ objectPrototypeMembers) →
      counted appointments = appointments) := by
  refine ⟨doctorStats_keys_nodup _, ?_, ?_, ?_, ?_, performanceStats_keys_nodup _,
    ?_, ?_, ?_, ?_, ?_⟩
  · intro app happ hk
    exact doctorStats_has_entry appointments app.docId (List.mem_map.mpr ⟨app, happ, rfl⟩) hk
  · intro p hp
    exact ((doctorStats_key appointments p.1).mp (List.mem_map.mpr ⟨p, hp, rfl⟩)).2
  · intro p hp
    obtain ⟨h1, h2, h3, h4⟩ := doctorStats_entry appointments p hp
    exact ⟨h1, h2, h3, h4, by rw [h1, h2, h3, h4]; exact countP_by_status appointments p.1⟩
  · rw [doctorStats_eq]
    exact tally_total DoctorStat.fresh DoctorStat.count (fun e => e.totalAppointments)
      (fun _ => rfl) (by intro a e; unfold DoctorStat.count; split_ifs <;> rfl)
      (counted appointments)
  · intro app happ hk
    exact performanceStats_has_entry appointments app.docId
      (List.mem_map.mpr ⟨app, happ, rfl⟩) hk
  · intro p hp
    exact ((performanceStats_key appointments p.1).mp (List.mem_map.mpr ⟨p, hp, rfl⟩)).2
  · intro p hp
    obtain ⟨h1, h2, h3, h4⟩ := performanceStats_entry appointments p hp
    exact ⟨h1, h2, h3, h4, by rw [h1, h2, h3, h4]; exact countP_by_status appointments p.1⟩
  · rw [performanceStats_eq]
    exact tally_total DoctorPerformance.fresh DoctorPerformance.count (fun e => e.total)
      (fun _ => rfl) (by intro a e; unfold DoctorPerformance.count; split_ifs <;> rfl)
      (counted appointments)
  · intro h
    unfold counted
    rw [List.filter_eq_self]
    intro a ha
    simpa using h a ha

/-- C29, counterexample: an appointment whose `docId` is `constructor`, followed by one
of doctor `d1`. `acc["constructor"]` is the inherited `Object` function, so no entry is
created for it: both objects hold the entry of `d1` only, and the totals add up to 1,
not to the 2 appointments of the list. -/
theorem doctorStats_skips_inherited_name :
    Examples.constructorVisit ∈ [Examples.constructorVisit, Examples.unseenVisit] ∧
    (doctorStats [Examples.constructorVisit, Examples.unseenVisit]).map Prod.fst = ["d1"] ∧
    (∀ e, (Examples.constructorVisit.docId, e) ∉
      doctorStats [Examples.constructorVisit, Examples.unseenVisit]) ∧
    ((doctorStats [Examples.constructorVisit, Examples.unseenVisit]).map
      fun p => p.2.totalAppointments).sum = 1 ∧
    (performanceStats [Examples.constructorVisit, Examples.unseenVisit]).map Prod.fst = ["d1"] ∧
    ((performanceStats [Examples.constructorVisit, Examples.unseenVisit]).map
      fun p => p.2.total).sum = 1 ∧
    [Examples.constructorVisit, Examples.unseenVisit].length = 2 := by
  refine ⟨by decide, by decide, ?_, by decide, by decide, by decide, rfl⟩
  intro e he
  have h : (Examples.constructorVisit.docId, e).1 ∈
      (doctorStats [Examples.constructorVisit, Examples.unseenVisit]).map Prod.fst :=
    List.mem_map.mpr ⟨_, he, rfl⟩
  have h2 : (doctorStats [Examples.constructorVisit, Examples.unseenVisit]).map Prod.fst =
      ["d1"] := by decide
  rw [h2] at h
  exact absurd (show Examples.constructorVisit.docId ∈ ["d1"] from h) (by decide)

end Dashboard

/-! ## The most selected doctors -/

namespace Dashboard

theorem tallyOwn_id (l : List Appointment) :
    ∀ p ∈ l.foldl (tallyOwn DoctorStat.fresh DoctorStat.count) [], p.2.id = p.1 := by
  induction l using List.reverseRecOn with
  | nil => simp
  | append_singleton l a ih =>
    intro p hp
    rw [List.foldl_append, List.foldl_cons, List.foldl_nil] at hp
    have hc : ∀ e : DoctorStat, (DoctorStat.count a e).id = e.id := by
      intro e
      unfold DoctorStat.count
      split_ifs <;> rfl
    rcases tally_mem DoctorStat.fresh DoctorStat.count _ a p hp with ⟨_, h2⟩ | ⟨h1, e, he, h2⟩
    · exact ih p h2
    · rw [he, hc]
      rcases h2 with h2 | ⟨_, h4⟩
      · exact ih _ h2
      · rw [h4, h1]
        rfl

theorem doctorStats_id (appointments : List Appointment) :
    ∀ p ∈ doctorStats appointments, p.2.id = p.1 := by
  rw [doctorStats_eq]
  exact tallyOwn_id (counted appointments)

theorem objectValues_perm {E : Type} (o : List (String × E)) :
    (objectValues o).Perm (o.map Prod.snd) := by
  unfold objectValues
  apply List.Perm.map
  refine List.Perm.trans (List.Perm.append_right _ (List.perm_insertionSort _ _)) ?_
  exact List.filter_append_perm _ o

theorem mostSelectedDoctors_sorted (appointments : List Appointment) :
    (List.insertionSort (fun a b : DoctorStat => b.totalAppointments ≤ a.totalAppointments)
      (objectValues (doctorStats appointments))).Pairwise
      (fun a b => b.totalAppointments ≤ a.totalAppointments) := by
  haveI : IsTotal DoctorStat (fun a b => b.totalAppointments ≤ a.totalAppointments) :=
    ⟨fun a b => Nat.le_total _ _⟩
  haveI : IsTrans DoctorStat (fun a b => b.totalAppointments ≤ a.totalAppointments) :=
    ⟨fun a b c h1 h2 => Nat.le_trans h2 h1⟩
  exact List.sorted_insertionSort _ _

theorem mem_sorted_iff (appointments : List Appointment) (e : DoctorStat) :
    e ∈ List.insertionSort (fun a b : DoctorStat => b.totalAppointments ≤ a.totalAppointments)
        (objectValues (doctorStats appointments)) ↔
      ∃ p ∈ doctorStats appointments, p.2 = e := by
  rw [(List.perm_insertionSort _ _).mem_iff, (objectValues_perm _).mem_iff, List.mem_map]

/-- C26 (as amended): the three most selected doctors, among the doctors that get an
entry. For every appointment list, `mostSelectedDoctors` has `min 3 d` entries, `d`
being the number of distinct `docId`s that are not the name of a member of
`Object.prototype`; the entries belong to different doctors, each one to a doctor that
occurs in the list under such a `docId`, with `totalAppointments` equal to the number
of appointments of that doctor; they are in non-increasing order of
`totalAppointments`; and a doctor of the list with such a `docId` that is left out has
no more appointments than any entry that is included. When no `docId` of the list is
the name of a member of `Object.prototype`, `d` is the number of distinct `docId`s. -/
theorem mostSelectedDoctors_top_three (appointments : List Appointment) :
    (mostSelectedDoctors appointments).length =
      min 3 ((counted appointments).map fun a => a.docId).dedup.length ∧
    (mostSelectedDoctors appointments).Pairwise
      (fun a b => b.totalAppointments ≤ a.totalAppointments) ∧
    ((mostSelectedDoctors appointments).map fun e => e.id).Nodup ∧
    (∀ e ∈ mostSelectedDoctors appointments,
      e.id ∈ appointments.map (fun a => a.docId) ∧
      e.id ∉ objectPrototypeMembers ∧
      e.totalAppointments = appointments.countP (fun a => decide (a.docId = e.id))) ∧
    (∀ app ∈ appointments, app.docId ∉ objectPrototypeMembers →
      (∀ e ∈ mostSelectedDoctors appointments, e.id ≠ app.docId) →
      ∀ e ∈ mostSelectedDoctors appointments,
        appointments.countP (fun a => decide (a.docId = app.docId)) ≤ e.totalAppointments) ∧
    ((∀ app ∈ appointments, app.docId ∉ objectPrototypeMembers) →
      counted appointments = appointments) := by
  have hsorted := mostSelectedDoctors_sorted appointments
  have hkeys : ((doctorStats appointments).map Prod.fst).Nodup :=
    doctorStats_keys_nodup appointments
  have hmemkeys : ∀ k : String, k ∈ (doctorStats appointments).map Prod.fst ↔
      k ∈ (counted appointments).map (fun a => a.docId) := by
    intro k
    rw [doctorStats_key, mem_counted_ids]
  have hids : (doctorStats appointments).map (fun p => p.2.id) =
      (doctorStats appointments).map Prod.fst :=
    List.map_congr_left (fun p hp => doctorStats_id appointments p hp)
  refine ⟨?_, ?_, ?_, ?_, ?_, ?_⟩
  · unfold mostSelectedDoctors
    rw [List.length_take, List.length_insertionSort, (objectValues_perm _).length_eq,
      List.length_map]
    have hperm : ((doctorStats appointments).map Prod.fst).Perm
        ((counted appointments).map fun a => a.docId).dedup := by
      rw [List.perm_ext_iff_of_nodup hkeys (List.nodup_dedup _)]
      intro k
      rw [List.mem_dedup]
      exact hmemkeys k
    have := hperm.length_eq
    rw [List.length_map] at this
    rw [this]
  · exact hsorted.sublist (List.take_sublist _ _)
  · unfold mostSelectedDoctors
    have hnd : ((List.insertionSort
        (fun a b : DoctorStat => b.totalAppointments ≤ a.totalAppointments)
        (objectValues (doctorStats appointments))).map fun e => e.id).Nodup := by
      have hp : ((List.insertionSort
          (fun a b : DoctorStat => b.totalAppointments ≤ a.totalAppointments)
          (objectValues (doctorStats appointments))).map fun e => e.id).Perm
          ((doctorStats appointments).map Prod.fst) := by
        have hq := ((List.perm_insertionSort
          (fun a b : DoctorStat => b.totalAppointments ≤ a.totalAppointments)
          (objectValues (doctorStats appointments))).trans (objectValues_perm _)).map
          (fun e : DoctorStat => e.id)
        rw [List.map_map] at hq
        rw [← hids]
        exact hq
      exact hp.nodup_iff.mpr hkeys
    exact hnd.sublist ((List.take_sublist _ _).map _)
  · intro e he
    have he2 := (mem_sorted_iff appointments e).mp (List.mem_of_mem_take he)
    obtain ⟨p, hp, rfl⟩ := he2
    have hid := doctorStats_id appointments p hp
    have hk := (doctorStats_key appointments p.1).mp (List.mem_map.mpr ⟨p, hp, rfl⟩)
    refine ⟨?_, ?_, ?_⟩
    · rw [hid]
      exact hk.1
    · rw [hid]
      exact hk.2
    · rw [hid]
      exact (doctorStats_entry appointments p hp).1
  · intro app happ hname hout e he
    obtain ⟨x, hx⟩ := doctorStats_has_entry appointments app.docId
      (List.mem_map.mpr ⟨app, happ, rfl⟩) hname
    have hxid : x.id = app.docId := doctorStats_id appointments _ hx
    have hxs : x ∈ List.insertionSort
        (fun a b : DoctorStat => b.totalAppointments ≤ a.totalAppointments)
        (objectValues (doctorStats appointments)) :=
      (mem_sorted_iff appointments x).mpr ⟨_, hx, rfl⟩
    have hxt : x.totalAppointments =
        appointments.countP (fun a => decide (a.docId = app.docId)) :=
      (doctorStats_entry appointments _ hx).1
    rw [← List.take_append_drop 3 (List.insertionSort
        (fun a b : DoctorStat => b.totalAppointments ≤ a.totalAppointments)
        (objectValues (doctorStats appointments)))] at hxs hsorted
    rcases List.mem_append.mp hxs with h | h
    · exact absurd hxid (hout x h)
    · rw [← hxt]
      exact (List.pairwise_append.mp hsorted).2.2 e he x h
  · intro h
    unfold counted
    rw [List.filter_eq_self]
    intro a ha
    simpa using h a ha

/-- C26, counterexample: a list of one appointment, whose `docId` is `constructor`.
`acc["constructor"]` is the inherited `Object` function, so no entry is created:
`mostSelectedDoctors` is empty, although the list has one distinct `docId`. -/
theorem mostSelectedDoctors_skips_inherited_name :
    mostSelectedDoctors [Examples.constructorVisit] = [] ∧
    min 3 ([Examples.constructorVisit].map fun a => a.docId).dedup.length = 1 := by
  decide

end Dashboard

/-! ## The estimated gender split -/

namespace Dashboard

end Dashboard

end Clinica
